import Mathlib

/-! Screen_EPD_EXT3: frame buffer, addressing and orientation

A shallow embedding of `src/src/Screen_EPD_EXT3.cpp` (Pervasive Displays Library
Suite, EXT3 board driver) and theorems about it.

Conventions of the embedding

* The object's member variables are the fields of `Screen`, under their source names.
* `uint8_t` / `uint16_t` / `uint32_t` values are `Nat`; where a C expression can wrap
  the width is written as an explicit `% 2 ^ w`.
* The frame buffer `_newImage` is a raw `uint8_t *`: it is embedded as the map from an
  index to the byte stored there. The number of bytes `begin` allocates is
  `_pageColourSize * _bufferDepth`.
* A C++ method that mutates the object is a function `Screen → ... → Screen`.
* A reference parameter that is written (`_orientCoordinates(uint16_t & x, uint16_t & y)`)
  is returned next to the result.
-/

namespace EPD

/-! ## Data model -/

/-- The colour table `myColours` read by the driver. Its declaration is in a header that is
not among the translated sources, so the table is a parameter of every function that reads
it; the six entries are `uint16_t` constants. -/
structure Colours where
  black : Nat
  white : Nat
  grey : Nat
  red : Nat
  lightRed : Nat
  darkRed : Nat
deriving DecidableEq, Repr

/-- The six named colours are pairwise different values. -/
def Colours.Distinct (c : Colours) : Prop :=
  [c.black, c.white, c.grey, c.red, c.lightRed, c.darkRed].Nodup

instance (c : Colours) : Decidable c.Distinct := by
  unfold Colours.Distinct; exact inferInstance

/-- Modelled from the spec: the enumeration of logical colours
{white, black, red, grey, darkRed, lightRed}, as six different 16-bit values (RGB565
encodings); the header that declares `myColours` is missing from the sources. Used to
instantiate the colour table at concrete inputs. -/
def colours565 : Colours :=
  { black := 0x0000, white := 0xFFFF, grey := 0x7BEF, red := 0xF800,
    lightRed := 0xFC10, darkRed := 0x7800 }

/-- Member variables of `Screen_EPD_EXT3` that the translated methods read or write. -/
structure Screen where
  _eScreen_EPD_EXT3 : Nat
  _codeExtra : Nat
  _codeSize : Nat
  _codeType : Nat
  _screenColourBits : Nat
  _screenSizeV : Nat
  _screenSizeH : Nat
  _screenDiagonal : Nat
  _bufferDepth : Nat
  _bufferSizeV : Nat
  _bufferSizeH : Nat
  _pageColourSize : Nat
  _frameSize : Nat
  _screenWidth : Nat
  _screenHeigth : Nat
  _orientation : Nat
  _invert : Bool
  _temperature : Int
  _newImage : Nat → Nat

/-! ## Arduino and libc primitives used by the driver -/

/-- Arduino `bitRead(value, bit)`, that is `(((value) >> (bit)) & 0x01)`. -/
def bitRead (value bit : Nat) : Nat := (value >>> bit) &&& 0x01

/-- Arduino `bitSet(value, bit)`, that is `((value) |= (1UL << (bit)))`, on a `uint8_t`
lvalue: the new value of the byte. -/
def bitSet (value bit : Nat) : Nat := (value ||| ((1 <<< bit) % 2 ^ 32)) % 256

/-- Arduino `bitClear(value, bit)`, that is `((value) &= ~(1UL << (bit)))`, on a `uint8_t`
lvalue: the new value of the byte. `~` is the complement of a 32-bit `unsigned long`. -/
def bitClear (value bit : Nat) : Nat :=
  (value &&& (2 ^ 32 - 1 - (1 <<< bit) % 2 ^ 32)) % 256

/-- The assignment `img[idx] = v` to a `uint8_t` cell. -/
def store (img : Nat → Nat) (idx v : Nat) : Nat → Nat :=
  fun k => if k = idx then v % 256 else img k

/-- The libc call `memset(img + off, v, n)`. -/
def memset (img : Nat → Nat) (off v n : Nat) : Nat → Nat :=
  fun k => if off ≤ k ∧ k < off + n then v % 256 else img k

/-! ## Orientation and addressing -/

/-- `Screen_EPD_EXT3::_setOrientation`. -/
def _setOrientation (s : Screen) (orientation : Nat) : Screen :=
  { s with _orientation := orientation % 4 }

/-- `Screen_EPD_EXT3::_orientCoordinates(uint16_t & x, uint16_t & y)`.
Returns the flag (`false` = success, `true` = error) and the values of `x` and `y` on
return. Every subtraction is guarded by the comparison before it, so none wraps. -/
def _orientCoordinates (s : Screen) (x y : Nat) : Bool × Nat × Nat :=
  if s._orientation = 3 then
    if x < s._screenSizeV ∧ y < s._screenSizeH then
      (false, s._screenSizeV - 1 - x, y)
    else (true, x, y)
  else if s._orientation = 2 then
    if x < s._screenSizeH ∧ y < s._screenSizeV then
      let x := s._screenSizeH - 1 - x
      let y := s._screenSizeV - 1 - y
      -- swap(x, y)
      (false, y, x)
    else (true, x, y)
  else if s._orientation = 1 then
    if x < s._screenSizeV ∧ y < s._screenSizeH then
      (false, x, s._screenSizeH - 1 - y)
    else (true, x, y)
  else
    if x < s._screenSizeH ∧ y < s._screenSizeV then
      -- swap(x, y)
      (false, y, x)
    else (true, x, y)

/-- `Screen_EPD_EXT3::_getZ(uint16_t x1, uint16_t y1)`, in `uint32_t` arithmetic. -/
def _getZ (s : Screen) (x1 y1 : Nat) : Nat :=
  if s._codeSize = 0x96 ∨ s._codeSize = 0xB9 then
    if y1 ≥ (s._screenSizeH >>> 1) then
      let y1 := y1 - (s._screenSizeH >>> 1)
      let z1 := (0 + (s._pageColourSize >>> 1)) % 2 ^ 32
      (z1 + (x1 * (s._bufferSizeH >>> 1) + (y1 >>> 3))) % 2 ^ 32
    else
      (0 + (x1 * (s._bufferSizeH >>> 1) + (y1 >>> 3))) % 2 ^ 32
  else
    (x1 * s._bufferSizeH + (y1 >>> 3)) % 2 ^ 32

/-! ## Pixel access -/

/-- The first part of `_setPoint` after the bounds check (source lines 939-974):
the composite colours are replaced by a basic colour, `x1`, `y1` being the oriented
coordinates. -/
def ditherColour (myColours : Colours) (s : Screen) (x1 y1 colour : Nat) : Nat :=
  let flagOdd : Bool := decide ((x1 + y1) % 2 = 0)
  if colour = myColours.darkRed then
    if flagOdd then myColours.red
    else (if s._invert then myColours.white else myColours.black)
  else if colour = myColours.lightRed then
    if flagOdd then myColours.red
    else (if s._invert then myColours.black else myColours.white)
  else if colour = myColours.grey then
    if flagOdd then myColours.black
    else myColours.white
  else colour

/-- The second part of `_setPoint` (source lines 976-995): the two plane bits of the
pixel at byte `z1`, bit `7 - (y1 % 8)` are written for a basic colour. -/
def writeBasic (myColours : Colours) (s : Screen) (z1 y1 colour : Nat) : Screen :=
  if colour = myColours.red then
    -- physical red 01
    let img := store s._newImage z1 (bitClear (s._newImage z1) (7 - (y1 % 8)))
    let img := store img (s._pageColourSize + z1)
      (bitSet (img (s._pageColourSize + z1)) (7 - (y1 % 8)))
    { s with _newImage := img }
  else if xor (decide (colour = myColours.white)) s._invert then
    -- physical black 00
    let img := store s._newImage z1 (bitClear (s._newImage z1) (7 - (y1 % 8)))
    let img := store img (s._pageColourSize + z1)
      (bitClear (img (s._pageColourSize + z1)) (7 - (y1 % 8)))
    { s with _newImage := img }
  else if xor (decide (colour = myColours.black)) s._invert then
    -- physical white 10
    let img := store s._newImage z1 (bitSet (s._newImage z1) (7 - (y1 % 8)))
    let img := store img (s._pageColourSize + z1)
      (bitClear (img (s._pageColourSize + z1)) (7 - (y1 % 8)))
    { s with _newImage := img }
  else s

/-- `Screen_EPD_EXT3::_setPoint(uint16_t x1, uint16_t y1, uint16_t colour)`. -/
def _setPoint (myColours : Colours) (s : Screen) (x1 y1 colour : Nat) : Screen :=
  let o := _orientCoordinates s x1 y1
  if o.1 = true then s
  else
    let x1 := o.2.1
    let y1 := o.2.2
    let z1 := _getZ s x1 y1
    let colour := ditherColour myColours s x1 y1 colour
    writeBasic myColours s z1 y1 colour

/-- `Screen_EPD_EXT3::_getPoint(uint16_t x1, uint16_t y1)`. -/
def _getPoint (myColours : Colours) (s : Screen) (x1 y1 : Nat) : Nat :=
  let o := _orientCoordinates s x1 y1
  if o.1 = true then 0
  else
    let x1 := o.2.1
    let y1 := o.2.2
    let z1 := _getZ s x1 y1
    let value := bitRead (s._newImage z1) (7 - (y1 % 8))
    let value := (value <<< 4) % 256
    let value := value ||| bitRead (s._newImage (s._pageColourSize + z1)) (7 - (y1 % 8))
    -- red = 0-1, black = 1-0, white 0-0
    if value = 0x10 then myColours.black
    else if value = 0x01 then myColours.red
    else myColours.white

/-- `Screen_EPD_EXT3::point`. -/
def point (myColours : Colours) (s : Screen) (x1 y1 colour : Nat) : Screen :=
  _setPoint myColours s x1 y1 colour

/-- `Screen_EPD_EXT3::readPixel`. -/
def readPixel (myColours : Colours) (s : Screen) (x1 y1 : Nat) : Nat :=
  _getPoint myColours s x1 y1

/-- `Screen_EPD_EXT3::invert`. -/
def invert (s : Screen) (flag : Bool) : Screen :=
  { s with _invert := flag }

/-! ## Whole-buffer fill -/

/-- A counting loop `for (uint16_t i = 0; i < n; i++) body`, the loop body acting on the
state `a`. -/
def forLoop {α : Type} (n : Nat) (body : Nat → α → α) (a : α) : α :=
  (List.range n).foldl (fun acc i => body i acc) a

/-- `Screen_EPD_EXT3::clear(uint16_t colour)`. The index expressions `i * _bufferSizeH + j`
are evaluated without wrap (they stay far below `2 ^ 31` for every panel of the size
table). -/
def clear (myColours : Colours) (s : Screen) (colour : Nat) : Screen :=
  if colour = myColours.red then
    -- physical red 01
    let img := memset s._newImage 0 0x00 s._pageColourSize
    let img := memset img s._pageColourSize 0xff s._pageColourSize
    { s with _newImage := img }
  else if colour = myColours.grey then
    let img := forLoop s._bufferSizeV (fun i img =>
      let pattern := if i % 2 ≠ 0 then 0b10101010 else 0b01010101
      forLoop s._bufferSizeH (fun j img =>
        store img (i * s._bufferSizeH + j) pattern) img) s._newImage
    let img := memset img s._pageColourSize 0x00 s._pageColourSize
    { s with _newImage := img }
  else if colour = myColours.darkRed then
    -- red = 0-1, black = 1-0, white 0-0
    let img := forLoop s._bufferSizeV (fun i img =>
      let pattern1 := if i % 2 ≠ 0 then 0b10101010 else 0b01010101 -- black
      let pattern2 := if i % 2 ≠ 0 then 0b01010101 else 0b10101010 -- red
      forLoop s._bufferSizeH (fun j img =>
        let img := store img (i * s._bufferSizeH + j) pattern1
        store img (i * s._bufferSizeH + j + s._pageColourSize) pattern2) img) s._newImage
    { s with _newImage := img }
  else if colour = myColours.lightRed then
    -- red = 0-1, black = 1-0, white 0-0
    let img := forLoop s._bufferSizeV (fun i img =>
      let pattern1 := if i % 2 ≠ 0 then 0b00000000 else 0b00000000 -- white
      let pattern2 := if i % 2 ≠ 0 then 0b01010101 else 0b10101010 -- red
      forLoop s._bufferSizeH (fun j img =>
        let img := store img (i * s._bufferSizeH + j) pattern1
        store img (i * s._bufferSizeH + j + s._pageColourSize) pattern2) img) s._newImage
    { s with _newImage := img }
  else if xor (decide (colour = myColours.white)) s._invert then
    -- physical black 00
    let img := memset s._newImage 0 0x00 s._pageColourSize
    let img := memset img s._pageColourSize 0x00 s._pageColourSize
    { s with _newImage := img }
  else
    -- physical white 10
    let img := memset s._newImage 0 0xff s._pageColourSize
    let img := memset img s._pageColourSize 0x00 s._pageColourSize
    { s with _newImage := img }

/-! ## Initialisation -/

/-- The size table of `Screen_EPD_EXT3::begin` (the first `switch (_codeSize)`, source
lines 72-168): a size code that is not listed leaves the three members as they are. -/
def sizeTable (s : Screen) : Screen :=
  if s._codeSize = 0x15 then
    { s with _screenSizeV := 152, _screenSizeH := 152, _screenDiagonal := 154 }
  else if s._codeSize = 0x21 then
    { s with _screenSizeV := 212, _screenSizeH := 104, _screenDiagonal := 213 }
  else if s._codeSize = 0x26 then
    { s with _screenSizeV := 296, _screenSizeH := 152, _screenDiagonal := 266 }
  else if s._codeSize = 0x27 then
    { s with _screenSizeV := 264, _screenSizeH := 176, _screenDiagonal := 271 }
  else if s._codeSize = 0x28 then
    { s with _screenSizeV := 296, _screenSizeH := 128, _screenDiagonal := 287 }
  else if s._codeSize = 0x37 then
    { s with _screenSizeV := 416, _screenSizeH := 240, _screenDiagonal := 370 }
  else if s._codeSize = 0x41 then
    { s with _screenSizeV := 300, _screenSizeH := 400, _screenDiagonal := 417 }
  else if s._codeSize = 0x43 then
    { s with _screenSizeV := 480, _screenSizeH := 176, _screenDiagonal := 437 }
  else if s._codeSize = 0x56 then
    { s with _screenSizeV := 600, _screenSizeH := 448, _screenDiagonal := 565 }
  else if s._codeSize = 0x58 then
    { s with _screenSizeV := 720, _screenSizeH := 256, _screenDiagonal := 581 }
  else if s._codeSize = 0x74 then
    { s with _screenSizeV := 800, _screenSizeH := 480, _screenDiagonal := 741 }
  else if s._codeSize = 0x96 then
    { s with _screenSizeV := 672, _screenSizeH := 960, _screenDiagonal := 969 }
  else if s._codeSize = 0xB9 then
    { s with _screenSizeV := 768, _screenSizeH := 960, _screenDiagonal := 1198 }
  else s


/-- The head of `Screen_EPD_EXT3::begin` (source lines 67-70): the three codes of the
device identifier and the number of colour bits. -/
def beginCodes (s : Screen) : Screen :=
  { s with
    _codeExtra := (s._eScreen_EPD_EXT3 >>> 16) &&& 0xff
    _codeSize := (s._eScreen_EPD_EXT3 >>> 8) &&& 0xff
    _codeType := s._eScreen_EPD_EXT3 &&& 0xff
    _screenColourBits := 2 }

/-- Buffer dimensions in `Screen_EPD_EXT3::begin` (source lines 170-172). -/
def beginBufferSize (s : Screen) : Screen :=
  { s with
    _bufferDepth := s._screenColourBits
    _bufferSizeV := s._screenSizeV
    _bufferSizeH := s._screenSizeH / 8 }

/-- Page size in `Screen_EPD_EXT3::begin` (source line 176), a `uint32_t` product. -/
def beginPageSize (s : Screen) : Screen :=
  { s with _pageColourSize := (s._bufferSizeV * s._bufferSizeH) % 2 ^ 32 }

/-- Frame size in `Screen_EPD_EXT3::begin` (the second `switch (_codeSize)`, source lines
180-192): `_frameSize = _pageColourSize`, except for 9.69 and 11.98. -/
def beginFrameSize (s : Screen) : Screen :=
  if s._codeSize = 0x96 ∨ s._codeSize = 0xB9 then
    { s with _frameSize := s._pageColourSize / 2 }
  else
    { s with _frameSize := s._pageColourSize }

/-- The geometry part of `Screen_EPD_EXT3::begin` (source lines 67-192), its statements in
order. -/
def beginGeometry (s : Screen) : Screen :=
  beginFrameSize (beginPageSize (beginBufferSize (sizeTable (beginCodes s))))

/-- The buffer check and the `memset` of `Screen_EPD_EXT3::begin` (source lines 214-229)
on the freshly allocated buffer of `_pageColourSize * _bufferDepth` bytes: the check writes
`0x00` then `0xaa` to `_newImage[1]` and reads it back. -/
def beginBuffer (s : Screen) : Screen :=
  let img := store (store s._newImage 1 0x00) 1 0xaa
  { s with _newImage := memset img 0 0x00 (s._pageColourSize * s._bufferDepth) }

/-- The assignments `_screenWidth = _screenSizeH; _screenHeigth = _screenSizeV;` of
`Screen_EPD_EXT3::begin` (source lines 322-323). -/
def beginScreenSize (s : Screen) : Screen :=
  { s with _screenWidth := s._screenSizeH, _screenHeigth := s._screenSizeV }

/-- `Screen_EPD_EXT3::begin`, as far as the members of `Screen` are concerned: geometry,
buffer check and `memset`, screen size, `setOrientation(0)`, `_invert = false` and the
final `clear()`. The pin, SPI and reset calls touch none of these members. `setOrientation`
belongs to the base class and forwards to `_setOrientation`; the default argument of
`clear` is `myColours.white` (both are declared in headers outside the sources). -/
def begin (myColours : Colours) (s : Screen) : Screen :=
  clear myColours
    { (_setOrientation (beginScreenSize (beginBuffer (beginGeometry s))) 0) with
      _invert := false }
    myColours.white

/-- The number of bytes `begin` allocates for the frame buffer,
`new uint8_t[_pageColourSize * _bufferDepth]`. -/
def allocatedBytes (s : Screen) : Nat := s._pageColourSize * s._bufferDepth

/-! ## Documented panels -/

/-- The 13 size codes of the size table. -/
def documentedSizes : List Nat :=
  [0x15, 0x21, 0x26, 0x27, 0x28, 0x37, 0x41, 0x43, 0x56, 0x58, 0x74, 0x96, 0xB9]

/-- The geometry members of a driver object. -/
def geometry (s : Screen) : List Nat :=
  [s._codeSize, s._screenSizeV, s._screenSizeH, s._bufferDepth, s._bufferSizeV,
   s._bufferSizeH, s._pageColourSize, s._frameSize]

/-- The driver object holds the profile of a documented panel: its size code is one of
the 13 documented ones and its geometry members are the ones `begin` computes from its
device identifier. Orientation, invert flag, temperature and buffer contents are free. -/
def Configured (s : Screen) : Prop :=
  s._codeSize ∈ documentedSizes ∧ geometry (beginGeometry s) = geometry s

instance (s : Screen) : Decidable (Configured s) := by
  unfold Configured; exact inferInstance

/-- A driver object before `begin`: the constructor stores the device identifier; the other
members are not initialised by it (here: zero). -/
def construct (eScreen_EPD_EXT3 : Nat) : Screen :=
  { _eScreen_EPD_EXT3 := eScreen_EPD_EXT3, _codeExtra := 0, _codeSize := 0, _codeType := 0,
    _screenColourBits := 0, _screenSizeV := 0, _screenSizeH := 0, _screenDiagonal := 0,
    _bufferDepth := 0, _bufferSizeV := 0, _bufferSizeH := 0, _pageColourSize := 0,
    _frameSize := 0, _screenWidth := 0, _screenHeigth := 0, _orientation := 0,
    _invert := false, _temperature := 0, _newImage := fun _ => 0 }

/-- The profiles of the documented panels, one row per size code: size code,
`_screenSizeV`, `_screenSizeH`, `_bufferSizeH`, `_pageColourSize`, `_frameSize`. The rows
are not read by the driver; `configured_row` proves that they are what `begin` computes. -/
def profileRows : List (Nat × Nat × Nat × Nat × Nat × Nat) :=
  [(0x15, 152, 152, 19, 2888, 2888), (0x21, 212, 104, 13, 2756, 2756),
   (0x26, 296, 152, 19, 5624, 5624), (0x27, 264, 176, 22, 5808, 5808),
   (0x28, 296, 128, 16, 4736, 4736), (0x37, 416, 240, 30, 12480, 12480),
   (0x41, 300, 400, 50, 15000, 15000), (0x43, 480, 176, 22, 10560, 10560),
   (0x56, 600, 448, 56, 33600, 33600), (0x58, 720, 256, 32, 23040, 23040),
   (0x74, 800, 480, 60, 48000, 48000), (0x96, 672, 960, 120, 80640, 40320),
   (0xB9, 768, 960, 120, 92160, 46080)]

/-- The inverse of the coordinate transform of `_orientCoordinates` (the matching
swap/mirror for each orientation), from oriented back to logical coordinates. It is not
part of the driver; it is the inverse map that the round-trip property speaks of. -/
def orientInverse (s : Screen) (xN yN : Nat) : Nat × Nat :=
  if s._orientation = 3 then (s._screenSizeV - 1 - xN, yN)
  else if s._orientation = 2 then (s._screenSizeH - 1 - yN, s._screenSizeV - 1 - xN)
  else if s._orientation = 1 then (xN, s._screenSizeH - 1 - yN)
  else (yN, xN)

/-- The documented address of a pixel, following the words of the specification
(`addressOf(xNative, yNative) -> (byteOffset, bitIndex)`): `bufferStride` is
`_bufferSizeH`, `nativeHeight/2` is `_screenSizeH >> 1`, a split panel is one with size
code 0x96 or 0xB9. -/
def addressOf (s : Screen) (xNative yNative : Nat) : Nat × Nat :=
  if s._codeSize = 0x96 ∨ s._codeSize = 0xB9 then
    if yNative ≥ s._screenSizeH / 2 then
      let yHalf := yNative - s._screenSizeH / 2
      (s._pageColourSize / 2 + (xNative * (s._bufferSizeH / 2) + (yHalf >>> 3)),
        7 - yHalf % 8)
    else
      (xNative * (s._bufferSizeH / 2) + (yNative >>> 3), 7 - yNative % 8)
  else
    (xNative * s._bufferSizeH + (yNative >>> 3), 7 - yNative % 8)

/-- A begun driver object for the 1.54 inch panel (size code 0x15), used as a concrete
input. -/
def screen154 : Screen := begin colours565 (construct 0x001500)

/-- A begun driver object for the 9.69 inch dual-controller panel (size code 0x96), used
as a concrete input. -/
def screen969 : Screen := begin colours565 (construct 0x09960B)

/-- The two plane bits of the pixel at byte `z1`, bit `7 - (y1 % 8)`, as `_getPoint` reads
them (source lines 1084 and 1086): the bit of plane 0, then the bit of plane 1. -/
def planeBits (s : Screen) (z1 y1 : Nat) : Nat × Nat :=
  (bitRead (s._newImage z1) (7 - (y1 % 8)),
    bitRead (s._newImage (s._pageColourSize + z1)) (7 - (y1 % 8)))

/-- The extent of the logical x axis in the current orientation: the bound that
`_orientCoordinates` checks `x` against. -/
def extentX (s : Screen) : Nat :=
  if s._orientation = 3 ∨ s._orientation = 1 then s._screenSizeV else s._screenSizeH

/-- The extent of the logical y axis in the current orientation: the bound that
`_orientCoordinates` checks `y` against. -/
def extentY (s : Screen) : Nat :=
  if s._orientation = 3 ∨ s._orientation = 1 then s._screenSizeH else s._screenSizeV

/-- The per-pixel path for a whole screen: `point(x, y, colour)` called once at every
in-bounds logical coordinate, column by column. -/
def pointAll (myColours : Colours) (s : Screen) (colour : Nat) : Screen :=
  forLoop (extentX s) (fun x s1 =>
    forLoop (extentY s) (fun y s2 => point myColours s2 x y colour) s1) s

/-- Two driver objects agree on everything but the frame buffer contents (temperature
and the two codes that addressing does not read are left aside). -/
def SameProfile (s t : Screen) : Prop :=
  t._eScreen_EPD_EXT3 = s._eScreen_EPD_EXT3 ∧ geometry t = geometry s ∧
    t._orientation = s._orientation ∧ t._invert = s._invert

/-! ## Temperature and update mode -/

/-- Constants of the library headers that the driver reads by name and whose values are
not among the translated sources: the four update modes and the pin number that stands for
an unconnected pin. They are a parameter of every function that reads one of them. -/
structure Constants where
  UPDATE_NONE : Nat
  UPDATE_FAST : Nat
  UPDATE_PARTIAL : Nat
  UPDATE_GLOBAL : Nat
  NOT_CONNECTED : Nat
deriving DecidableEq, Repr

/-- The mode `UPDATE_NONE` is a value of its own: it is none of the three modes that
request a refresh. -/
def Constants.Valid (k : Constants) : Prop :=
  k.UPDATE_NONE ≠ k.UPDATE_FAST ∧ k.UPDATE_NONE ≠ k.UPDATE_PARTIAL ∧
    k.UPDATE_NONE ≠ k.UPDATE_GLOBAL

instance (k : Constants) : Decidable k.Valid := by
  unfold Constants.Valid; exact inferInstance

/-- Modelled from the spec: the update modes {None, Global} with the two further requests
Fast and Partial, and the marker of an optional pin that is not wired, as five concrete
values; the headers that define them are missing from the sources. Used to instantiate
`Constants` at concrete inputs. -/
def constants0 : Constants :=
  { UPDATE_NONE := 0x00, UPDATE_FAST := 0x01, UPDATE_PARTIAL := 0x02, UPDATE_GLOBAL := 0x03,
    NOT_CONNECTED := 0xff }

/-- `FEATURE_FAST`, value as quoted in `checkTemperatureMode` (source line 1275). -/
def FEATURE_FAST : Nat := 0x01

/-- `FEATURE_WIDE_TEMPERATURE`, value as quoted in `checkTemperatureMode` (source line
1278). -/
def FEATURE_WIDE_TEMPERATURE : Nat := 0x08

/-- `FEATURE_RED`, value as quoted in `checkTemperatureMode` (source line 1279). -/
def FEATURE_RED : Nat := 0x10

/-- Conversion of an `int` value to `int8_t` (two's complement, 8 bits). -/
def toInt8 (v : Int) : Int := (v + 128) % 256 - 128

/-- Conversion of an `int` value to `uint8_t`. -/
def toUInt8 (v : Int) : Nat := (v % 256).toNat

/-- `Screen_EPD_EXT3::setTemperatureC(int8_t temperatureC)`. The local `_temperature2`
that the method computes afterwards is never stored (the assignment to `indexE5_data` is
commented out), so it has no effect. -/
def setTemperatureC (s : Screen) (temperatureC : Int) : Screen :=
  { s with _temperature := temperatureC }

/-- `Screen_EPD_EXT3::setTemperatureF(int16_t temperatureF)`: the expression is evaluated
in `int` (division truncates toward zero) and converted to the `int8_t` local. -/
def setTemperatureF (s : Screen) (temperatureF : Int) : Screen :=
  let temperatureC : Int := toInt8 (Int.tdiv ((temperatureF - 32) * 5) 9)
  setTemperatureC s temperatureC

set_option linter.unusedVariables false in
/-- `Screen_EPD_EXT3::checkTemperatureMode(uint8_t updateMode)`: the argument is
overwritten by the first statement. -/
def checkTemperatureMode (k : Constants) (s : Screen) (updateMode : Nat) : Nat :=
  let updateMode := k.UPDATE_GLOBAL
  if s._codeExtra &&& 0x19 = FEATURE_FAST then -- PS series
    if s._temperature < 0 ∨ s._temperature > 50 then k.UPDATE_NONE else updateMode
  else if s._codeExtra &&& 0x19 = FEATURE_FAST ||| FEATURE_WIDE_TEMPERATURE then -- KS series
    if s._temperature < -15 ∨ s._temperature > 60 then k.UPDATE_NONE else updateMode
  else if s._codeExtra &&& 0x19 = FEATURE_WIDE_TEMPERATURE then -- HS series
    if s._temperature < -25 ∨ s._temperature > 30 then k.UPDATE_NONE else updateMode
  else if s._codeExtra &&& 0x19 = FEATURE_RED then -- JS series
    if s._temperature < 0 ∨ s._temperature > 40 then k.UPDATE_NONE else updateMode
  else -- CS series
    let updateMode := k.UPDATE_GLOBAL
    if s._temperature < 0 ∨ s._temperature > 50 then k.UPDATE_NONE else updateMode

/-- The inclusive Celsius range of the temperature class selected by the feature flags,
following the table of the specification: PS (FAST only) 0..50, KS (FAST and WIDE_TEMP)
-15..60, HS (WIDE_TEMP only) -25..30, JS (RED only) 0..40, CS (anything else) 0..50; the
flags are matched after masking with FAST | WIDE_TEMP | RED. -/
def temperatureRange (featureFlags : Nat) : Int × Int :=
  let fast : Bool := featureFlags &&& 0x01 ≠ 0
  let wide : Bool := featureFlags &&& 0x08 ≠ 0
  let red : Bool := featureFlags &&& 0x10 ≠ 0
  if fast ∧ ¬ wide ∧ ¬ red then (0, 50)
  else if fast ∧ wide ∧ ¬ red then (-15, 60)
  else if ¬ fast ∧ wide ∧ ¬ red then (-25, 30)
  else if ¬ fast ∧ ¬ wide ∧ red then (0, 40)
  else (0, 50)

/-! ## Bus and control lines -/

/-- The pin assignment `_pin` (a `pins_t`, stored by the constructor and never written
afterwards). The type is declared in a header that is not among the translated sources, so
the assignment is a parameter of every function that reads it; the members are pin
numbers. -/
structure Pins where
  panelBusy : Nat
  panelDC : Nat
  panelReset : Nat
  panelCS : Nat
  panelCSS : Nat
deriving DecidableEq, Repr

/-- Arduino `HIGH`. -/
def HIGH : Bool := true

/-- Arduino `LOW`. -/
def LOW : Bool := false

/-- One call of an Arduino primitive that acts on the outside world: what the driver does
to the bus and the control lines, in the order of the calls. `digitalRead` carries the
level it returned; `println` is a line of the diagnostic output `Serial`. -/
inductive BusOp where
  | digitalWrite (pin : Nat) (level : Bool)
  | digitalRead (pin : Nat) (level : Bool)
  | transfer (byte : Nat)
  | delayMicroseconds (us : Nat)
  | delay_ms (ms : Nat)
  | delay (ms : Nat)
  | println
deriving DecidableEq, Repr

/-- The bytes `data[0], ..., data[size - 1]` that a transfer loop
`for (uint32_t i = 0; i < size; i++)` reads through the pointer `data`. -/
def bytes (data : Nat → Nat) (size : Nat) : List Nat :=
  (List.range size).map data

/-- A local array `uint8_t a[] = {...}` seen as a pointer to its first element. -/
def arr (a : List Nat) : Nat → Nat :=
  fun i => a.getD i 0

/-- Pointer arithmetic `p + n` (also `&a[n]`). -/
def ptrAdd (p : Nat → Nat) (n : Nat) : Nat → Nat :=
  fun i => p (n + i)

/-- `Screen_EPD_EXT3::_reset(ms1, ms2, ms3, ms4, ms5)`: the primitive calls it makes. -/
def _reset (k : Constants) (_pin : Pins) (s : Screen) (ms1 ms2 ms3 ms4 ms5 : Nat) :
    List BusOp :=
  [.delay_ms ms1,
   .digitalWrite _pin.panelReset HIGH, -- RES# = 1
   .delay_ms ms2,
   .digitalWrite _pin.panelReset LOW,
   .delay_ms ms3,
   .digitalWrite _pin.panelReset HIGH,
   .delay_ms ms4,
   .digitalWrite _pin.panelCS HIGH] ++ -- CS# = 1
  -- For 9.69 and 11.98 panels
  (if s._codeSize = 0x96 ∨ s._codeSize = 0xB9 then
    (if _pin.panelCSS ≠ k.NOT_CONNECTED then [.digitalWrite _pin.panelCSS HIGH] else [])
   else []) ++
  [.delay_ms ms5]

/-- `Screen_EPD_EXT3::_sendIndexData(index, data, size)`: the primitive calls it makes. -/
def _sendIndexData (k : Constants) (_pin : Pins) (s : Screen) (index : Nat)
    (data : Nat → Nat) (size : Nat) : List BusOp :=
  [.digitalWrite _pin.panelDC LOW, -- DC Low
   .digitalWrite _pin.panelCS LOW] ++ -- CS Low
  (if s._codeSize = 0x96 ∨ s._codeSize = 0xB9 then
    (if _pin.panelCSS ≠ k.NOT_CONNECTED then [.digitalWrite _pin.panelCSS LOW] else []) ++
    [.delayMicroseconds 450]
   else []) ++
  [.delayMicroseconds 50,
   .transfer index,
   .delayMicroseconds 50] ++
  (if s._codeSize = 0x96 ∨ s._codeSize = 0xB9 then
    (if _pin.panelCSS ≠ k.NOT_CONNECTED then
      [.delayMicroseconds 450, .digitalWrite _pin.panelCSS HIGH] else [])
   else []) ++
  [.digitalWrite _pin.panelCS HIGH, -- CS High
   .digitalWrite _pin.panelDC HIGH, -- DC High
   .digitalWrite _pin.panelCS LOW] ++ -- CS Low
  (if s._codeSize = 0x96 ∨ s._codeSize = 0xB9 then
    (if _pin.panelCSS ≠ k.NOT_CONNECTED then
      [.digitalWrite _pin.panelCSS LOW, .delayMicroseconds 450] else [])
   else []) ++
  [.delayMicroseconds 50] ++
  (bytes data size).map BusOp.transfer ++
  [.delayMicroseconds 50] ++
  (if s._codeSize = 0x96 ∨ s._codeSize = 0xB9 then
    (if _pin.panelCSS ≠ k.NOT_CONNECTED then
      [.delayMicroseconds 450, .digitalWrite _pin.panelCSS HIGH] else [])
   else []) ++
  [.digitalWrite _pin.panelCS HIGH] -- CS High

/-- `Screen_EPD_EXT3::_sendIndexDataMaster(index, data, size)`: the primitive calls it
makes. -/
def _sendIndexDataMaster (k : Constants) (_pin : Pins) (index : Nat)
    (data : Nat → Nat) (size : Nat) : List BusOp :=
  (if _pin.panelCSS ≠ k.NOT_CONNECTED then [.digitalWrite _pin.panelCSS HIGH] else []) ++
  [.digitalWrite _pin.panelDC LOW, -- DC Low = Command
   .digitalWrite _pin.panelCS LOW, -- CS Low = Select
   .delayMicroseconds 500,
   .transfer index,
   .delayMicroseconds 500,
   .digitalWrite _pin.panelCS HIGH, -- CS High = Unselect
   .digitalWrite _pin.panelDC HIGH, -- DC High = Data
   .digitalWrite _pin.panelCS LOW, -- CS Low = Select
   .delayMicroseconds 500] ++
  (bytes data size).map BusOp.transfer ++
  [.delayMicroseconds 500,
   .digitalWrite _pin.panelCS HIGH] -- CS High = Unselect

/-- `Screen_EPD_EXT3::_sendIndexDataSlave(index, data, size)`: the primitive calls it
makes. -/
def _sendIndexDataSlave (k : Constants) (_pin : Pins) (index : Nat)
    (data : Nat → Nat) (size : Nat) : List BusOp :=
  [.digitalWrite _pin.panelCS HIGH, -- CS Master High
   .digitalWrite _pin.panelDC LOW] ++ -- DC Low = Command
  (if _pin.panelCSS ≠ k.NOT_CONNECTED then [.digitalWrite _pin.panelCSS LOW] else []) ++
  [.delayMicroseconds 500,
   .transfer index,
   .delayMicroseconds 500] ++
  (if _pin.panelCSS ≠ k.NOT_CONNECTED then [.digitalWrite _pin.panelCSS HIGH] else []) ++
  [.digitalWrite _pin.panelDC HIGH] ++ -- DC High = Data
  (if _pin.panelCSS ≠ k.NOT_CONNECTED then [.digitalWrite _pin.panelCSS LOW] else []) ++
  [.delayMicroseconds 500] ++
  (bytes data size).map BusOp.transfer ++
  [.delayMicroseconds 500] ++
  (if _pin.panelCSS ≠ k.NOT_CONNECTED then [.digitalWrite _pin.panelCSS HIGH] else [])

/-! ## Refresh sequence -/

/-- One call made by the refresh engine (`_flushGlobal`, `flushMode`): a call of one of
the driver's own transfer methods, with the bytes `data[0 .. size)` it is given, or a call
of an Arduino primitive. -/
inductive Call where
  | reset (ms1 ms2 ms3 ms4 ms5 : Nat)
  | sendIndexData (index : Nat) (payload : List Nat)
  | sendIndexDataMaster (index : Nat) (payload : List Nat)
  | sendIndexDataSlave (index : Nat) (payload : List Nat)
  | op (o : BusOp)
deriving DecidableEq, Repr

/-- The primitive calls behind one call of the refresh engine. -/
def Call.ops (k : Constants) (_pin : Pins) (s : Screen) : Call → List BusOp
  | .reset ms1 ms2 ms3 ms4 ms5 => _reset k _pin s ms1 ms2 ms3 ms4 ms5
  | .sendIndexData index payload => _sendIndexData k _pin s index (arr payload) payload.length
  | .sendIndexDataMaster index payload =>
      _sendIndexDataMaster k _pin index (arr payload) payload.length
  | .sendIndexDataSlave index payload =>
      _sendIndexDataSlave k _pin index (arr payload) payload.length
  | .op o => [o]

/-- The primitive calls behind a sequence of calls of the refresh engine, in order. -/
def busOps (k : Constants) (_pin : Pins) (s : Screen) (calls : List Call) : List BusOp :=
  (calls.map (Call.ops k _pin s)).flatten

/-- The outside world as the driver sees it: the calls made so far (oldest first) and the
number of times the busy line has been read. -/
structure Bus where
  calls : List Call
  reads : Nat
deriving DecidableEq, Repr

/-- The calls `cs` are made, in order. -/
def Bus.emit (w : Bus) (cs : List Call) : Bus :=
  { w with calls := w.calls ++ cs }

/-- The call `_sendIndexData(index, a, size)` on a local array `a`. -/
def sendArr (index : Nat) (a : List Nat) (size : Nat) : Call :=
  .sendIndexData index (bytes (arr a) size)

/-- The call `_sendIndexDataMaster(index, a, size)` on a local array `a`. -/
def sendArrMaster (index : Nat) (a : List Nat) (size : Nat) : Call :=
  .sendIndexDataMaster index (bytes (arr a) size)

/-- The call `_sendIndexDataSlave(index, a, size)` on a local array `a`. -/
def sendArrSlave (index : Nat) (a : List Nat) (size : Nat) : Call :=
  .sendIndexDataSlave index (bytes (arr a) size)

/-- The call `delay_ms(ms)`. -/
def callDelay_ms (ms : Nat) : Call := .op (.delay_ms ms)

/-- The loop `while (digitalRead(_pin.panelBusy) != HIGH) { delay(100); }`. The level that
the n-th read of the busy line returns is given by `busy n`; the loop runs for at most
`fuel` reads and has no result when the line has not read HIGH by then. -/
def waitBusy (_pin : Pins) (busy : Nat → Bool) : Nat → Bus → Option Bus
  | 0, _ => none
  | fuel + 1, w =>
    let level := busy w.reads
    let w1 : Bus :=
      { calls := w.calls ++ [.op (.digitalRead _pin.panelBusy level)], reads := w.reads + 1 }
    if level ≠ HIGH then waitBusy _pin busy fuel (w1.emit [.op (.delay 100)])
    else some w1

/-- The loop `while (digitalRead(_pin.panelBusy) != HIGH);` (empty body, source line 838),
with the same conventions as `waitBusy`. -/
def spinBusy (_pin : Pins) (busy : Nat → Bool) : Nat → Bus → Option Bus
  | 0, _ => none
  | fuel + 1, w =>
    let level := busy w.reads
    let w1 : Bus :=
      { calls := w.calls ++ [.op (.digitalRead _pin.panelBusy level)], reads := w.reads + 1 }
    if level ≠ HIGH then spinBusy _pin busy fuel w1
    else some w1

/-- A counting loop `for (int value = lo; value <= hi; value++)`: the values of `value`. -/
def countUp (lo hi : Nat) : List Nat :=
  List.range' lo (hi + 1 - lo)

/-- A counting loop `for (int value = hi; value >= lo; value--)`: the values of `value`. -/
def countDown (hi lo : Nat) : List Nat :=
  (List.range' lo (hi + 1 - lo)).reverse

/-- A loop over the values `values` of its control variable, the loop body acting on the
state `a`. -/
def forValues {α : Type} (values : List Nat) (body : Nat → α → α) (a : α) : α :=
  values.foldl (fun acc value => body value acc) a

/-- `_flushGlobal`, medium group, source lines 414-469: reset and image data. -/
def flushMediumImage (s : Screen) : List Call :=
  let blackBuffer := s._newImage
  let redBuffer := ptrAdd s._newImage s._pageColourSize
  [.reset 200 20 200 50 5] ++
  -- Send image data
  (if s._codeSize = 0x56 then
    [sendArr 0x13 [0x00, 0x37, 0x00, 0x00, 0x57, 0x02] 6, -- DUW
     sendArr 0x90 [0x00, 0x37, 0x00, 0x97] 4, -- DRFW
     sendArr 0x12 [0x37, 0x00, 0x14] 3] -- RAM_RW
   else if s._codeSize = 0x58 then
    [sendArr 0x13 [0x00, 0x1f, 0x50, 0x00, 0x1f, 0x03] 6, -- DUW
     sendArr 0x90 [0x00, 0x1f, 0x00, 0xc9] 4, -- DRFW
     sendArr 0x12 [0x1f, 0x50, 0x14] 3] -- RAM_RW
   else if s._codeSize = 0x74 then
    [sendArr 0x13 [0x00, 0x3b, 0x00, 0x00, 0x1f, 0x03] 6, -- DUW
     sendArr 0x90 [0x00, 0x3b, 0x00, 0xc9] 4, -- DRFW
     sendArr 0x12 [0x3b, 0x00, 0x14] 3] -- RAM_RW
   else []) ++
  (if s._codeType = 0x0B then [sendArr 0x01 [0x08] 1] else []) ++ -- DCTL 0x10 of MTP
  [.sendIndexData 0x10 (bytes blackBuffer s._frameSize)] ++ -- First frame
  (if s._codeSize = 0x56 then [sendArr 0x12 [0x37, 0x00, 0x14] 3] -- RAM_RW
   else if s._codeSize = 0x58 then [sendArr 0x12 [0x1f, 0x50, 0x14] 3] -- RAM_RW
   else if s._codeSize = 0x74 then [sendArr 0x12 [0x3b, 0x00, 0x14] 3] -- RAM_RW
   else []) ++
  [.sendIndexData 0x11 (bytes redBuffer s._frameSize)] -- Second frame

/-- `_flushGlobal`, medium group, source lines 471-543: initial COG. -/
def flushMediumCOG (s : Screen) : List Call :=
  let data5_565 := [0x00]
  let data7_565 := [0x00]
  let data9_565 := [0x10]
  let data13_565 := [toUInt8 (s._temperature * 2 + 0x50)] -- _temperature
  [sendArr 0x05 [0x7d] 1,
   callDelay_ms 200,
   sendArr 0x05 data5_565 1,
   callDelay_ms 10,
   sendArr 0xc2 [0x3f] 1,
   callDelay_ms 1,
   sendArr 0xd8 data7_565 1, -- MS_SYNC mtp_0x1d
   sendArr 0xd6 [0x00] 1, -- BVSS mtp_0x1e
   sendArr 0xa7 data9_565 1,
   callDelay_ms 100,
   sendArr 0xa7 data5_565 1,
   callDelay_ms 100] ++
  (if s._codeSize = 0x56 then [sendArr 0x03 [0x00, 0x02] 2] -- OSC mtp_0x12
   else if s._codeSize = 0x58 then [sendArr 0x03 [0x00, 0x01] 2] -- OSC mtp_0x12
   else if s._codeSize = 0x74 then [sendArr 0x03 [0x00, 0x01] 2] -- OSC mtp_0x12
   else []) ++
  [sendArr 0x44 data5_565 1,
   sendArr 0x45 [0x80] 1,
   sendArr 0xa7 data9_565 1,
   callDelay_ms 100,
   sendArr 0xa7 data7_565 1,
   callDelay_ms 100,
   sendArr 0x44 [0x06] 1,
   sendArr 0x45 data13_565 1, -- Temperature 0x82@25C
   sendArr 0xa7 data9_565 1,
   callDelay_ms 100,
   sendArr 0xa7 data7_565 1,
   callDelay_ms 100,
   sendArr 0x60 [0x25] 1] ++ -- TCON mtp_0x0b
  (if s._codeSize = 0x56 then [sendArr 0x61 [0x01] 1] -- STV_DIR mtp_0x1c
   else if s._codeSize = 0x58 then [sendArr 0x61 [0x00] 1] -- STV_DIR mtp_0x1c
   else if s._codeSize = 0x74 then [sendArr 0x61 [0x00] 1] -- STV_DIR mtp_0x1c
   else []) ++
  [sendArr 0x01 [0x00] 1, -- DCTL mtp_0x10
   sendArr 0x02 [0x00] 1] -- VCOM mtp_0x11

/-- `_flushGlobal`, medium group, source lines 545-583: DC-DC soft-start. The state of
the loops is the array `index51_565` and the calls made so far. -/
def softStart565 : List Call :=
  let index51_565 : List Nat := [0x50, 0x01, 0x0a, 0x01]
  let index09_565 : List Nat := [0x1f, 0x9f, 0x7f, 0xff]
  let st : List Nat × List Call :=
    (index51_565, [.sendIndexData 0x51 (bytes (ptrAdd (arr index51_565) 0) 2)])
  let st := forValues (countUp 1 4) (fun value st =>
    let index51_565 := st.1.set 1 (value % 256)
    (index51_565, st.2 ++
      [.sendIndexData 0x09 (bytes (ptrAdd (arr index09_565) 0) 1),
       .sendIndexData 0x51 (bytes (ptrAdd (arr index51_565) 0) 2),
       .sendIndexData 0x09 (bytes (ptrAdd (arr index09_565) 1) 1),
       callDelay_ms 2])) st
  let st := forValues (countUp 1 10) (fun value st =>
    let index51_565 := st.1.set 3 (value % 256)
    (index51_565, st.2 ++
      [.sendIndexData 0x09 (bytes (ptrAdd (arr index09_565) 0) 1),
       .sendIndexData 0x51 (bytes (ptrAdd (arr index51_565) 2) 2),
       .sendIndexData 0x09 (bytes (ptrAdd (arr index09_565) 1) 1),
       callDelay_ms 2])) st
  let st := forValues (countUp 3 10) (fun value st =>
    let index51_565 := st.1.set 3 (value % 256)
    (index51_565, st.2 ++
      [.sendIndexData 0x09 (bytes (ptrAdd (arr index09_565) 2) 1),
       .sendIndexData 0x51 (bytes (ptrAdd (arr index51_565) 2) 2),
       .sendIndexData 0x09 (bytes (ptrAdd (arr index09_565) 3) 1),
       callDelay_ms 2])) st
  let st := forValues (countDown 9 2) (fun value st =>
    let index51_565 := st.1.set 2 (value % 256)
    (index51_565, st.2 ++
      [.sendIndexData 0x09 (bytes (ptrAdd (arr index09_565) 2) 1),
       .sendIndexData 0x51 (bytes (ptrAdd (arr index51_565) 2) 2),
       .sendIndexData 0x09 (bytes (ptrAdd (arr index09_565) 3) 1),
       callDelay_ms 2])) st
  st.2 ++
    [.sendIndexData 0x09 (bytes (ptrAdd (arr index09_565) 3) 1),
     callDelay_ms 10]

/-- `_flushGlobal`, medium group, source lines 585-613: display refresh, DC-DC off and the
control lines, with the three waits for the busy line. -/
def flushMediumRefresh (_pin : Pins) (busy : Nat → Bool) (fuel : Nat) (w : Bus) :
    Option Bus :=
  -- Display Refresh Start
  (waitBusy _pin busy fuel w).bind fun w =>
  -- DC-DC off
  (waitBusy _pin busy fuel
    (w.emit [sendArr 0x15 [0x3c] 1, -- Display Refresh
             callDelay_ms 5])).bind fun w =>
  (waitBusy _pin busy fuel
    (w.emit [sendArr 0x09 [0x7f] 1,
             sendArr 0x05 [0x7d] 1,
             sendArr 0x09 [0x00] 1,
             callDelay_ms 200])).bind fun w =>
  some (w.emit [.op (.digitalWrite _pin.panelDC LOW),
                .op (.digitalWrite _pin.panelCS LOW),
                .op (.digitalWrite _pin.panelReset LOW)])

/-- `_flushGlobal`, medium group (5.65, 5.81 and 7.4), source lines 414-613. -/
def flushMedium (_pin : Pins) (busy : Nat → Bool) (fuel : Nat) (s : Screen) (w : Bus) :
    Option Bus :=
  flushMediumRefresh _pin busy fuel
    (w.emit (flushMediumImage s ++ flushMediumCOG s ++ softStart565))

/-- `_flushGlobal`, large group, source lines 617-657: reset and image data, master then
slave. -/
def flushLargeImage (s : Screen) : List Call :=
  let blackBuffer := s._newImage
  let redBuffer := ptrAdd s._newImage s._pageColourSize
  let data3_970 := [0x3b, 0x00, 0x14]
  [.reset 200 20 200 200 5] ++
  -- Send image data
  (if s._codeSize = 0x96 then
    [sendArr 0x13 [0x00, 0x3b, 0x00, 0x00, 0x9f, 0x02] 6, -- DUW for Both Master and Slave
     sendArr 0x90 [0x00, 0x3b, 0x00, 0xa9] 4] -- DRFW for Both Master and Slave
   else if s._codeSize = 0xB9 then
    [sendArr 0x13 [0x00, 0x3b, 0x00, 0x00, 0x1f, 0x03] 6, -- DUW for Both Master and Slave
     sendArr 0x90 [0x00, 0x3b, 0x00, 0xc9] 4] -- DRFW for Both Master and Slave
   else []) ++
  (if s._codeType = 0x0B then [sendArr 0x01 [0x08] 1] else []) ++ -- DCTL 0x10 of MTP
  -- Master
  [sendArrMaster 0x12 data3_970 3, -- RAM_RW
   .sendIndexDataMaster 0x10 (bytes blackBuffer s._frameSize), -- First frame
   sendArrMaster 0x12 data3_970 3, -- RAM_RW
   .sendIndexDataMaster 0x11 (bytes redBuffer s._frameSize), -- Second frame
   -- Slave
   sendArrSlave 0x12 data3_970 3, -- RAM_RW
   .sendIndexDataSlave 0x10 (bytes (ptrAdd blackBuffer s._frameSize) s._frameSize), -- First frame
   sendArrSlave 0x12 data3_970 3, -- RAM_RW
   .sendIndexDataSlave 0x11 (bytes (ptrAdd redBuffer s._frameSize) s._frameSize)] -- Second frame

/-- `_flushGlobal`, large group, source lines 659-729: initial COG, master and slave. -/
def flushLargeCOG (s : Screen) : List Call :=
  let data5_970 := [0x00]
  let data9_970 := [0x10]
  let data11_970 := [0x80]
  let data12_970 := [0x06]
  let data13_970 := [toUInt8 (s._temperature * 2 + 0x50)] -- _temperature
  [sendArr 0x05 [0x7d] 1,
   callDelay_ms 200,
   sendArr 0x05 data5_970 1,
   callDelay_ms 10,
   sendArr 0xc2 [0x3f] 1,
   callDelay_ms 1,
   sendArr 0xd8 [0x80] 1, -- MS_SYNC
   sendArr 0xd6 [0x00] 1, -- BVSS
   sendArr 0xa7 data9_970 1,
   callDelay_ms 100,
   sendArr 0xa7 data5_970 1,
   callDelay_ms 100] ++
  -- 9.69 and 11.9 specific
  (if s._codeSize = 0x96 then [sendArr 0x03 [0x00, 0x11] 2] -- OSC
   else if s._codeSize = 0xB9 then [sendArr 0x03 [0x00, 0x12] 2] -- OSC
   else []) ++
  [sendArrMaster 0x44 data5_970 1, -- Master
   sendArrMaster 0x45 data11_970 1, -- Master
   sendArrMaster 0xa7 data9_970 1, -- Master
   callDelay_ms 100,
   sendArrMaster 0xa7 data5_970 1, -- Master
   callDelay_ms 100,
   sendArrMaster 0x44 data12_970 1, -- Master
   sendArrMaster 0x45 data13_970 1, -- Temperature 0x82@25C
   sendArrMaster 0xa7 data9_970 1, -- Master
   callDelay_ms 100,
   sendArrMaster 0xa7 data5_970 1, -- Master
   callDelay_ms 100,
   sendArrSlave 0x44 data5_970 1, -- Slave
   sendArrSlave 0x45 data11_970 1, -- Slave
   sendArrSlave 0xa7 data9_970 1, -- Slave
   callDelay_ms 100,
   sendArrSlave 0xa7 data5_970 1, -- Slave
   callDelay_ms 100,
   sendArrSlave 0x44 data12_970 1, -- Slave
   sendArrSlave 0x45 data13_970 1, -- Temperature 0x82@25C
   sendArrSlave 0xa7 data9_970 1, -- Slave
   callDelay_ms 100,
   sendArrSlave 0xa7 data5_970 1,
   callDelay_ms 100,
   sendArr 0x60 [0x25] 1, -- TCON
   sendArrMaster 0x61 [0x01] 1, -- STV_DIR for Master
   sendArr 0x01 [0x00] 1, -- DCTL
   sendArr 0x02 [0x00] 1] -- VCOM

/-- `_flushGlobal`, large group, source lines 731-769: DC-DC soft-start. The state of the
loops is the array `index51_970` and the calls made so far. -/
def softStart970 : List Call :=
  let index51_970 : List Nat := [0x50, 0x01, 0x0a, 0x01]
  let index09_970 : List Nat := [0x1f, 0x9f, 0x7f, 0xff]
  let st : List Nat × List Call :=
    (index51_970, [.sendIndexData 0x51 (bytes (ptrAdd (arr index51_970) 0) 2)])
  let st := forValues (countUp 1 4) (fun value st =>
    let index51_970 := st.1.set 1 (value % 256)
    (index51_970, st.2 ++
      [.sendIndexData 0x09 (bytes (ptrAdd (arr index09_970) 0) 1),
       .sendIndexData 0x51 (bytes (ptrAdd (arr index51_970) 0) 2),
       .sendIndexData 0x09 (bytes (ptrAdd (arr index09_970) 1) 1),
       callDelay_ms 2])) st
  let st := forValues (countUp 1 10) (fun value st =>
    let index51_970 := st.1.set 3 (value % 256)
    (index51_970, st.2 ++
      [.sendIndexData 0x09 (bytes (ptrAdd (arr index09_970) 0) 1),
       .sendIndexData 0x51 (bytes (ptrAdd (arr index51_970) 2) 2),
       .sendIndexData 0x09 (bytes (ptrAdd (arr index09_970) 1) 1),
       callDelay_ms 2])) st
  let st := forValues (countUp 3 10) (fun value st =>
    let index51_970 := st.1.set 3 (value % 256)
    (index51_970, st.2 ++
      [.sendIndexData 0x09 (bytes (ptrAdd (arr index09_970) 2) 1),
       .sendIndexData 0x51 (bytes (ptrAdd (arr index51_970) 2) 2),
       .sendIndexData 0x09 (bytes (ptrAdd (arr index09_970) 3) 1),
       callDelay_ms 2])) st
  let st := forValues (countDown 9 2) (fun value st =>
    let index51_970 := st.1.set 2 (value % 256)
    (index51_970, st.2 ++
      [.sendIndexData 0x09 (bytes (ptrAdd (arr index09_970) 2) 1),
       .sendIndexData 0x51 (bytes (ptrAdd (arr index51_970) 2) 2),
       .sendIndexData 0x09 (bytes (ptrAdd (arr index09_970) 3) 1),
       callDelay_ms 2])) st
  st.2 ++
    [.sendIndexData 0x09 (bytes (ptrAdd (arr index09_970) 3) 1),
     callDelay_ms 10]

/-- `_flushGlobal`, large group, source lines 771-809: display refresh, DC/DC off and the
control lines, with the three waits for the busy line. -/
def flushLargeRefresh (k : Constants) (_pin : Pins) (busy : Nat → Bool) (fuel : Nat)
    (w : Bus) : Option Bus :=
  -- Display Refresh Start
  (waitBusy _pin busy fuel w).bind fun w =>
  -- DC/DC off
  (waitBusy _pin busy fuel
    (w.emit [sendArr 0x15 [0x3c] 1, -- Display Refresh
             callDelay_ms 5])).bind fun w =>
  (waitBusy _pin busy fuel
    (w.emit [sendArr 0x09 [0x7f] 1,
             sendArr 0x05 [0x7d] 1,
             sendArr 0x09 [0x00] 1,
             callDelay_ms 200])).bind fun w =>
  some (w.emit
    ([.op (.digitalWrite _pin.panelDC LOW),
      .op (.digitalWrite _pin.panelCS LOW)] ++
     (if _pin.panelCSS ≠ k.NOT_CONNECTED then [.op (.digitalWrite _pin.panelCSS LOW)]
      else []) ++
     [.op (.digitalWrite _pin.panelReset LOW)] ++
     (if _pin.panelCSS ≠ k.NOT_CONNECTED then [.op (.digitalWrite _pin.panelCSS HIGH)]
      else []))) -- CSS# = 1

/-- `_flushGlobal`, large group (9.69 and 11.98), source lines 617-809. -/
def flushLarge (k : Constants) (_pin : Pins) (busy : Nat → Bool) (fuel : Nat) (s : Screen)
    (w : Bus) : Option Bus :=
  flushLargeRefresh k _pin busy fuel
    (w.emit (flushLargeImage s ++ flushLargeCOG s ++ softStart970))

/-- `_flushGlobal`, small group, source lines 813-832: reset, soft-reset, temperature,
image data and power on. -/
def flushSmallImage (s : Screen) : List Call :=
  let blackBuffer := s._newImage
  let redBuffer := ptrAdd s._newImage s._pageColourSize
  let data7 := [toUInt8 s._temperature] -- _temperature
  let data8 := [0x00]
  [.reset 5 5 10 5 5,
   sendArr 0x00 [0x0e] 1, -- Soft-reset
   callDelay_ms 5,
   sendArr 0xe5 data7 1, -- Input Temperature 0°C = 0x00, 22°C = 0x16, 25°C = 0x19
   sendArr 0xe0 [0x02] 1, -- Active Temperature
   -- Send image data
   .sendIndexData 0x10 (bytes blackBuffer s._frameSize), -- First frame
   .sendIndexData 0x13 (bytes redBuffer s._frameSize), -- Second frame
   callDelay_ms 50,
   sendArr 0x04 data8 1, -- Power on
   callDelay_ms 5]

/-- `_flushGlobal`, small group, source lines 833-856: display refresh, DC/DC off and the
control lines, with the four waits for the busy line. -/
def flushSmallRefresh (_pin : Pins) (busy : Nat → Bool) (fuel : Nat) (w : Bus) :
    Option Bus :=
  let data8 := [0x00]
  (waitBusy _pin busy fuel w).bind fun w =>
  (spinBusy _pin busy fuel w).bind fun w =>
  (waitBusy _pin busy fuel
    (w.emit [sendArr 0x12 data8 1, -- Display Refresh
             callDelay_ms 5])).bind fun w =>
  (waitBusy _pin busy fuel
    (w.emit [sendArr 0x02 data8 1, -- Turn off DC/DC
             callDelay_ms 5])).bind fun w =>
  some (w.emit [.op (.digitalWrite _pin.panelDC LOW),
                .op (.digitalWrite _pin.panelCS LOW),
                .op (.digitalWrite _pin.panelReset LOW)])

/-- `_flushGlobal`, small group (including 4.20 and 4.37), source lines 813-856. -/
def flushSmall (_pin : Pins) (busy : Nat → Bool) (fuel : Nat) (s : Screen) (w : Bus) :
    Option Bus :=
  flushSmallRefresh _pin busy fuel (w.emit (flushSmallImage s))

/-- `Screen_EPD_EXT3::_flushGlobal()`: the calls it makes, added to those already made.
`busy` gives the levels that the reads of the busy line return and `fuel` bounds the number
of reads of each wait; the method reads the driver object and does not write it. -/
def _flushGlobal (k : Constants) (_pin : Pins) (busy : Nat → Bool) (fuel : Nat)
    (s : Screen) (w : Bus) : Option Bus :=
  (if s._codeSize = 0x56 ∨ s._codeSize = 0x58 ∨ s._codeSize = 0x74 then
    flushMedium _pin busy fuel s w
   else if s._codeSize = 0x96 ∨ s._codeSize = 0xB9 then
    flushLarge k _pin busy fuel s w
   else -- small, including 420 and 437
    flushSmall _pin busy fuel s w).map
  fun w => w.emit [.op (.digitalWrite _pin.panelCS HIGH)] -- CS# = 1

/-- `Screen_EPD_EXT3::flushMode(uint8_t updateMode)`: the value returned, the driver
object and the outside world afterwards. -/
def flushMode (k : Constants) (_pin : Pins) (busy : Nat → Bool) (fuel : Nat)
    (s : Screen) (updateMode : Nat) (w : Bus) : Option (Nat × Screen × Bus) :=
  let updateMode := checkTemperatureMode k s updateMode
  if updateMode = k.UPDATE_FAST ∨ updateMode = k.UPDATE_PARTIAL ∨
      updateMode = k.UPDATE_GLOBAL then
    (_flushGlobal k _pin busy fuel s w).map fun w => (updateMode, s, w)
  else
    -- "* PDLS - UPDATE_NONE invoked"
    some (updateMode, s, w.emit [.op .println])

/-- `Screen_EPD_EXT3::flush()`. -/
def flush (k : Constants) (_pin : Pins) (busy : Nat → Bool) (fuel : Nat)
    (s : Screen) (w : Bus) : Option (Screen × Bus) :=
  (flushMode k _pin busy fuel s k.UPDATE_GLOBAL w).map fun r => r.2

/-- The busy line reads HIGH again and again: after every read there is a later (or the
same) read that returns HIGH. -/
def EventuallyHigh (busy : Nat → Bool) : Prop :=
  ∀ n, ∃ j, n ≤ j ∧ busy j = HIGH

/-- A call that polls the busy line: a `digitalRead` or the `delay` between two reads. -/
def Call.isPoll : Call → Bool
  | .op (.digitalRead _ _) => true
  | .op (.delay _) => true
  | _ => false

/-- The registers that carry image data in the group of the panel: 0x10 (first frame) and
0x11 (second frame) for the medium and the large group, 0x10 (first frame) and 0x13
(second frame) for the small group. -/
def imageIndices (s : Screen) : List Nat :=
  if s._codeSize = 0x56 ∨ s._codeSize = 0x58 ∨ s._codeSize = 0x74 ∨
      s._codeSize = 0x96 ∨ s._codeSize = 0xB9 then [0x10, 0x11]
  else [0x10, 0x13]

/-- A transfer call to one of the registers `indices`. -/
def Call.isFrameOf (indices : List Nat) : Call → Bool
  | .sendIndexData index _ => indices.contains index
  | .sendIndexDataMaster index _ => indices.contains index
  | .sendIndexDataSlave index _ => indices.contains index
  | _ => false

/-- The image frames among the calls: the transfers to an image register, in order. -/
def imageFrames (s : Screen) (calls : List Call) : List Call :=
  calls.filter (Call.isFrameOf (imageIndices s))

/-- The number of payload bytes that a call transfers. -/
def Call.payloadLength : Call → Nat
  | .sendIndexData _ payload => payload.length
  | .sendIndexDataMaster _ payload => payload.length
  | .sendIndexDataSlave _ payload => payload.length
  | _ => 0

/-- A part of the refresh sequence runs to its end, from every state of the outside world,
as soon as its waits are allowed enough reads of the busy line. -/
def Completes (f : Nat → Bus → Option Bus) : Prop :=
  ∀ w, ∃ fuel0 w', ∀ fuel, fuel0 ≤ fuel → f fuel w = some w'

/-- A colour value that is none of the six named colours. -/
def Colours.Unnamed (c : Colours) (v : Nat) : Prop :=
  v ≠ c.white ∧ v ≠ c.black ∧ v ≠ c.red ∧ v ≠ c.grey ∧ v ≠ c.darkRed ∧ v ≠ c.lightRed

/-- A pin assignment with all five lines wired, used as a concrete input. -/
def pins0 : Pins :=
  { panelBusy := 11, panelDC := 12, panelReset := 13, panelCS := 19, panelCSS := 39 }

/-! ## Regeneration, ramp and buffer invariant -/

/-- `Screen_EPD_EXT3::regenerate()`: the driver object and the outside world afterwards. -/
def regenerate (myColours : Colours) (k : Constants) (_pin : Pins) (busy : Nat → Bool)
    (fuel : Nat) (s : Screen) (w : Bus) : Option (Screen × Bus) :=
  let s := clear myColours s myColours.black
  (flush k _pin busy fuel s w).bind fun r =>
  let s := r.1
  let w := r.2.emit [.op (.delay 100)]
  let s := clear myColours s myColours.white
  flush k _pin busy fuel s w

/-- A call of one of the three transfer methods (an indexed frame: a register index
followed by its payload). -/
def Call.isTransfer : Call → Bool
  | .sendIndexData _ _ => true
  | .sendIndexDataMaster _ _ => true
  | .sendIndexDataSlave _ _ => true
  | _ => false

/-- No pixel has both plane bits set: no bit position of a byte of plane 0 is set together
with the same bit position of the matching byte of plane 1. -/
def NoBothBits (s : Screen) : Prop :=
  ∀ k b, k < s._pageColourSize → b < 8 →
    ¬ (bitRead (s._newImage k) b = 1 ∧
      bitRead (s._newImage (s._pageColourSize + k)) b = 1)

/-- The driver states a program can reach: `begin` on an object constructed with a
documented device identifier, followed by any sequence of `clear`, `point`, `invert`,
`_setOrientation`, `setTemperatureC` and `setTemperatureF` calls (the refresh methods do
not write the members of the object). -/
inductive Reachable (myColours : Colours) : Screen → Prop where
  | begin (s : Screen) (h : (s._eScreen_EPD_EXT3 >>> 8) &&& 0xff ∈ documentedSizes) :
      Reachable myColours (begin myColours s)
  | clear (s : Screen) (colour : Nat) (h : Reachable myColours s) :
      Reachable myColours (clear myColours s colour)
  | point (s : Screen) (x1 y1 colour : Nat) (h : Reachable myColours s) :
      Reachable myColours (point myColours s x1 y1 colour)
  | invert (s : Screen) (flag : Bool) (h : Reachable myColours s) :
      Reachable myColours (invert s flag)
  | setOrientation (s : Screen) (orientation : Nat) (h : Reachable myColours s) :
      Reachable myColours (_setOrientation s orientation)
  | setTemperatureC (s : Screen) (temperatureC : Int) (h : Reachable myColours s) :
      Reachable myColours (setTemperatureC s temperatureC)
  | setTemperatureF (s : Screen) (temperatureF : Int) (h : Reachable myColours s) :
      Reachable myColours (setTemperatureF s temperatureF)

/-- The image frames of one refresh of the driver object `s` as the documentation words
them: on a single-controller panel plane 0 (bytes [0, frameSize)) as the first frame and
plane 1 (bytes [pageColourSize, pageColourSize + frameSize)) as the second; on the
dual-controller panels (0x96, 0xB9) the first halves of the two planes to the master, then
the second halves to the slave. The second frame goes to register 0x11 in the medium and
large groups and to register 0x13 in the small group. It is not read by the driver. -/
def documentedFrames (s : Screen) : List Call :=
  if s._codeSize = 0x96 ∨ s._codeSize = 0xB9 then
    [.sendIndexDataMaster 0x10 (bytes s._newImage s._frameSize),
     .sendIndexDataMaster 0x11 (bytes (ptrAdd s._newImage s._pageColourSize) s._frameSize),
     .sendIndexDataSlave 0x10 (bytes (ptrAdd s._newImage s._frameSize) s._frameSize),
     .sendIndexDataSlave 0x11
        (bytes (ptrAdd (ptrAdd s._newImage s._pageColourSize) s._frameSize) s._frameSize)]
  else
    [.sendIndexData 0x10 (bytes s._newImage s._frameSize),
     .sendIndexData
        (if s._codeSize = 0x56 ∨ s._codeSize = 0x58 ∨ s._codeSize = 0x74 then 0x11 else 0x13)
        (bytes (ptrAdd s._newImage s._pageColourSize) s._frameSize)]

/-! ## The bus as the panel sees it -/

/-- The levels of the three control lines that frame a transfer: the data/command select
(`_pin.panelDC`), the chip select of the master (`_pin.panelCS`) and the chip select of the
slave (`_pin.panelCSS`). -/
structure Lines where
  dc : Bool
  cs : Bool
  css : Bool
deriving DecidableEq, Repr

/-- One byte transferred on the SPI bus, with the levels of the control lines at that
moment: D/C LOW marks an index (command) byte and D/C HIGH a payload (data) byte; a
controller takes the byte when its chip select is LOW. -/
structure WireByte where
  dc : Bool
  cs : Bool
  css : Bool
  byte : Nat
deriving DecidableEq, Repr

/-- The four output lines of the panel are wired to four different pins. -/
def Pins.Distinct (p : Pins) : Prop :=
  [p.panelDC, p.panelReset, p.panelCS, p.panelCSS].Nodup

instance (p : Pins) : Decidable p.Distinct := by
  unfold Pins.Distinct; exact inferInstance

/-- The effect of one primitive call on the control lines and on the record of the bytes
transferred so far: `digitalWrite` sets the level of the line wired to the pin,
`SPI.transfer` puts a byte on the bus under the current levels, the other primitives act on
neither. -/
def wireStep (_pin : Pins) (st : Lines × List WireByte) : BusOp → Lines × List WireByte
  | .digitalWrite pin level =>
    ({ dc := if pin = _pin.panelDC then level else st.1.dc
       cs := if pin = _pin.panelCS then level else st.1.cs
       css := if pin = _pin.panelCSS then level else st.1.css }, st.2)
  | .transfer byte => (st.1, st.2 ++ [⟨st.1.dc, st.1.cs, st.1.css, byte⟩])
  | _ => st

/-- The control lines after a sequence of primitive calls that starts with the line levels
`l`, and the bytes the sequence transfers, in order. -/
def wire (_pin : Pins) (l : Lines) (ops : List BusOp) : Lines × List WireByte :=
  ops.foldl (wireStep _pin) (l, [])

/-- One indexed frame on the bus as the documentation words the bus-level framing: the
index byte with data/command = command (LOW), then the payload bytes with data/command =
data (HIGH), under the chip-select levels `cs` (master) and `css` (slave). -/
def frameTrace (cs css : Bool) (index : Nat) (payload : List Nat) : List WireByte :=
  ⟨LOW, cs, css, index⟩ :: payload.map fun byte => ⟨HIGH, cs, css, byte⟩

/-- The bytes a call of the refresh engine is documented to put on the bus: a combined
transfer is one frame under the select levels `cs`, `css` of the panel group, a master
transfer one frame with only the master selected, a slave transfer one frame with only the
slave selected; the other calls transfer nothing. -/
def Call.frames (cs css : Bool) : Call → List WireByte
  | .sendIndexData index payload => frameTrace cs css index payload
  | .sendIndexDataMaster index payload => frameTrace LOW HIGH index payload
  | .sendIndexDataSlave index payload => frameTrace HIGH LOW index payload
  | _ => []

/-- An indexed frame read off the bus: the index byte, the payload bytes that follow it
and the chip-select levels under which the index byte was transferred. -/
structure Frame where
  index : Nat
  payload : List Nat
  cs : Bool
  css : Bool
deriving DecidableEq, Repr

/-- Reading the bus backwards: a payload byte is kept for the frame that precedes it, an
index byte closes a frame with the payload bytes kept so far. -/
def decodeStep (b : WireByte) (acc : List Nat × List Frame) : List Nat × List Frame :=
  if b.dc = HIGH then (b.byte :: acc.1, acc.2)
  else ([], ⟨b.byte, acc.1, b.cs, b.css⟩ :: acc.2)

/-- The indexed frames that a controller reads off the transferred bytes: every byte with
D/C LOW opens a frame, the bytes with D/C HIGH that follow are its payload. -/
def decodeFrames (t : List WireByte) : List Frame :=
  (t.foldr decodeStep ([], [])).2

/-- The frame of a transfer call, under the select levels `cs`, `css` of a combined
transfer. -/
def Call.toFrame (cs css : Bool) : Call → Option Frame
  | .sendIndexData index payload => some ⟨index, payload, cs, css⟩
  | .sendIndexDataMaster index payload => some ⟨index, payload, LOW, HIGH⟩
  | .sendIndexDataSlave index payload => some ⟨index, payload, HIGH, LOW⟩
  | _ => none

/-- A call that occurs in the refresh of a single-controller panel: a reset, a combined
transfer, or a primitive other than `SPI.transfer` and other than a write to the slave's
chip select. -/
def Call.isSingle (_pin : Pins) : Call → Bool
  | .reset _ _ _ _ _ => true
  | .sendIndexData _ _ => true
  | .sendIndexDataMaster _ _ => false
  | .sendIndexDataSlave _ _ => false
  | .op (.digitalWrite pin _) => decide (pin ≠ _pin.panelCSS)
  | .op (.transfer _) => false
  | .op _ => true

/-- A call other than a bare `SPI.transfer` (the refresh engine transfers bytes through
its three transfer methods only). -/
def Call.isClean : Call → Bool
  | .op (.transfer _) => false
  | _ => true

/-! ## Lemmas: primitives -/

theorem bitRead_eq_testBit (v n : Nat) : bitRead v n = (v.testBit n).toNat := by
  unfold bitRead Nat.testBit
  rw [Nat.and_comm, Nat.one_and_eq_mod_two]
  rcases Nat.mod_two_eq_zero_or_one (v >>> n) with h | h <;> simp [h]

theorem testBit_bitSet (v n m : Nat) (hn : n < 8) (hm : m < 8) :
    (bitSet v n).testBit m = (v.testBit m || decide (n = m)) := by
  unfold bitSet
  have h1 : (1 <<< n) % 2 ^ 32 = 2 ^ n := by
    rw [Nat.one_shiftLeft]
    exact Nat.mod_eq_of_lt (Nat.pow_lt_pow_right (by decide) (by omega))
  rw [h1, show (256 : Nat) = 2 ^ 8 from rfl, Nat.testBit_mod_two_pow, Nat.testBit_or,
    Nat.testBit_two_pow]
  simp [hm]

theorem testBit_bitClear (v n m : Nat) (hn : n < 8) (hm : m < 8) :
    (bitClear v n).testBit m = (v.testBit m && !decide (n = m)) := by
  unfold bitClear
  have h1 : (1 <<< n) % 2 ^ 32 = 2 ^ n := by
    rw [Nat.one_shiftLeft]
    exact Nat.mod_eq_of_lt (Nat.pow_lt_pow_right (by decide) (by omega))
  have h2 : (2 : Nat) ^ n < 2 ^ 32 := Nat.pow_lt_pow_right (by decide) (by omega)
  rw [h1, show (256 : Nat) = 2 ^ 8 from rfl, Nat.testBit_mod_two_pow, Nat.testBit_and,
    show 2 ^ 32 - 1 - 2 ^ n = 2 ^ 32 - (2 ^ n + 1) from by omega,
    Nat.testBit_two_pow_sub_succ h2, Nat.testBit_two_pow]
  have : m < 32 := by omega
  simp [hm, this]

/-! ## Lemmas: profile -/

theorem sizeTable_codeSize (s : Screen) : (sizeTable s)._codeSize = s._codeSize := by
  unfold sizeTable
  simp only [apply_ite Screen._codeSize, ite_self]

theorem sizeTable_screenColourBits (s : Screen) :
    (sizeTable s)._screenColourBits = s._screenColourBits := by
  unfold sizeTable
  simp only [apply_ite Screen._screenColourBits, ite_self]

theorem beginGeometry_fields (s : Screen) :
    (beginGeometry s)._codeSize = (s._eScreen_EPD_EXT3 >>> 8) &&& 0xff ∧
    (beginGeometry s)._screenSizeV = (sizeTable (beginCodes s))._screenSizeV ∧
    (beginGeometry s)._screenSizeH = (sizeTable (beginCodes s))._screenSizeH ∧
    (beginGeometry s)._bufferDepth = 2 ∧
    (beginGeometry s)._bufferSizeV = (sizeTable (beginCodes s))._screenSizeV ∧
    (beginGeometry s)._bufferSizeH = (sizeTable (beginCodes s))._screenSizeH / 8 ∧
    (beginGeometry s)._pageColourSize =
      ((sizeTable (beginCodes s))._screenSizeV *
        ((sizeTable (beginCodes s))._screenSizeH / 8)) % 2 ^ 32 ∧
    (beginGeometry s)._frameSize =
      if (s._eScreen_EPD_EXT3 >>> 8) &&& 0xff = 0x96 ∨ (s._eScreen_EPD_EXT3 >>> 8) &&& 0xff = 0xB9
      then (beginGeometry s)._pageColourSize / 2 else (beginGeometry s)._pageColourSize := by
  have h1 : (sizeTable (beginCodes s))._codeSize = (s._eScreen_EPD_EXT3 >>> 8) &&& 0xff := by
    rw [sizeTable_codeSize]; rfl
  have h2 : (sizeTable (beginCodes s))._screenColourBits = 2 := by
    rw [sizeTable_screenColourBits]; rfl
  unfold beginGeometry beginFrameSize
  simp only [beginPageSize, beginBufferSize, h1, h2]
  split <;> simp_all


theorem sizeTable_dims (s : Screen) (k : Nat) (hk : s._codeSize = k) :
    (k = 0x15 → (sizeTable s)._screenSizeV = 152 ∧ (sizeTable s)._screenSizeH = 152) ∧
    (k = 0x21 → (sizeTable s)._screenSizeV = 212 ∧ (sizeTable s)._screenSizeH = 104) ∧
    (k = 0x26 → (sizeTable s)._screenSizeV = 296 ∧ (sizeTable s)._screenSizeH = 152) ∧
    (k = 0x27 → (sizeTable s)._screenSizeV = 264 ∧ (sizeTable s)._screenSizeH = 176) ∧
    (k = 0x28 → (sizeTable s)._screenSizeV = 296 ∧ (sizeTable s)._screenSizeH = 128) ∧
    (k = 0x37 → (sizeTable s)._screenSizeV = 416 ∧ (sizeTable s)._screenSizeH = 240) ∧
    (k = 0x41 → (sizeTable s)._screenSizeV = 300 ∧ (sizeTable s)._screenSizeH = 400) ∧
    (k = 0x43 → (sizeTable s)._screenSizeV = 480 ∧ (sizeTable s)._screenSizeH = 176) ∧
    (k = 0x56 → (sizeTable s)._screenSizeV = 600 ∧ (sizeTable s)._screenSizeH = 448) ∧
    (k = 0x58 → (sizeTable s)._screenSizeV = 720 ∧ (sizeTable s)._screenSizeH = 256) ∧
    (k = 0x74 → (sizeTable s)._screenSizeV = 800 ∧ (sizeTable s)._screenSizeH = 480) ∧
    (k = 0x96 → (sizeTable s)._screenSizeV = 672 ∧ (sizeTable s)._screenSizeH = 960) ∧
    (k = 0xB9 → (sizeTable s)._screenSizeV = 768 ∧ (sizeTable s)._screenSizeH = 960) := by
  refine ⟨?_, ?_, ?_, ?_, ?_, ?_, ?_, ?_, ?_, ?_, ?_, ?_, ?_⟩ <;>
    · intro h
      subst h
      simp [sizeTable, hk]

theorem configured_row (s : Screen) (h : Configured s) :
    (s._codeSize, s._screenSizeV, s._screenSizeH, s._bufferSizeH, s._pageColourSize,
      s._frameSize) ∈ profileRows ∧ s._bufferSizeV = s._screenSizeV ∧ s._bufferDepth = 2 := by
  obtain ⟨hm, hg⟩ := h
  obtain ⟨f1, f2, f3, f4, f5, f6, f7, f8⟩ := beginGeometry_fields s
  simp only [geometry, List.cons.injEq, and_true] at hg
  obtain ⟨g1, g2, g3, g4, g5, g6, g7, g8⟩ := hg
  rw [g1] at f1
  have hk : (beginCodes s)._codeSize = s._codeSize := f1.symm
  have hd := sizeTable_dims (beginCodes s) s._codeSize hk
  rw [← f1] at f8
  rw [g2] at f2; rw [g3] at f3; rw [g4] at f4; rw [g5] at f5; rw [g6] at f6
  rw [g7] at f7; rw [g8, g7] at f8
  simp only [documentedSizes, List.mem_cons, List.mem_singleton, List.not_mem_nil, or_false] at hm
  refine ⟨?_, by rw [f5, f2], f4⟩
  rcases hm with h | h | h | h | h | h | h | h | h | h | h | h | h <;>
    · have hx := hd
      simp only [h] at hx
      norm_num at hx
      obtain ⟨hv, hh⟩ := hx
      simp only [hv, hh] at f2 f3 f6 f7
      norm_num at f6 f7
      rw [h, f7] at f8
      norm_num at f8
      rw [h, f2, f3, f6, f7, f8]
      decide


/-! ## Orientation transform -/

/-- C8: `_orientCoordinates` implements the four documented cases with H = `_screenSizeH`
and V = `_screenSizeV`. Orientation 0 succeeds iff x < H and y < V and yields (y, x);
orientation 1 succeeds iff x < V and y < H and yields (x, H-1-y); orientation 2 succeeds
iff x < H and y < V and yields (V-1-y, H-1-x); orientation 3 succeeds iff x < V and y < H
and yields (V-1-x, y). Every successful result (xNative, yNative) has xNative < V and
yNative < H, and every failing case returns the error flag `true` (and leaves x and y as
they were). -/
theorem orientCoordinates_cases (s : Screen) (x y : Nat) :
    (s._orientation = 0 →
      _orientCoordinates s x y =
        if x < s._screenSizeH ∧ y < s._screenSizeV then (false, y, x) else (true, x, y)) ∧
    (s._orientation = 1 →
      _orientCoordinates s x y =
        if x < s._screenSizeV ∧ y < s._screenSizeH then (false, x, s._screenSizeH - 1 - y)
        else (true, x, y)) ∧
    (s._orientation = 2 →
      _orientCoordinates s x y =
        if x < s._screenSizeH ∧ y < s._screenSizeV
        then (false, s._screenSizeV - 1 - y, s._screenSizeH - 1 - x)
        else (true, x, y)) ∧
    (s._orientation = 3 →
      _orientCoordinates s x y =
        if x < s._screenSizeV ∧ y < s._screenSizeH then (false, s._screenSizeV - 1 - x, y)
        else (true, x, y)) ∧
    ((_orientCoordinates s x y).1 = false →
      (_orientCoordinates s x y).2.1 < s._screenSizeV ∧
      (_orientCoordinates s x y).2.2 < s._screenSizeH) := by
  refine ⟨?_, ?_, ?_, ?_, ?_⟩
  · intro h
    unfold _orientCoordinates
    simp only [h]
    by_cases hb : x < s._screenSizeH ∧ y < s._screenSizeV <;> simp [hb]
  · intro h
    unfold _orientCoordinates
    simp only [h]
    by_cases hb : x < s._screenSizeV ∧ y < s._screenSizeH <;> simp [hb]
  · intro h
    unfold _orientCoordinates
    simp only [h]
    by_cases hb : x < s._screenSizeH ∧ y < s._screenSizeV <;> simp [hb]
  · intro h
    unfold _orientCoordinates
    simp only [h]
    by_cases hb : x < s._screenSizeV ∧ y < s._screenSizeH <;> simp [hb]
  · unfold _orientCoordinates
    split_ifs <;> simp <;> omega

/-- Witness for C8: on the 152 x 152 panel in orientation 0 the logical pixel (3, 5) is
mapped to (5, 3) and the logical pixel (152, 0) is refused. -/
theorem orientCoordinates_cases_witness :
    screen154._orientation = 0 ∧ _orientCoordinates screen154 3 5 = (false, 5, 3) ∧
      _orientCoordinates screen154 152 0 = (true, 152, 0) :=
  ⟨by decide,
    ((orientCoordinates_cases screen154 3 5).1 (by decide)).trans (by decide),
    ((orientCoordinates_cases screen154 152 0).1 (by decide)).trans (by decide)⟩

/-- C9: for each orientation the coordinate transform of `_orientCoordinates` is
invertible on in-bounds inputs. `orientInverse` undoes it (transform, then inverse, gives
back the logical coordinate); the transform is injective on in-bounds inputs; its
results lie in the native rectangle [0, V) x [0, H); and every point of that rectangle is
the image of the in-bounds logical coordinate that `orientInverse` names. -/
theorem orientCoordinates_invertible (s : Screen) :
    (∀ x y xN yN, _orientCoordinates s x y = (false, xN, yN) →
      orientInverse s xN yN = (x, y)) ∧
    (∀ x y u v xN yN, _orientCoordinates s x y = (false, xN, yN) →
      _orientCoordinates s u v = (false, xN, yN) → x = u ∧ y = v) ∧
    (∀ x y xN yN, _orientCoordinates s x y = (false, xN, yN) →
      xN < s._screenSizeV ∧ yN < s._screenSizeH) ∧
    (∀ xN yN, xN < s._screenSizeV → yN < s._screenSizeH →
      _orientCoordinates s (orientInverse s xN yN).1 (orientInverse s xN yN).2 =
        (false, xN, yN)) := by
  have inv : ∀ x y xN yN, _orientCoordinates s x y = (false, xN, yN) →
      orientInverse s xN yN = (x, y) := by
    intro x y xN yN h
    unfold _orientCoordinates at h
    unfold orientInverse
    split_ifs at h ⊢ <;> simp only [Prod.mk.injEq] at h ⊢ <;>
      first
        | (exfalso; simp at h; done)
        | omega
  refine ⟨inv, ?_, ?_, ?_⟩
  · intro x y u v xN yN h1 h2
    have e1 := inv x y xN yN h1
    have e2 := inv u v xN yN h2
    rw [e1] at e2
    simpa using e2
  · intro x y xN yN h
    unfold _orientCoordinates at h
    split_ifs at h <;> simp only [Prod.mk.injEq] at h <;>
      first
        | (exfalso; simp at h; done)
        | omega
  · intro xN yN hx hy
    unfold _orientCoordinates orientInverse
    split_ifs <;> simp only [Prod.mk.injEq] <;>
      first
        | omega
        | (simp; omega)

/-- C10: when the orientation bounds check fails (`_orientCoordinates` returns the error
flag), `point(x, y, colour)` is a no-op for every colour: the driver object, frame buffer
included, is returned unchanged. -/
theorem point_out_of_bounds (myColours : Colours) (s : Screen) (x y colour : Nat)
    (h : (_orientCoordinates s x y).1 = true) :
    point myColours s x y colour = s := by
  unfold point _setPoint
  simp [h]

/-- Witness for C10: on the 152 x 152 panel the logical pixel (152, 0) fails the bounds
check and writing red there changes nothing. -/
theorem point_out_of_bounds_witness :
    (_orientCoordinates screen154 152 0).1 = true ∧
      point colours565 screen154 152 0 colours565.red = screen154 :=
  ⟨by decide, point_out_of_bounds colours565 screen154 152 0 colours565.red (by decide)⟩

/-! ## Addressing -/

theorem getZ_eq (s : Screen) (x1 y1 : Nat) :
    _getZ s x1 y1 =
      if s._codeSize = 0x96 ∨ s._codeSize = 0xB9 then
        if y1 ≥ s._screenSizeH / 2 then
          (s._pageColourSize / 2 % 4294967296 +
            (x1 * (s._bufferSizeH / 2) + (y1 - s._screenSizeH / 2) / 8)) % 4294967296
        else (x1 * (s._bufferSizeH / 2) + y1 / 8) % 4294967296
      else (x1 * s._bufferSizeH + y1 / 8) % 4294967296 := by
  unfold _getZ
  simp only [Nat.shiftRight_eq_div_pow, Nat.zero_add]
  norm_num

theorem getZ_nowrap (s : Screen) (h : Configured s) (x1 y1 : Nat)
    (hx : x1 < 2 ^ 16) (hy : y1 < 2 ^ 16) :
    _getZ s x1 y1 =
      if s._codeSize = 0x96 ∨ s._codeSize = 0xB9 then
        if y1 ≥ s._screenSizeH / 2 then
          s._pageColourSize / 2 + (x1 * (s._bufferSizeH / 2) + (y1 - s._screenSizeH / 2) / 8)
        else x1 * (s._bufferSizeH / 2) + y1 / 8
      else x1 * s._bufferSizeH + y1 / 8 := by
  obtain ⟨hr, -, -⟩ := configured_row s h
  rw [getZ_eq]
  simp only [profileRows, List.mem_cons, List.mem_singleton, List.not_mem_nil, or_false,
    Prod.mk.injEq] at hr
  rcases hr with ⟨c1, c2, c3, c4, c5, -⟩ | ⟨c1, c2, c3, c4, c5, -⟩ | ⟨c1, c2, c3, c4, c5, -⟩ |
    ⟨c1, c2, c3, c4, c5, -⟩ | ⟨c1, c2, c3, c4, c5, -⟩ | ⟨c1, c2, c3, c4, c5, -⟩ |
    ⟨c1, c2, c3, c4, c5, -⟩ | ⟨c1, c2, c3, c4, c5, -⟩ | ⟨c1, c2, c3, c4, c5, -⟩ |
    ⟨c1, c2, c3, c4, c5, -⟩ | ⟨c1, c2, c3, c4, c5, -⟩ | ⟨c1, c2, c3, c4, c5, -⟩ |
    ⟨c1, c2, c3, c4, c5, -⟩ <;>
    · simp only [c1, c3, c4, c5]
      norm_num
      try split_ifs
      all_goals omega

/-- C2: on every documented panel, split (0x96, 0xB9) or not, the addressing map from
in-range native coordinates (xNative < `_screenSizeV`, yNative < `_screenSizeH`) to the
pair (byte offset `_getZ`, bit index 7 - yNative mod 8) is injective. -/
theorem getZ_injective (s : Screen) (h : Configured s) (x y u v : Nat)
    (hx : x < s._screenSizeV) (hy : y < s._screenSizeH)
    (hu : u < s._screenSizeV) (hv : v < s._screenSizeH)
    (hz : _getZ s x y = _getZ s u v) (hb : 7 - y % 8 = 7 - v % 8) :
    x = u ∧ y = v := by
  obtain ⟨hr, -, -⟩ := configured_row s h
  simp only [profileRows, List.mem_cons, List.mem_singleton, List.not_mem_nil, or_false,
    Prod.mk.injEq] at hr
  have b1 : x < 2 ^ 16 ∧ y < 2 ^ 16 ∧ u < 2 ^ 16 ∧ v < 2 ^ 16 := by
    rcases hr with ⟨-, c2, c3, -⟩ | ⟨-, c2, c3, -⟩ | ⟨-, c2, c3, -⟩ | ⟨-, c2, c3, -⟩ |
      ⟨-, c2, c3, -⟩ | ⟨-, c2, c3, -⟩ | ⟨-, c2, c3, -⟩ | ⟨-, c2, c3, -⟩ | ⟨-, c2, c3, -⟩ |
      ⟨-, c2, c3, -⟩ | ⟨-, c2, c3, -⟩ | ⟨-, c2, c3, -⟩ | ⟨-, c2, c3, -⟩ <;>
      · rw [c2] at hx hu
        rw [c3] at hy hv
        omega
  rw [getZ_nowrap s h x y b1.1 b1.2.1, getZ_nowrap s h u v b1.2.2.1 b1.2.2.2] at hz
  rcases hr with ⟨c1, c2, c3, c4, c5, -⟩ | ⟨c1, c2, c3, c4, c5, -⟩ | ⟨c1, c2, c3, c4, c5, -⟩ |
    ⟨c1, c2, c3, c4, c5, -⟩ | ⟨c1, c2, c3, c4, c5, -⟩ | ⟨c1, c2, c3, c4, c5, -⟩ |
    ⟨c1, c2, c3, c4, c5, -⟩ | ⟨c1, c2, c3, c4, c5, -⟩ | ⟨c1, c2, c3, c4, c5, -⟩ |
    ⟨c1, c2, c3, c4, c5, -⟩ | ⟨c1, c2, c3, c4, c5, -⟩ | ⟨c1, c2, c3, c4, c5, -⟩ |
    ⟨c1, c2, c3, c4, c5, -⟩ <;>
    · rw [c2] at hx hu
      rw [c3] at hy hv
      simp only [c1, c3, c4, c5] at hz
      norm_num at hz
      try split_ifs at hz
      all_goals omega

/-- Witness for C2: on the 9.69 inch split panel the native pixels (1, 0) and (0, 480) are
in range, so equal addresses would make them equal. -/
theorem getZ_injective_witness :
    Configured screen969 ∧
      (_getZ screen969 1 0 = _getZ screen969 0 480 → 7 - 0 % 8 = 7 - 480 % 8 →
        1 = 0 ∧ 0 = 480) :=
  ⟨by decide, fun hz hb =>
    getZ_injective screen969 (by decide) 1 0 0 480 (by decide) (by decide) (by decide)
      (by decide) hz hb⟩

/-- C3: `_getZ` with the bit index 7 - (y1 mod 8) used by `_setPoint` and `_getPoint`
computes the documented address `addressOf`, on every documented panel and for all 16-bit
coordinates: on non-split panels byte offset xNative * bufferStride + (yNative >> 3) and
bit index 7 - (yNative mod 8); on split panels, when yNative is at least half the native
extent, that half-extent is subtracted from yNative and pageColourSize/2 is added, the row
stride being bufferStride/2. -/
theorem getZ_addressOf (s : Screen) (h : Configured s) (x1 y1 : Nat)
    (hx : x1 < 2 ^ 16) (hy : y1 < 2 ^ 16) :
    (_getZ s x1 y1, 7 - y1 % 8) = addressOf s x1 y1 := by
  obtain ⟨hr, -, -⟩ := configured_row s h
  rw [getZ_nowrap s h x1 y1 hx hy]
  unfold addressOf
  simp only [profileRows, List.mem_cons, List.mem_singleton, List.not_mem_nil, or_false,
    Prod.mk.injEq] at hr
  rcases hr with ⟨c1, c2, c3, c4, c5, -⟩ | ⟨c1, c2, c3, c4, c5, -⟩ | ⟨c1, c2, c3, c4, c5, -⟩ |
    ⟨c1, c2, c3, c4, c5, -⟩ | ⟨c1, c2, c3, c4, c5, -⟩ | ⟨c1, c2, c3, c4, c5, -⟩ |
    ⟨c1, c2, c3, c4, c5, -⟩ | ⟨c1, c2, c3, c4, c5, -⟩ | ⟨c1, c2, c3, c4, c5, -⟩ |
    ⟨c1, c2, c3, c4, c5, -⟩ | ⟨c1, c2, c3, c4, c5, -⟩ | ⟨c1, c2, c3, c4, c5, -⟩ |
    ⟨c1, c2, c3, c4, c5, -⟩ <;>
    · simp only [c1, c3, c4, c5, Nat.shiftRight_eq_div_pow]
      norm_num
      try split_ifs
      all_goals
        try simp only [Prod.mk.injEq, true_and]
        try omega

/-- Witness for C3: the native pixel (1, 481) of the 9.69 inch split panel. -/
theorem getZ_addressOf_witness :
    Configured screen969 ∧ (_getZ screen969 1 481, 7 - 481 % 8) = addressOf screen969 1 481 :=
  ⟨by decide, getZ_addressOf screen969 (by decide) 1 481 (by decide) (by decide)⟩


/-! ## Profile computed by `begin` -/

theorem clear_fields (myColours : Colours) (s : Screen) (colour : Nat) :
    geometry (clear myColours s colour) = geometry s ∧
    (clear myColours s colour)._orientation = s._orientation ∧
    (clear myColours s colour)._invert = s._invert ∧
    (clear myColours s colour)._temperature = s._temperature ∧
    (clear myColours s colour)._codeExtra = s._codeExtra ∧
    (clear myColours s colour)._codeType = s._codeType := by
  unfold clear
  split_ifs <;> exact ⟨rfl, rfl, rfl, rfl, rfl, rfl⟩

theorem begin_geometry (myColours : Colours) (s : Screen) :
    geometry (begin myColours s) = geometry (beginGeometry s) := by
  unfold begin
  rw [(clear_fields _ _ _).1]
  simp only [geometry, _setOrientation, beginScreenSize, beginBuffer]

/-- C4: for each of the 13 documented size codes the profile computed by `begin`
satisfies frameSize * (2 if the size code is 0x96 or 0xB9, else 1) = pageColourSize,
pageColourSize = `_screenSizeV` * bufferStride and bufferStride = `_screenSizeH` / 8; for
the 672 x 960 dual-controller panel (size code 0x96) bufferStride is 120, pageColourSize
80640 and frameSize 40320. -/
theorem begin_profile (myColours : Colours) (s : Screen)
    (h : (s._eScreen_EPD_EXT3 >>> 8) &&& 0xff ∈ documentedSizes) :
    (begin myColours s)._codeSize = (s._eScreen_EPD_EXT3 >>> 8) &&& 0xff ∧
    (begin myColours s)._frameSize *
        (if (begin myColours s)._codeSize = 0x96 ∨ (begin myColours s)._codeSize = 0xB9
          then 2 else 1) = (begin myColours s)._pageColourSize ∧
    (begin myColours s)._pageColourSize =
      (begin myColours s)._screenSizeV * (begin myColours s)._bufferSizeH ∧
    (begin myColours s)._bufferSizeH = (begin myColours s)._screenSizeH / 8 ∧
    ((begin myColours s)._codeSize = 0x96 →
      (begin myColours s)._screenSizeV = 672 ∧ (begin myColours s)._screenSizeH = 960 ∧
      (begin myColours s)._bufferSizeH = 120 ∧ (begin myColours s)._pageColourSize = 80640 ∧
      (begin myColours s)._frameSize = 40320) := by
  have hg := begin_geometry myColours s
  simp only [geometry, List.cons.injEq, and_true] at hg
  obtain ⟨g1, g2, g3, -, -, g6, g7, g8⟩ := hg
  obtain ⟨f1, f2, f3, -, -, f6, f7, f8⟩ := beginGeometry_fields s
  rw [g1, g2, g3, g6, g7, g8, f1, f2, f3, f6, f8, f7]
  have hk : (beginCodes s)._codeSize = (s._eScreen_EPD_EXT3 >>> 8) &&& 0xff := rfl
  have hd := sizeTable_dims (beginCodes s) _ hk
  simp only [documentedSizes, List.mem_cons, List.mem_singleton, List.not_mem_nil,
    or_false] at h
  rcases h with h | h | h | h | h | h | h | h | h | h | h | h | h <;>
    · have hx := hd
      simp only [h] at hx
      norm_num at hx
      obtain ⟨hv, hh⟩ := hx
      simp only [hv, hh, h]
      norm_num

/-- Witness for C4: the device identifier 0x09960B (size code 0x96) gives frame size
40320. -/
theorem begin_profile_witness :
    (construct 0x09960B)._eScreen_EPD_EXT3 >>> 8 &&& 0xff ∈ documentedSizes ∧
    (begin colours565 (construct 0x09960B))._frameSize = 40320 :=
  ⟨by decide,
    ((begin_profile colours565 (construct 0x09960B) (by decide)).2.2.2.2
      (by decide)).2.2.2.2⟩


/-! ## Pixel writes and reads -/

theorem store_same (img : Nat → Nat) (i v : Nat) : store img i v i = v % 256 := by
  simp [store]

theorem store_other (img : Nat → Nat) (i v k : Nat) (h : k ≠ i) :
    store img i v k = img k := by
  simp [store, h]

theorem bitRead_bitSet_same (v n : Nat) (hn : n < 8) : bitRead (bitSet v n % 256) n = 1 := by
  rw [bitRead_eq_testBit, show (256 : Nat) = 2 ^ 8 from rfl, Nat.testBit_mod_two_pow,
    testBit_bitSet v n n hn hn]
  simp [hn]

theorem bitRead_bitClear_same (v n : Nat) (hn : n < 8) :
    bitRead (bitClear v n % 256) n = 0 := by
  rw [bitRead_eq_testBit, show (256 : Nat) = 2 ^ 8 from rfl, Nat.testBit_mod_two_pow,
    testBit_bitClear v n n hn hn]
  simp [hn]

theorem writeBasic_fields (myColours : Colours) (s : Screen) (z1 y1 colour : Nat) :
    geometry (writeBasic myColours s z1 y1 colour) = geometry s ∧
    (writeBasic myColours s z1 y1 colour)._orientation = s._orientation ∧
    (writeBasic myColours s z1 y1 colour)._invert = s._invert ∧
    (writeBasic myColours s z1 y1 colour)._temperature = s._temperature ∧
    (writeBasic myColours s z1 y1 colour)._codeExtra = s._codeExtra ∧
    (writeBasic myColours s z1 y1 colour)._codeType = s._codeType := by
  unfold writeBasic
  split_ifs <;> exact ⟨rfl, rfl, rfl, rfl, rfl, rfl⟩

theorem setPoint_fields (myColours : Colours) (s : Screen) (x1 y1 colour : Nat) :
    geometry (_setPoint myColours s x1 y1 colour) = geometry s ∧
    (_setPoint myColours s x1 y1 colour)._orientation = s._orientation ∧
    (_setPoint myColours s x1 y1 colour)._invert = s._invert ∧
    (_setPoint myColours s x1 y1 colour)._temperature = s._temperature ∧
    (_setPoint myColours s x1 y1 colour)._codeExtra = s._codeExtra ∧
    (_setPoint myColours s x1 y1 colour)._codeType = s._codeType := by
  unfold _setPoint
  by_cases h : (_orientCoordinates s x1 y1).1 = true
  · rw [if_pos h]
    exact ⟨rfl, rfl, rfl, rfl, rfl, rfl⟩
  · rw [if_neg h]
    exact writeBasic_fields _ _ _ _ _

theorem orientCoordinates_congr (s t : Screen) (x y : Nat)
    (ho : t._orientation = s._orientation) (hg : geometry t = geometry s) :
    _orientCoordinates t x y = _orientCoordinates s x y := by
  simp only [geometry, List.cons.injEq, and_true] at hg
  obtain ⟨-, g2, g3, -⟩ := hg
  unfold _orientCoordinates
  rw [ho, g2, g3]

theorem getZ_congr (s t : Screen) (x y : Nat) (hg : geometry t = geometry s) :
    _getZ t x y = _getZ s x y := by
  simp only [geometry, List.cons.injEq, and_true] at hg
  obtain ⟨g1, -, g3, -, -, g6, g7, -⟩ := hg
  unfold _getZ
  rw [g1, g3, g6, g7]

theorem setPoint_inbounds (myColours : Colours) (s : Screen) (x y colour : Nat)
    (h : (_orientCoordinates s x y).1 = false) :
    _setPoint myColours s x y colour =
      writeBasic myColours s
        (_getZ s (_orientCoordinates s x y).2.1 (_orientCoordinates s x y).2.2)
        (_orientCoordinates s x y).2.2
        (ditherColour myColours s (_orientCoordinates s x y).2.1
          (_orientCoordinates s x y).2.2 colour) := by
  unfold _setPoint
  simp [h]

theorem getPoint_inbounds (myColours : Colours) (s : Screen) (x y : Nat)
    (h : (_orientCoordinates s x y).1 = false) :
    _getPoint myColours s x y =
      if planeBits s (_getZ s (_orientCoordinates s x y).2.1 (_orientCoordinates s x y).2.2)
          (_orientCoordinates s x y).2.2 = (1, 0) then myColours.black
      else if planeBits s
          (_getZ s (_orientCoordinates s x y).2.1 (_orientCoordinates s x y).2.2)
          (_orientCoordinates s x y).2.2 = (0, 1) then myColours.red
      else myColours.white := by
  unfold _getPoint planeBits
  simp only [h, Bool.false_eq_true, if_false]
  generalize s._newImage (_getZ s (_orientCoordinates s x y).2.1
    (_orientCoordinates s x y).2.2) = a
  generalize s._newImage (s._pageColourSize + _getZ s (_orientCoordinates s x y).2.1
    (_orientCoordinates s x y).2.2) = b
  rw [bitRead_eq_testBit, bitRead_eq_testBit]
  cases a.testBit (7 - (_orientCoordinates s x y).2.2 % 8) <;>
    cases b.testBit (7 - (_orientCoordinates s x y).2.2 % 8) <;>
    simp only [Bool.toNat_false, Bool.toNat_true, Prod.mk.injEq] <;>
    norm_num [Nat.shiftLeft_eq, show (16 ||| 1 : Nat) = 17 from rfl]

/-- The plane bits that `writeBasic` leaves at the pixel it writes. -/
theorem writeBasic_planeBits (myColours : Colours) (s : Screen) (z1 y1 colour : Nat)
    (hp : 0 < s._pageColourSize) :
    planeBits (writeBasic myColours s z1 y1 colour) z1 y1 =
      if colour = myColours.red then (0, 1)
      else if xor (decide (colour = myColours.white)) s._invert then (0, 0)
      else if xor (decide (colour = myColours.black)) s._invert then (1, 0)
      else planeBits s z1 y1 := by
  have hb : 7 - y1 % 8 < 8 := by omega
  have hne : z1 ≠ s._pageColourSize + z1 := by omega
  unfold writeBasic
  split_ifs <;>
    simp only [planeBits, store_same, store_other _ _ _ _ hne, bitRead_bitSet_same _ _ hb,
      bitRead_bitClear_same _ _ hb]


theorem configured_pageColourSize_pos (s : Screen) (h : Configured s) :
    0 < s._pageColourSize := by
  obtain ⟨hr, -, -⟩ := configured_row s h
  simp only [profileRows, List.mem_cons, List.mem_singleton, List.not_mem_nil, or_false,
    Prod.mk.injEq] at hr
  rcases hr with ⟨-, -, -, -, c5, -⟩ | ⟨-, -, -, -, c5, -⟩ | ⟨-, -, -, -, c5, -⟩ |
    ⟨-, -, -, -, c5, -⟩ | ⟨-, -, -, -, c5, -⟩ | ⟨-, -, -, -, c5, -⟩ | ⟨-, -, -, -, c5, -⟩ |
    ⟨-, -, -, -, c5, -⟩ | ⟨-, -, -, -, c5, -⟩ | ⟨-, -, -, -, c5, -⟩ | ⟨-, -, -, -, c5, -⟩ |
    ⟨-, -, -, -, c5, -⟩ | ⟨-, -, -, -, c5, -⟩ <;> omega

theorem distinct_ne (c : Colours) (hc : c.Distinct) :
    c.black ≠ c.white ∧ c.black ≠ c.grey ∧ c.black ≠ c.red ∧ c.black ≠ c.lightRed ∧
    c.black ≠ c.darkRed ∧ c.white ≠ c.grey ∧ c.white ≠ c.red ∧ c.white ≠ c.lightRed ∧
    c.white ≠ c.darkRed ∧ c.grey ≠ c.red ∧ c.grey ≠ c.lightRed ∧ c.grey ≠ c.darkRed ∧
    c.red ≠ c.lightRed ∧ c.red ≠ c.darkRed ∧ c.lightRed ≠ c.darkRed := by
  unfold Colours.Distinct at hc
  simp only [List.nodup_cons, List.mem_cons, List.mem_singleton, List.not_mem_nil,
    not_or, List.nodup_nil, and_true, or_false, not_false_eq_true] at hc
  tauto

theorem ditherColour_basic (c : Colours) (hc : c.Distinct) (s : Screen) (x1 y1 : Nat) :
    ditherColour c s x1 y1 c.white = c.white ∧
    ditherColour c s x1 y1 c.black = c.black ∧
    ditherColour c s x1 y1 c.red = c.red := by
  obtain ⟨h1, h2, h3, h4, h5, h6, h7, h8, h9, h10, h11, h12, h13, h14, h15⟩ :=
    distinct_ne c hc
  unfold ditherColour
  refine ⟨?_, ?_, ?_⟩
  · simp [h9, h8, h6]
  · simp [h5, h4, h2]
  · simp [h14, h13, h10.symm]

/-- The plane bits that `_setPoint` leaves at an in-bounds pixel, for any colour value. -/
theorem setPoint_planeBits (c : Colours) (s : Screen) (h : Configured s)
    (x y xN yN colour : Nat) (hin : _orientCoordinates s x y = (false, xN, yN)) :
    planeBits (_setPoint c s x y colour) (_getZ s xN yN) yN =
      if ditherColour c s xN yN colour = c.red then (0, 1)
      else if xor (decide (ditherColour c s xN yN colour = c.white)) s._invert then (0, 0)
      else if xor (decide (ditherColour c s xN yN colour = c.black)) s._invert then (1, 0)
      else planeBits s (_getZ s xN yN) yN := by
  have h1 : (_orientCoordinates s x y).1 = false := by rw [hin]
  rw [setPoint_inbounds c s x y colour h1, hin]
  exact writeBasic_planeBits c s _ _ _ (configured_pageColourSize_pos s h)

/-- C7: for every in-bounds pixel, `point` with a basic colour writes the documented
(plane 0 bit, plane 1 bit) pair at the pixel's address (byte `_getZ`, bit 7 - yNative mod
8): white writes (0,0) with invert off and (1,0) with invert on; black writes (1,0) with
invert off and (0,0) with invert on; red writes (0,1) whatever the invert flag. -/
theorem point_basic_planeBits (c : Colours) (hc : c.Distinct) (s : Screen)
    (h : Configured s) (x y xN yN : Nat)
    (hin : _orientCoordinates s x y = (false, xN, yN)) :
    planeBits (point c s x y c.white) (_getZ s xN yN) yN =
      (if s._invert = true then (1, 0) else (0, 0)) ∧
    planeBits (point c s x y c.black) (_getZ s xN yN) yN =
      (if s._invert = true then (0, 0) else (1, 0)) ∧
    planeBits (point c s x y c.red) (_getZ s xN yN) yN = (0, 1) := by
  obtain ⟨h1, h2, h3, h4, h5, h6, h7, h8, h9, h10, h11, h12, h13, h14, h15⟩ :=
    distinct_ne c hc
  obtain ⟨d1, d2, d3⟩ := ditherColour_basic c hc s xN yN
  unfold point
  rw [setPoint_planeBits c s h x y xN yN _ hin, setPoint_planeBits c s h x y xN yN _ hin,
    setPoint_planeBits c s h x y xN yN _ hin, d1, d2, d3]
  cases hi : s._invert <;> simp [h1, h1.symm, h3, h7]

/-- Witness for C7: the logical pixel (3, 5) of the 152 x 152 panel, orientation 0. -/
theorem point_basic_planeBits_witness :
    colours565.Distinct ∧ Configured screen154 ∧
      _orientCoordinates screen154 3 5 = (false, 5, 3) ∧
      planeBits (point colours565 screen154 3 5 colours565.red) (_getZ screen154 5 3) 3 =
        (0, 1) :=
  ⟨by decide, by decide, by decide,
    (point_basic_planeBits colours565 (by decide) screen154 (by decide) 3 5 5 3
      (by decide)).2.2⟩

/-- C1: on every documented panel, in every orientation and for every in-bounds logical
(x, y), with the invert flag off, writing a basic colour c in {white, black, red} with
`point(x, y, c)` and then calling `readPixel(x, y)` returns c. -/
theorem readPixel_point_basic (c : Colours) (hc : c.Distinct) (s : Screen)
    (h : Configured s) (hi : s._invert = false) (x y colour : Nat)
    (hin : (_orientCoordinates s x y).1 = false)
    (hcol : colour = c.white ∨ colour = c.black ∨ colour = c.red) :
    readPixel c (point c s x y colour) x y = colour := by
  obtain ⟨h1, h2, h3, h4, h5, h6, h7, h8, h9, h10, h11, h12, h13, h14, h15⟩ :=
    distinct_ne c hc
  obtain ⟨hg, ho, -⟩ := setPoint_fields c s x y colour
  have hin2 : _orientCoordinates s x y =
      (false, (_orientCoordinates s x y).2.1, (_orientCoordinates s x y).2.2) := by
    rw [← hin]
  have hoc := orientCoordinates_congr s (_setPoint c s x y colour) x y ho hg
  obtain ⟨d1, d2, d3⟩ := ditherColour_basic c hc s (_orientCoordinates s x y).2.1
    (_orientCoordinates s x y).2.2
  have hpb := setPoint_planeBits c s h x y _ _ colour hin2
  unfold readPixel point
  rw [getPoint_inbounds c _ x y (by rw [hoc]; exact hin), hoc, getZ_congr s _ _ _ hg, hpb]
  rcases hcol with e | e | e <;> subst e
  · have e : (if c.white = c.red then ((0 : Nat), (1 : Nat))
        else if xor (decide (c.white = c.white)) false then (0, 0)
        else if xor (decide (c.white = c.black)) false then (1, 0)
        else planeBits s (_getZ s (_orientCoordinates s x y).2.1
          (_orientCoordinates s x y).2.2) (_orientCoordinates s x y).2.2) = (0, 0) := by
      simp [h7]
    rw [d1, hi, e]
    simp only [Prod.mk.injEq]
    norm_num
  · have e : (if c.black = c.red then ((0 : Nat), (1 : Nat))
        else if xor (decide (c.black = c.white)) false then (0, 0)
        else if xor (decide (c.black = c.black)) false then (1, 0)
        else planeBits s (_getZ s (_orientCoordinates s x y).2.1
          (_orientCoordinates s x y).2.2) (_orientCoordinates s x y).2.2) = (1, 0) := by
      simp [h3, h1]
    rw [d2, hi, e]
    simp only [Prod.mk.injEq]
    norm_num
  · rw [d3]
    simp only [if_true, Prod.mk.injEq]
    norm_num

/-- Witness for C1: red at the logical pixel (3, 5) of the 152 x 152 panel. -/
theorem readPixel_point_basic_witness :
    colours565.Distinct ∧ Configured screen154 ∧ screen154._invert = false ∧
      (_orientCoordinates screen154 3 5).1 = false ∧
      readPixel colours565 (point colours565 screen154 3 5 colours565.red) 3 5 =
        colours565.red :=
  ⟨by decide, by decide, by decide, by decide,
    readPixel_point_basic colours565 (by decide) screen154 (by decide) (by decide) 3 5
      colours565.red (by decide) (Or.inr (Or.inr rfl))⟩


/-! ## Composite colours -/

/-- C6 (as amended): `point` with the composite colour darkRed or lightRed resolves it per
pixel by the parity of x + y of the pixel's coordinates after the orientation transform:
darkRed is written as red when x + y is even and as black otherwise (white if inverted);
lightRed is written as red when x + y is even and as white otherwise (black if
inverted). -/
theorem point_composite_parity (c : Colours) (hc : c.Distinct) (s : Screen)
    (x y xN yN : Nat) (hin : _orientCoordinates s x y = (false, xN, yN)) :
    ((xN + yN) % 2 = 0 →
      point c s x y c.darkRed = point c s x y c.red ∧
      point c s x y c.lightRed = point c s x y c.red) ∧
    ((xN + yN) % 2 = 1 →
      point c s x y c.darkRed =
        point c s x y (if s._invert = true then c.white else c.black) ∧
      point c s x y c.lightRed =
        point c s x y (if s._invert = true then c.black else c.white)) := by
  obtain ⟨h1, h2, h3, h4, h5, h6, h7, h8, h9, h10, h11, h12, h13, h14, h15⟩ :=
    distinct_ne c hc
  obtain ⟨d1, d2, d3⟩ := ditherColour_basic c hc s xN yN
  have hf : (_orientCoordinates s x y).1 = false := by rw [hin]
  unfold point
  simp only [setPoint_inbounds c s x y _ hf, hin]
  constructor
  · intro hp
    rw [d3]
    constructor
    · simp [ditherColour, hp]
    · simp [ditherColour, hp, h15]
  · intro hp
    have hp0 : ¬ (xN + yN) % 2 = 0 := by omega
    cases hi : s._invert
    · simp only [Bool.false_eq_true, if_false]
      rw [d1, d2]
      constructor
      · simp [ditherColour, hp0, hi]
      · simp [ditherColour, hp0, hi, h15]
    · simp only [if_true]
      rw [d1, d2]
      constructor
      · simp [ditherColour, hp0, hi]
      · simp [ditherColour, hp0, hi, h15]

/-- Witness for C6 (as amended): the logical pixel (0, 0) of the 152 x 152 panel has even
parity, and darkRed is written there as red. -/
theorem point_composite_parity_witness :
    colours565.Distinct ∧ _orientCoordinates screen154 0 0 = (false, 0, 0) ∧
      point colours565 screen154 0 0 colours565.darkRed =
        point colours565 screen154 0 0 colours565.red :=
  ⟨by decide, by decide,
    ((point_composite_parity colours565 (by decide) screen154 0 0 0 0 (by decide)).1
      (by decide)).1⟩

/-- Counterexample for C6 as stated: on the 152 x 152 panel (orientation 0, invert off)
the logical pixel (0, 0) is the native pixel (0, 0), whose x + y is not odd, so the claim
has darkRed written there as black; the driver writes it as red, which leaves other plane
bits, (0, 1), than black does, (1, 0). -/
theorem point_darkRed_not_black_on_even :
    _orientCoordinates screen154 0 0 = (false, 0, 0) ∧ ¬ ((0 + 0) % 2 = 1) ∧
      screen154._invert = false ∧
      planeBits (point colours565 screen154 0 0 colours565.darkRed)
        (_getZ screen154 0 0) 0 = (0, 1) ∧
      planeBits (point colours565 screen154 0 0 colours565.black)
        (_getZ screen154 0 0) 0 = (1, 0) ∧
      point colours565 screen154 0 0 colours565.darkRed ≠
        point colours565 screen154 0 0 colours565.black := by
  have e1 : planeBits (point colours565 screen154 0 0 colours565.darkRed)
      (_getZ screen154 0 0) 0 = (0, 1) := by decide
  have e2 : planeBits (point colours565 screen154 0 0 colours565.black)
      (_getZ screen154 0 0) 0 = (1, 0) := by decide
  refine ⟨by decide, by decide, by decide, e1, e2, ?_⟩
  intro heq
  rw [heq, e2] at e1
  exact absurd e1 (by decide)


/-! ## Whole-screen fill against the per-pixel path -/

theorem forLoop_succ {α : Type} (n : Nat) (body : Nat → α → α) (a : α) :
    forLoop (n + 1) body a = body n (forLoop n body a) := by
  unfold forLoop
  rw [List.range_succ, List.foldl_append]
  rfl

theorem forLoop_invariant {α : Type} (P : α → Prop) (body : Nat → α → α)
    (hstep : ∀ i a, P a → P (body i a)) (n : Nat) (a : α) (ha : P a) :
    P (forLoop n body a) := by
  induction n with
  | zero => exact ha
  | succ k ih =>
    rw [forLoop_succ]
    exact hstep k _ ih

theorem writeBasic_eScreen (myColours : Colours) (s : Screen) (z1 y1 colour : Nat) :
    (writeBasic myColours s z1 y1 colour)._eScreen_EPD_EXT3 = s._eScreen_EPD_EXT3 := by
  unfold writeBasic
  split_ifs <;> rfl

theorem setPoint_sameProfile (myColours : Colours) (s : Screen) (x1 y1 colour : Nat) :
    SameProfile s (_setPoint myColours s x1 y1 colour) := by
  obtain ⟨hg, ho, hi, -⟩ := setPoint_fields myColours s x1 y1 colour
  refine ⟨?_, hg, ho, hi⟩
  unfold _setPoint
  by_cases h : (_orientCoordinates s x1 y1).1 = true
  · rw [if_pos h]
  · rw [if_neg h]
    exact writeBasic_eScreen _ _ _ _ _

theorem sameProfile_trans (s t u : Screen) (h1 : SameProfile s t) (h2 : SameProfile t u) :
    SameProfile s u :=
  ⟨h2.1.trans h1.1, h2.2.1.trans h1.2.1, h2.2.2.1.trans h1.2.2.1, h2.2.2.2.trans h1.2.2.2⟩

theorem sizeTable_dims_congr (s t : Screen) (hc : t._codeSize = s._codeSize)
    (hv : t._screenSizeV = s._screenSizeV) (hh : t._screenSizeH = s._screenSizeH) :
    (sizeTable t)._screenSizeV = (sizeTable s)._screenSizeV ∧
    (sizeTable t)._screenSizeH = (sizeTable s)._screenSizeH := by
  unfold sizeTable
  simp only [apply_ite Screen._screenSizeV, apply_ite Screen._screenSizeH, hc, hv, hh]
  exact ⟨trivial, trivial⟩

theorem configured_congr (s t : Screen) (hp : SameProfile s t) (h : Configured s) :
    Configured t := by
  obtain ⟨he, hg, -, -⟩ := hp
  obtain ⟨hm, hs⟩ := h
  have hg2 := hg
  simp only [geometry, List.cons.injEq, and_true] at hg2
  obtain ⟨g1, g2, g3, g4, g5, g6, g7, g8⟩ := hg2
  refine ⟨by rw [g1]; exact hm, ?_⟩
  rw [hg, ← hs]
  obtain ⟨f1, f2, f3, f4, f5, f6, f7, f8⟩ := beginGeometry_fields s
  obtain ⟨t1, t2, t3, t4, t5, t6, t7, t8⟩ := beginGeometry_fields t
  have hcs : (beginCodes t)._codeSize = (beginCodes s)._codeSize := by
    show (t._eScreen_EPD_EXT3 >>> 8) &&& 0xff = (s._eScreen_EPD_EXT3 >>> 8) &&& 0xff
    rw [he]
  obtain ⟨dv, dh⟩ := sizeTable_dims_congr (beginCodes s) (beginCodes t) hcs g2 g3
  simp only [dv, dh] at t2 t3 t5 t6 t7
  have e7 : (beginGeometry t)._pageColourSize = (beginGeometry s)._pageColourSize := by
    rw [t7, f7]
  simp only [geometry, List.cons.injEq, and_true]
  refine ⟨by rw [t1, f1, he], by rw [t2, f2], by rw [t3, f3], by rw [t4, f4],
    by rw [t5, f5], by rw [t6, f6], e7, ?_⟩
  rw [t8, f8, e7, he]


theorem forLoop_point_sameProfile (c : Colours) (s0 : Screen) (n x colour : Nat)
    (a : Screen) (ha : SameProfile s0 a) :
    SameProfile s0 (forLoop n (fun y s2 => point c s2 x y colour) a) :=
  forLoop_invariant (SameProfile s0) _
    (fun i b hb => sameProfile_trans s0 b _ hb (setPoint_sameProfile c b x i colour)) n a ha

theorem forLoop_columns_sameProfile (c : Colours) (s0 : Screen) (m n colour : Nat)
    (a : Screen) (ha : SameProfile s0 a) :
    SameProfile s0
      (forLoop m (fun x s1 => forLoop n (fun y s2 => point c s2 x y colour) s1) a) :=
  forLoop_invariant (SameProfile s0) _
    (fun i b hb => forLoop_point_sameProfile c s0 n i colour b hb) m a ha

/-- The plane bits that `_setPoint` leaves at an in-bounds pixel for grey: they follow the
parity of x + y and flip with the invert flag. -/
theorem setPoint_grey_planeBits (c : Colours) (hc : c.Distinct) (s : Screen)
    (h : Configured s) (x y xN yN : Nat)
    (hin : _orientCoordinates s x y = (false, xN, yN)) :
    planeBits (_setPoint c s x y c.grey) (_getZ s xN yN) yN =
      if xor (decide ((xN + yN) % 2 = 0)) s._invert then (1, 0) else (0, 0) := by
  obtain ⟨h1, h2, h3, h4, h5, h6, h7, h8, h9, h10, h11, h12, h13, h14, h15⟩ :=
    distinct_ne c hc
  rw [setPoint_planeBits c s h x y xN yN _ hin]
  by_cases hp : (xN + yN) % 2 = 0 <;> cases hi : s._invert <;>
    simp [ditherColour, hp, h12, h11, h3, h1, h7, h1.symm]

/-- C5, the driver evaluated at the failing input: on the 152 x 152 panel (size code 0x15,
as left by `begin`: orientation 0, invert off) the native pixel (151, 151) holds the plane
bits (0, 0), white, after `clear(grey)`, and (1, 0), black, after grey has been written
with `point` at every in-bounds coordinate; the two buffers differ. -/
theorem clear_grey_differs_from_pointAll :
    Configured screen154 ∧ screen154._invert = false ∧
      _orientCoordinates screen154 151 151 = (false, 151, 151) ∧
      planeBits (clear colours565 screen154 colours565.grey)
        (_getZ screen154 151 151) 151 = (0, 0) ∧
      planeBits (pointAll colours565 screen154 colours565.grey)
        (_getZ screen154 151 151) 151 = (1, 0) ∧
      (clear colours565 screen154 colours565.grey)._newImage ≠
        (pointAll colours565 screen154 colours565.grey)._newImage := by
  have hc : Configured screen154 := by decide
  have hi : screen154._invert = false := by decide
  have ho : _orientCoordinates screen154 151 151 = (false, 151, 151) := by decide
  have e1 : planeBits (clear colours565 screen154 colours565.grey)
      (_getZ screen154 151 151) 151 = (0, 0) := by decide
  have e2 : planeBits (pointAll colours565 screen154 colours565.grey)
      (_getZ screen154 151 151) 151 = (1, 0) := by
    have hx : extentX screen154 = 151 + 1 := by decide
    have hy : extentY screen154 = 151 + 1 := by decide
    unfold pointAll
    rw [hx, hy, forLoop_succ, forLoop_succ]
    have hp := forLoop_point_sameProfile colours565 screen154 151 151 colours565.grey _
      (forLoop_columns_sameProfile colours565 screen154 151 (151 + 1) colours565.grey
        screen154 ⟨rfl, rfl, rfl, rfl⟩)
    generalize forLoop 151 (fun y s2 => point colours565 s2 151 y colours565.grey)
      (forLoop 151 (fun x s1 =>
        forLoop (151 + 1) (fun y s2 => point colours565 s2 x y colours565.grey) s1)
        screen154) = prev at hp ⊢
    have hcp : Configured prev := configured_congr screen154 prev hp hc
    have hop : _orientCoordinates prev 151 151 = (false, 151, 151) := by
      rw [orientCoordinates_congr screen154 prev 151 151 hp.2.2.1 hp.2.1]
      exact ho
    have hz : _getZ screen154 151 151 = _getZ prev 151 151 :=
      (getZ_congr screen154 prev 151 151 hp.2.1).symm
    unfold point
    rw [hz, setPoint_grey_planeBits colours565 (by decide) prev hcp 151 151 151 151 hop,
      hp.2.2.2, hi]
    decide
  refine ⟨hc, hi, ho, e1, e2, ?_⟩
  intro heq
  have e3 : planeBits (clear colours565 screen154 colours565.grey)
      (_getZ screen154 151 151) 151 =
      planeBits (pointAll colours565 screen154 colours565.grey)
        (_getZ screen154 151 151) 151 := by
    have hpc : (clear colours565 screen154 colours565.grey)._pageColourSize =
        (pointAll colours565 screen154 colours565.grey)._pageColourSize := by
      have g1 := (clear_fields colours565 screen154 colours565.grey).1
      have g2 := (forLoop_columns_sameProfile colours565 screen154 (extentX screen154)
        (extentY screen154) colours565.grey screen154 ⟨rfl, rfl, rfl, rfl⟩).2.1
      have g3 : geometry (clear colours565 screen154 colours565.grey) =
          geometry (pointAll colours565 screen154 colours565.grey) := g1.trans g2.symm
      simp only [geometry, List.cons.injEq, and_true] at g3
      exact g3.2.2.2.2.2.2.1
    unfold planeBits
    rw [heq, hpc]
  rw [e1, e2] at e3
  exact absurd e3 (by decide)

/-! ## Temperature policy -/

theorem and_0x19_lt (n : Nat) : n &&& 0x19 < 32 :=
  Nat.lt_of_le_of_lt Nat.and_le_right (by decide)

theorem temperatureRange_mask (n : Nat) :
    temperatureRange n = temperatureRange (n &&& 0x19) := by
  have h1 : (n &&& 0x19) &&& 0x01 = n &&& 0x01 := by
    rw [Nat.and_assoc]; rfl
  have h2 : (n &&& 0x19) &&& 0x08 = n &&& 0x08 := by
    rw [Nat.and_assoc]; rfl
  have h3 : (n &&& 0x19) &&& 0x10 = n &&& 0x10 := by
    rw [Nat.and_assoc]; rfl
  unfold temperatureRange
  rw [h1, h2, h3]

theorem temperatureRange_cases (m : Nat) (hm : m < 32) (hmask : m &&& 0x19 = m) :
    temperatureRange m =
      if m = FEATURE_FAST then (0, 50)
      else if m = FEATURE_FAST ||| FEATURE_WIDE_TEMPERATURE then (-15, 60)
      else if m = FEATURE_WIDE_TEMPERATURE then (-25, 30)
      else if m = FEATURE_RED then (0, 40)
      else (0, 50) := by
  interval_cases m <;> first | rfl | (exfalso; revert hmask; decide)


theorem checkTemperatureMode_eq (k : Constants) (s : Screen) (m : Nat) :
    checkTemperatureMode k s m =
      if (temperatureRange s._codeExtra).1 ≤ s._temperature ∧
          s._temperature ≤ (temperatureRange s._codeExtra).2
      then k.UPDATE_GLOBAL else k.UPDATE_NONE := by
  rw [temperatureRange_mask,
    temperatureRange_cases (s._codeExtra &&& 0x19) (and_0x19_lt _)
      (by rw [Nat.and_assoc]; rfl)]
  unfold checkTemperatureMode
  split_ifs <;> first | rfl | (exfalso; simp only [] at *; omega)

/-- C12: `checkTemperatureMode(m)` returns `UPDATE_NONE` exactly when the stored Celsius
temperature lies outside the inclusive range of the class selected by the feature flags
masked with FAST | WIDE_TEMPERATURE | RED (0x19): FAST only 0..50, FAST | WIDE_TEMPERATURE
-15..60, WIDE_TEMPERATURE only -25..30, RED only 0..40, any other combination 0..50;
otherwise it returns `UPDATE_GLOBAL`, whatever mode m was requested. For the KS class -15
and 60 give Global while -16 and 61 give None; for the default CS class -5 gives None and
10 gives Global. -/
theorem checkTemperatureMode_policy (k : Constants) (hk : k.Valid) (s : Screen) (m : Nat) :
    (checkTemperatureMode k s m = k.UPDATE_NONE ↔
      (s._temperature < (temperatureRange s._codeExtra).1 ∨
        (temperatureRange s._codeExtra).2 < s._temperature)) ∧
    (checkTemperatureMode k s m ≠ k.UPDATE_NONE →
      checkTemperatureMode k s m = k.UPDATE_GLOBAL) ∧
    ((s._codeExtra &&& 0x19 = FEATURE_FAST → temperatureRange s._codeExtra = (0, 50)) ∧
     (s._codeExtra &&& 0x19 = FEATURE_FAST ||| FEATURE_WIDE_TEMPERATURE →
        temperatureRange s._codeExtra = (-15, 60)) ∧
     (s._codeExtra &&& 0x19 = FEATURE_WIDE_TEMPERATURE →
        temperatureRange s._codeExtra = (-25, 30)) ∧
     (s._codeExtra &&& 0x19 = FEATURE_RED → temperatureRange s._codeExtra = (0, 40)) ∧
     (s._codeExtra &&& 0x19 ≠ FEATURE_FAST →
        s._codeExtra &&& 0x19 ≠ FEATURE_FAST ||| FEATURE_WIDE_TEMPERATURE →
        s._codeExtra &&& 0x19 ≠ FEATURE_WIDE_TEMPERATURE →
        s._codeExtra &&& 0x19 ≠ FEATURE_RED → temperatureRange s._codeExtra = (0, 50))) ∧
    (s._codeExtra &&& 0x19 = FEATURE_FAST ||| FEATURE_WIDE_TEMPERATURE →
      (s._temperature = -15 ∨ s._temperature = 60 →
        checkTemperatureMode k s m = k.UPDATE_GLOBAL) ∧
      (s._temperature = -16 ∨ s._temperature = 61 →
        checkTemperatureMode k s m = k.UPDATE_NONE)) ∧
    (s._codeExtra &&& 0x19 ≠ FEATURE_FAST →
      s._codeExtra &&& 0x19 ≠ FEATURE_FAST ||| FEATURE_WIDE_TEMPERATURE →
      s._codeExtra &&& 0x19 ≠ FEATURE_WIDE_TEMPERATURE →
      s._codeExtra &&& 0x19 ≠ FEATURE_RED →
      (s._temperature = -5 → checkTemperatureMode k s m = k.UPDATE_NONE) ∧
      (s._temperature = 10 → checkTemperatureMode k s m = k.UPDATE_GLOBAL)) := by
  have hne : k.UPDATE_GLOBAL ≠ k.UPDATE_NONE := fun e => hk.2.2 e.symm
  have hr := temperatureRange_cases (s._codeExtra &&& 0x19) (and_0x19_lt _)
    (by rw [Nat.and_assoc]; rfl)
  rw [← temperatureRange_mask] at hr
  have he := checkTemperatureMode_eq k s m
  refine ⟨?_, ?_, ⟨?_, ?_, ?_, ?_, ?_⟩, ?_, ?_⟩
  · rw [he]
    by_cases hin : (temperatureRange s._codeExtra).1 ≤ s._temperature ∧
        s._temperature ≤ (temperatureRange s._codeExtra).2
    · rw [if_pos hin]
      constructor
      · intro e; exact absurd e hne
      · intro e; omega
    · rw [if_neg hin]
      constructor
      · intro _; omega
      · intro _; rfl
  · rw [he]
    split_ifs
    · intro _; rfl
    · intro e; exact absurd rfl e
  · intro h1; rw [hr, if_pos h1]
  · intro h1; rw [hr, h1]; rfl
  · intro h1; rw [hr, h1]; rfl
  · intro h1; rw [hr, h1]; rfl
  · intro h1 h2 h3 h4; rw [hr, if_neg h1, if_neg h2, if_neg h3, if_neg h4]
  · intro h1
    have e : temperatureRange s._codeExtra = (-15, 60) := by rw [hr, h1]; rfl
    rw [he, e]
    constructor
    · rintro (h | h) <;> rw [h] <;> simp
    · rintro (h | h) <;> rw [h] <;> simp
  · intro h1 h2 h3 h4
    have e : temperatureRange s._codeExtra = (0, 50) := by
      rw [hr, if_neg h1, if_neg h2, if_neg h3, if_neg h4]
    rw [he, e]
    constructor
    · intro h; rw [h]; simp
    · intro h; rw [h]; simp

/-- Witness for C12: a KS-class profile (feature byte 0x09) at 60 degrees Celsius. -/
theorem checkTemperatureMode_policy_witness :
    constants0.Valid ∧
      checkTemperatureMode constants0
        { (construct 0x091500) with _codeExtra := 0x09, _temperature := 60 }
        constants0.UPDATE_FAST = constants0.UPDATE_GLOBAL :=
  ⟨by decide,
    ((checkTemperatureMode_policy constants0 (by decide)
      { (construct 0x091500) with _codeExtra := 0x09, _temperature := 60 }
      constants0.UPDATE_FAST).2.2.2.1 (by decide)).1 (Or.inr rfl)⟩

/-! ## Temperature input -/

/-- C13 (as amended): for every 16-bit signed Fahrenheit input f, `setTemperatureF(f)`
leaves the stored temperature equal to ((f - 32) * 5) / 9, computed with integer division
truncating toward zero and then converted to `int8_t` (wrapped into -128..127), which is
the same state as `setTemperatureC` of that value; for -200 <= f <= 262 the conversion
changes nothing and the stored temperature is exactly ((f - 32) * 5) / 9; in particular
`setTemperatureF(77)` yields the same internal state as `setTemperatureC(25)`. -/
theorem setTemperatureF_stored (s : Screen) (f : Int)
    (hf : -32768 ≤ f ∧ f ≤ 32767) :
    (setTemperatureF s f)._temperature = toInt8 (Int.tdiv ((f - 32) * 5) 9) ∧
    setTemperatureF s f = setTemperatureC s (toInt8 (Int.tdiv ((f - 32) * 5) 9)) ∧
    (-200 ≤ f ∧ f ≤ 262 →
      (setTemperatureF s f)._temperature = Int.tdiv ((f - 32) * 5) 9 ∧
      setTemperatureF s f = setTemperatureC s (Int.tdiv ((f - 32) * 5) 9)) ∧
    setTemperatureF s 77 = setTemperatureC s 25 := by
  refine ⟨rfl, rfl, ?_, ?_⟩
  · intro hr
    have hb : -128 ≤ Int.tdiv ((f - 32) * 5) 9 ∧ Int.tdiv ((f - 32) * 5) 9 ≤ 127 := by
      by_cases hs : 0 ≤ (f - 32) * 5
      · rw [Int.tdiv_eq_ediv hs (by decide)]
        omega
      · have hn : (f - 32) * 5 = -((32 - f) * 5) := by ring
        rw [hn, Int.neg_tdiv, Int.tdiv_eq_ediv (by omega) (by decide)]
        omega
    have e : toInt8 (Int.tdiv ((f - 32) * 5) 9) = Int.tdiv ((f - 32) * 5) 9 := by
      unfold toInt8
      omega
    have hs : setTemperatureF s f =
        setTemperatureC s (toInt8 (Int.tdiv ((f - 32) * 5) 9)) := rfl
    rw [hs, e]
    exact ⟨rfl, rfl⟩
  · unfold setTemperatureF
    have e : toInt8 (Int.tdiv ((77 - 32) * 5) 9) = 25 := by decide
    simp only [e]

/-- Witness for C13 (as amended): 77 degrees Fahrenheit. -/
theorem setTemperatureF_stored_witness :
    (-32768 : Int) ≤ 77 ∧ (77 : Int) ≤ 32767 ∧
      setTemperatureF screen154 77 = setTemperatureC screen154 25 :=
  ⟨by decide, by decide, (setTemperatureF_stored screen154 77 ⟨by decide, by decide⟩).2.2.2⟩

/-- Counterexample for C13 as stated: 300 degrees Fahrenheit is a 16-bit input for which
((f - 32) * 5) / 9 is 148, but `setTemperatureF(300)` stores -108. -/
theorem setTemperatureF_300_wraps :
    (-32768 : Int) ≤ 300 ∧ (300 : Int) ≤ 32767 ∧
      Int.tdiv ((300 - 32) * 5) 9 = 148 ∧
      (setTemperatureF screen154 300)._temperature = -108 ∧
      (setTemperatureF screen154 300)._temperature ≠ Int.tdiv ((300 - 32) * 5) 9 := by
  refine ⟨by decide, by decide, by decide, by decide, by decide⟩

/-! ## Reads outside the screen, cleared screens, inverted screens -/

/-- C11 (as amended): when the orientation bounds check fails, `readPixel(x, y)` returns
the value 0, whatever the buffer contains. -/
theorem readPixel_out_of_bounds (c : Colours) (s : Screen) (x y : Nat)
    (h : (_orientCoordinates s x y).1 = true) :
    readPixel c s x y = 0 := by
  unfold readPixel _getPoint
  simp [h]

/-- Witness for C11 (as amended): the logical pixel (152, 0) of the 152 x 152 panel. -/
theorem readPixel_out_of_bounds_witness :
    (_orientCoordinates screen154 152 0).1 = true ∧
      readPixel colours565 screen154 152 0 = 0 :=
  ⟨by decide, readPixel_out_of_bounds colours565 screen154 152 0 (by decide)⟩

/-- Counterexample for C11 as stated: on the 152 x 152 panel the logical pixel (152, 0)
fails the bounds check and `readPixel` returns 0 there, which is not the colour white of
the colour table (0xFFFF); in this table 0 is black. -/
theorem readPixel_out_of_bounds_not_white :
    (_orientCoordinates screen154 152 0).1 = true ∧
      readPixel colours565 screen154 152 0 ≠ colours565.white ∧
      readPixel colours565 screen154 152 0 = colours565.black := by
  refine ⟨by decide, by decide, by decide⟩

theorem orientCoordinates_range (s : Screen) (x y : Nat)
    (h : (_orientCoordinates s x y).1 = false) :
    (_orientCoordinates s x y).2.1 < s._screenSizeV ∧
      (_orientCoordinates s x y).2.2 < s._screenSizeH := by
  revert h
  unfold _orientCoordinates
  split_ifs <;> simp <;> omega

theorem getZ_lt_pageColourSize (s : Screen) (h : Configured s) (x y : Nat)
    (hx : x < s._screenSizeV) (hy : y < s._screenSizeH) :
    _getZ s x y < s._pageColourSize := by
  obtain ⟨hr, -, -⟩ := configured_row s h
  simp only [profileRows, List.mem_cons, List.mem_singleton, List.not_mem_nil, or_false,
    Prod.mk.injEq] at hr
  have b1 : x < 2 ^ 16 ∧ y < 2 ^ 16 := by
    rcases hr with ⟨-, c2, c3, -⟩ | ⟨-, c2, c3, -⟩ | ⟨-, c2, c3, -⟩ | ⟨-, c2, c3, -⟩ |
      ⟨-, c2, c3, -⟩ | ⟨-, c2, c3, -⟩ | ⟨-, c2, c3, -⟩ | ⟨-, c2, c3, -⟩ | ⟨-, c2, c3, -⟩ |
      ⟨-, c2, c3, -⟩ | ⟨-, c2, c3, -⟩ | ⟨-, c2, c3, -⟩ | ⟨-, c2, c3, -⟩ <;>
      · rw [c2] at hx
        rw [c3] at hy
        omega
  rw [getZ_nowrap s h x y b1.1 b1.2]
  rcases hr with ⟨c1, c2, c3, c4, c5, -⟩ | ⟨c1, c2, c3, c4, c5, -⟩ | ⟨c1, c2, c3, c4, c5, -⟩ |
    ⟨c1, c2, c3, c4, c5, -⟩ | ⟨c1, c2, c3, c4, c5, -⟩ | ⟨c1, c2, c3, c4, c5, -⟩ |
    ⟨c1, c2, c3, c4, c5, -⟩ | ⟨c1, c2, c3, c4, c5, -⟩ | ⟨c1, c2, c3, c4, c5, -⟩ |
    ⟨c1, c2, c3, c4, c5, -⟩ | ⟨c1, c2, c3, c4, c5, -⟩ | ⟨c1, c2, c3, c4, c5, -⟩ |
    ⟨c1, c2, c3, c4, c5, -⟩ <;>
    · rw [c2] at hx
      rw [c3] at hy
      simp only [c1, c3, c4, c5]
      norm_num
      try split_ifs
      all_goals omega

theorem memset_inside (img : Nat → Nat) (off v n k : Nat) (h1 : off ≤ k) (h2 : k < off + n) :
    memset img off v n k = v % 256 := by
  simp [memset, h1, h2]

theorem memset_outside (img : Nat → Nat) (off v n k : Nat) (h : k < off ∨ off + n ≤ k) :
    memset img off v n k = img k := by
  unfold memset
  rw [if_neg]
  omega

theorem clear_white_image (c : Colours) (hc : c.Distinct) (s : Screen) :
    (clear c s c.white)._newImage =
      if s._invert = true then
        memset (memset s._newImage 0 0xff s._pageColourSize) s._pageColourSize 0x00
          s._pageColourSize
      else
        memset (memset s._newImage 0 0x00 s._pageColourSize) s._pageColourSize 0x00
          s._pageColourSize := by
  obtain ⟨h1, h2, h3, h4, h5, h6, h7, h8, h9, h10, h11, h12, h13, h14, h15⟩ :=
    distinct_ne c hc
  unfold clear
  rw [if_neg h7, if_neg h6, if_neg h9, if_neg h8]
  cases hi : s._invert <;> simp

/-- C16: with invert off, on every documented panel and whatever the buffer held before,
after `clear(white)` every byte of both planes is zero and `readPixel(x, y)` returns white
for every in-bounds (x, y) in every orientation. -/
theorem clear_white_zero (c : Colours) (hc : c.Distinct) (s : Screen)
    (h : Configured s) (hi : s._invert = false) :
    (∀ k, k < s._pageColourSize * 2 → (clear c s c.white)._newImage k = 0) ∧
    (∀ x y, (_orientCoordinates s x y).1 = false →
      readPixel c (clear c s c.white) x y = c.white) := by
  have himg := clear_white_image c hc s
  rw [hi] at himg
  simp only [Bool.false_eq_true, if_false] at himg
  have hz : ∀ k, k < s._pageColourSize * 2 → (clear c s c.white)._newImage k = 0 := by
    intro k hk
    rw [himg]
    by_cases h1 : k < s._pageColourSize
    · rw [memset_outside _ _ _ _ _ (Or.inl h1), memset_inside _ _ _ _ _ (Nat.zero_le _)
        (by omega)]
    · rw [memset_inside _ _ _ _ _ (by omega) (by omega)]
  refine ⟨hz, ?_⟩
  intro x y hin0
  obtain ⟨hg, ho, -⟩ := clear_fields c s c.white
  have hin : (_orientCoordinates (clear c s c.white) x y).1 = false := by
    rw [orientCoordinates_congr s _ x y ho hg]
    exact hin0
  have hcf : Configured (clear c s c.white) := by
    refine configured_congr s _ ⟨?_, hg, ho, (clear_fields c s c.white).2.2.1⟩ h
    unfold clear
    split_ifs <;> rfl
  have hp : (clear c s c.white)._pageColourSize = s._pageColourSize := by
    have hg2 := hg
    simp only [geometry, List.cons.injEq, and_true] at hg2
    exact hg2.2.2.2.2.2.2.1
  obtain ⟨rx, ry⟩ := orientCoordinates_range _ x y hin
  have hlt := getZ_lt_pageColourSize _ hcf _ _ rx ry
  unfold readPixel
  rw [getPoint_inbounds c _ x y hin]
  have hb : planeBits (clear c s c.white)
      (_getZ (clear c s c.white) (_orientCoordinates (clear c s c.white) x y).2.1
        (_orientCoordinates (clear c s c.white) x y).2.2)
      (_orientCoordinates (clear c s c.white) x y).2.2 = (0, 0) := by
    unfold planeBits
    rw [hz _ (by omega), hz _ (by omega)]
    simp [bitRead]
  rw [hb]
  simp only [Prod.mk.injEq]
  norm_num

/-- Witness for C16: the 152 x 152 panel as left by `begin`; byte 5775 is the last byte of
plane 1. -/
theorem clear_white_zero_witness :
    colours565.Distinct ∧ Configured screen154 ∧ screen154._invert = false ∧
      (clear colours565 screen154 colours565.white)._newImage 5775 = 0 :=
  ⟨by decide, by decide, by decide,
    (clear_white_zero colours565 (by decide) screen154 (by decide) (by decide)).1 5775
      (by decide)⟩

/-- C17, the driver evaluated at the failing input: on the 152 x 152 panel (size code
0x15) after `invert(true)`, `point(0, 0, white)` followed by `readPixel(0, 0)` returns
black, and `point(0, 0, black)` followed by `readPixel(0, 0)` returns white; only red is
read back as written. -/
theorem readPixel_point_inverted :
    Configured (invert screen154 true) ∧ (invert screen154 true)._invert = true ∧
      (_orientCoordinates (invert screen154 true) 0 0).1 = false ∧
      readPixel colours565
        (point colours565 (invert screen154 true) 0 0 colours565.white) 0 0 =
          colours565.black ∧
      readPixel colours565
        (point colours565 (invert screen154 true) 0 0 colours565.black) 0 0 =
          colours565.white ∧
      readPixel colours565
        (point colours565 (invert screen154 true) 0 0 colours565.red) 0 0 =
          colours565.red := by
  refine ⟨by decide, by decide, by decide, by decide, by decide, by decide⟩

/-- C18, the driver evaluated at the failing input: on the 152 x 152 panel (size code
0x15) `point(0, 0, grey)` leaves the plane bits (1, 0) at the pixel when the invert flag
is off and (0, 0) when it is on. -/
theorem point_grey_depends_on_invert :
    _orientCoordinates screen154 0 0 = (false, 0, 0) ∧
      _orientCoordinates (invert screen154 true) 0 0 = (false, 0, 0) ∧
      planeBits (point colours565 screen154 0 0 colours565.grey)
        (_getZ screen154 0 0) 0 = (1, 0) ∧
      planeBits (point colours565 (invert screen154 true) 0 0 colours565.grey)
        (_getZ screen154 0 0) 0 = (0, 0) := by
  refine ⟨by decide, by decide, by decide, by decide⟩

/-- C19 (as amended): every colour value v that is not one of the six named colours is
treated as black by `clear`, under either invert setting: `clear(v)` leaves the same
buffer as `clear(black)`; and with the invert flag on `point(x, y, v)` leaves the same
buffer as `point(x, y, black)`, for every state and every (x, y). -/
theorem unnamed_colour_as_black (c : Colours) (hc : c.Distinct) (s : Screen) (v : Nat)
    (hv : c.Unnamed v) :
    clear c s v = clear c s c.black ∧
    (s._invert = true → ∀ x y, point c s x y v = point c s x y c.black) := by
  obtain ⟨h1, h2, h3, h4, h5, h6, h7, h8, h9, h10, h11, h12, h13, h14, h15⟩ :=
    distinct_ne c hc
  obtain ⟨v1, v2, v3, v4, v5, v6⟩ := hv
  constructor
  · unfold clear
    rw [if_neg v3, if_neg v4, if_neg v5, if_neg v6, if_neg h3, if_neg h2, if_neg h5,
      if_neg h4]
    simp [v1, h1]
  · intro hi x y
    unfold point _setPoint
    by_cases ho : (_orientCoordinates s x y).1 = true
    · simp [ho]
    · simp only [ho, if_false]
      have d1 : ∀ a b, ditherColour c s a b v = v := by
        intro a b
        unfold ditherColour
        simp [v5, v6, v4]
      have d2 : ∀ a b, ditherColour c s a b c.black = c.black := by
        intro a b
        unfold ditherColour
        simp [h5, h4, h2]
      rw [d1, d2]
      unfold writeBasic
      rw [if_neg v3, if_neg h3]
      simp [v1, h1, hi]

/-- Witness for C19 (as amended): the value 0x1234 on the 152 x 152 panel. -/
theorem unnamed_colour_as_black_witness :
    colours565.Distinct ∧ colours565.Unnamed 0x1234 ∧
      clear colours565 screen154 0x1234 = clear colours565 screen154 colours565.black :=
  ⟨by decide, by unfold Colours.Unnamed; decide,
    (unnamed_colour_as_black colours565 (by decide) screen154 0x1234
      (by unfold Colours.Unnamed; decide)).1⟩

/-- Counterexample for C19 as stated: 0x1234 is none of the six named colours, and on the
152 x 152 panel (invert off) `clear(0x1234)` fills plane 0 with 0xff where `clear(white)`
fills it with 0x00; `point(0, 0, 0x1234)` leaves the pixel's plane bits as they were,
(1, 0) after a black write, where `point(0, 0, white)` makes them (0, 0). -/
theorem unnamed_colour_not_white :
    colours565.Unnamed 0x1234 ∧
      (clear colours565 screen154 0x1234)._newImage 0 = 0xff ∧
      (clear colours565 screen154 colours565.white)._newImage 0 = 0x00 ∧
      clear colours565 screen154 0x1234 ≠ clear colours565 screen154 colours565.white ∧
      planeBits (point colours565 (point colours565 screen154 0 0 colours565.black)
        0 0 0x1234) 0 0 = (1, 0) ∧
      planeBits (point colours565 (point colours565 screen154 0 0 colours565.black)
        0 0 colours565.white) 0 0 = (0, 0) := by
  have e1 : (clear colours565 screen154 0x1234)._newImage 0 = 0xff := by decide
  have e2 : (clear colours565 screen154 colours565.white)._newImage 0 = 0x00 := by decide
  refine ⟨by unfold Colours.Unnamed; decide, e1, e2, ?_, by decide, by decide⟩
  intro heq
  rw [heq, e2] at e1
  exact absurd e1 (by decide)

/-- C20: for a device identifier whose size code is 0x21 (native 212 x 104, single
controller), `begin` computes bufferStride = 13, pageColourSize = 2756, frameSize = 2756
and allocates a frame buffer of 5512 bytes (pageColourSize * 2). -/
theorem begin_profile_213 (c : Colours) (s : Screen)
    (h : (s._eScreen_EPD_EXT3 >>> 8) &&& 0xff = 0x21) :
    (begin c s)._screenSizeV = 212 ∧ (begin c s)._screenSizeH = 104 ∧
    (begin c s)._bufferSizeH = 13 ∧ (begin c s)._pageColourSize = 2756 ∧
    (begin c s)._frameSize = 2756 ∧ allocatedBytes (begin c s) = 5512 ∧
    allocatedBytes (begin c s) = (begin c s)._pageColourSize * 2 := by
  have hg := begin_geometry c s
  simp only [geometry, List.cons.injEq, and_true] at hg
  obtain ⟨g1, g2, g3, g4, -, g6, g7, g8⟩ := hg
  obtain ⟨f1, f2, f3, f4, -, f6, f7, f8⟩ := beginGeometry_fields s
  have hk : (beginCodes s)._codeSize = 0x21 := h
  obtain ⟨hv, hh⟩ := (sizeTable_dims (beginCodes s) 0x21 hk).2.1 rfl
  unfold allocatedBytes
  rw [g2, g3, g4, g6, g7, g8, f2, f3, f4, f6, f8, f7, hv, hh, h]
  norm_num

/-- Witness for C20: the device identifier 0x002100. -/
theorem begin_profile_213_witness :
    (construct 0x002100)._eScreen_EPD_EXT3 >>> 8 &&& 0xff = 0x21 ∧
      allocatedBytes (begin colours565 (construct 0x002100)) = 5512 :=
  ⟨by decide, (begin_profile_213 colours565 (construct 0x002100) (by decide)).2.2.2.2.2.1⟩

/-! ## Refresh gate -/

theorem checkTemperatureMode_arg (k : Constants) (s : Screen) (m n : Nat) :
    checkTemperatureMode k s m = checkTemperatureMode k s n := rfl

theorem waitBusy_mono (_pin : Pins) (busy : Nat → Bool) (fuel : Nat) :
    ∀ (w w' : Bus) (fuel' : Nat), fuel ≤ fuel' →
      waitBusy _pin busy fuel w = some w' → waitBusy _pin busy fuel' w = some w' := by
  induction fuel with
  | zero => intro w w' fuel' _ h; simp [waitBusy] at h
  | succ n ih =>
    intro w w' fuel' hle h
    obtain ⟨m, rfl⟩ : ∃ m, fuel' = m + 1 := ⟨fuel' - 1, by omega⟩
    unfold waitBusy at h ⊢
    simp only [] at h ⊢
    split_ifs at h ⊢ with hl
    · exact ih _ _ m (by omega) h
    · exact h

theorem spinBusy_mono (_pin : Pins) (busy : Nat → Bool) (fuel : Nat) :
    ∀ (w w' : Bus) (fuel' : Nat), fuel ≤ fuel' →
      spinBusy _pin busy fuel w = some w' → spinBusy _pin busy fuel' w = some w' := by
  induction fuel with
  | zero => intro w w' fuel' _ h; simp [spinBusy] at h
  | succ n ih =>
    intro w w' fuel' hle h
    obtain ⟨m, rfl⟩ : ∃ m, fuel' = m + 1 := ⟨fuel' - 1, by omega⟩
    unfold spinBusy at h ⊢
    simp only [] at h ⊢
    split_ifs at h ⊢ with hl
    · exact ih _ _ m (by omega) h
    · exact h

theorem waitBusy_high (_pin : Pins) (busy : Nat → Bool) (w : Bus) (fuel : Nat)
    (h : busy w.reads = HIGH) :
    waitBusy _pin busy (fuel + 1) w =
      some { calls := w.calls ++ [.op (.digitalRead _pin.panelBusy HIGH)],
             reads := w.reads + 1 } := by
  unfold waitBusy
  simp [h]

theorem spinBusy_high (_pin : Pins) (busy : Nat → Bool) (w : Bus) (fuel : Nat)
    (h : busy w.reads = HIGH) :
    spinBusy _pin busy (fuel + 1) w =
      some { calls := w.calls ++ [.op (.digitalRead _pin.panelBusy HIGH)],
             reads := w.reads + 1 } := by
  unfold spinBusy
  simp [h]

theorem waitBusy_some (_pin : Pins) (busy : Nat → Bool) (hb : EventuallyHigh busy) (w : Bus) :
    ∃ fuel w', waitBusy _pin busy fuel w = some w' := by
  obtain ⟨j, hj, hh⟩ := hb w.reads
  obtain ⟨d, hd⟩ : ∃ d, j = w.reads + d := ⟨j - w.reads, by omega⟩
  clear hj
  induction d generalizing w with
  | zero =>
    simp only [Nat.add_zero] at hd
    rw [hd] at hh
    exact ⟨1, _, waitBusy_high _pin busy w 0 hh⟩
  | succ n ih =>
    by_cases hl : busy w.reads = HIGH
    · exact ⟨1, _, waitBusy_high _pin busy w 0 hl⟩
    · obtain ⟨f, w', hw⟩ := ih
        (Bus.emit { calls := w.calls ++ [.op (.digitalRead _pin.panelBusy (busy w.reads))],
                    reads := w.reads + 1 } [.op (.delay 100)])
        (by simp only [Bus.emit]; omega)
      refine ⟨f + 1, w', ?_⟩
      unfold waitBusy
      simp only []
      rw [if_pos hl]
      exact hw

theorem spinBusy_some (_pin : Pins) (busy : Nat → Bool) (hb : EventuallyHigh busy) (w : Bus) :
    ∃ fuel w', spinBusy _pin busy fuel w = some w' := by
  obtain ⟨j, hj, hh⟩ := hb w.reads
  obtain ⟨d, hd⟩ : ∃ d, j = w.reads + d := ⟨j - w.reads, by omega⟩
  clear hj
  induction d generalizing w with
  | zero =>
    simp only [Nat.add_zero] at hd
    rw [hd] at hh
    exact ⟨1, _, spinBusy_high _pin busy w 0 hh⟩
  | succ n ih =>
    by_cases hl : busy w.reads = HIGH
    · exact ⟨1, _, spinBusy_high _pin busy w 0 hl⟩
    · obtain ⟨f, w', hw⟩ := ih
        { calls := w.calls ++ [.op (.digitalRead _pin.panelBusy (busy w.reads))],
          reads := w.reads + 1 }
        (by simp only []; omega)
      refine ⟨f + 1, w', ?_⟩
      unfold spinBusy
      simp only []
      rw [if_pos hl]
      exact hw


theorem completes_waitBusy (_pin : Pins) (busy : Nat → Bool) (hb : EventuallyHigh busy) :
    Completes (waitBusy _pin busy) := by
  intro w
  obtain ⟨f, w', h⟩ := waitBusy_some _pin busy hb w
  exact ⟨f, w', fun fuel hle => waitBusy_mono _pin busy f w w' fuel hle h⟩

theorem completes_spinBusy (_pin : Pins) (busy : Nat → Bool) (hb : EventuallyHigh busy) :
    Completes (spinBusy _pin busy) := by
  intro w
  obtain ⟨f, w', h⟩ := spinBusy_some _pin busy hb w
  exact ⟨f, w', fun fuel hle => spinBusy_mono _pin busy f w w' fuel hle h⟩

theorem completes_bind (f g : Nat → Bus → Option Bus) (hf : Completes f)
    (hg : Completes g) : Completes (fun fuel w => (f fuel w).bind (g fuel)) := by
  intro w
  obtain ⟨f1, w1, h1⟩ := hf w
  obtain ⟨f2, w2, h2⟩ := hg w1
  refine ⟨max f1 f2, w2, fun fuel hle => ?_⟩
  simp only []
  rw [h1 fuel (le_trans (le_max_left _ _) hle), Option.some_bind]
  exact h2 fuel (le_trans (le_max_right _ _) hle)

theorem completes_after (g : Nat → Bus → Option Bus) (hg : Completes g) (h : Bus → Bus) :
    Completes (fun fuel w => g fuel (h w)) := by
  intro w
  obtain ⟨f, w', hw⟩ := hg (h w)
  exact ⟨f, w', hw⟩

theorem completes_pure (h : Bus → Bus) : Completes (fun _ w => some (h w)) := by
  intro w
  exact ⟨0, h w, fun _ _ => rfl⟩

theorem completes_map (f : Nat → Bus → Option Bus) (hf : Completes f) (h : Bus → Bus) :
    Completes (fun fuel w => (f fuel w).map h) := by
  intro w
  obtain ⟨f1, w1, h1⟩ := hf w
  refine ⟨f1, h w1, fun fuel hle => ?_⟩
  simp only []
  rw [h1 fuel hle]
  rfl

theorem completes_flushGlobal (k : Constants) (_pin : Pins) (busy : Nat → Bool)
    (hb : EventuallyHigh busy) (s : Screen) :
    Completes (fun fuel w => _flushGlobal k _pin busy fuel s w) := by
  have hw := completes_waitBusy _pin busy hb
  have hs := completes_spinBusy _pin busy hb
  have hmed : Completes (fun fuel w => flushMedium _pin busy fuel s w) := by
    unfold flushMedium flushMediumRefresh
    exact completes_after _
      (completes_bind _ _ hw (completes_bind _ _ (completes_after _ hw _)
        (completes_bind _ _ (completes_after _ hw _) (completes_pure _)))) _
  have hlar : Completes (fun fuel w => flushLarge k _pin busy fuel s w) := by
    unfold flushLarge flushLargeRefresh
    exact completes_after _
      (completes_bind _ _ hw (completes_bind _ _ (completes_after _ hw _)
        (completes_bind _ _ (completes_after _ hw _) (completes_pure _)))) _
  have hsma : Completes (fun fuel w => flushSmall _pin busy fuel s w) := by
    unfold flushSmall flushSmallRefresh
    exact completes_after _
      (completes_bind _ _ hw (completes_bind _ _ hs (completes_bind _ _
        (completes_after _ hw _)
        (completes_bind _ _ (completes_after _ hw _) (completes_pure _))))) _
  unfold _flushGlobal
  by_cases h1 : s._codeSize = 0x56 ∨ s._codeSize = 0x58 ∨ s._codeSize = 0x74
  · simp only [h1, if_true]
    exact completes_map _ hmed _
  · by_cases h2 : s._codeSize = 0x96 ∨ s._codeSize = 0xB9
    · simp only [h1, h2, if_true, if_false]
      exact completes_map _ hlar _
    · simp only [h1, h2, if_false]
      exact completes_map _ hsma _

/-- C14: whenever the temperature policy yields None for the current state, `flushMode(m)`
(and hence `flush()`) returns `UPDATE_NONE` for every requested mode m and leaves the
driver object, frame buffer included, unchanged; the only call it makes is the diagnostic
line on `Serial`: no SPI transfer, no pin write, no reset. Whenever the policy yields
Global, `flushMode(m)` runs the refresh sequence `_flushGlobal` and returns
`UPDATE_GLOBAL` (it returns as soon as the busy line reads HIGH at each wait). -/
theorem flushMode_gate (k : Constants) (hk : k.Valid) (_pin : Pins) (busy : Nat → Bool)
    (s : Screen) (m : Nat) (w : Bus) :
    (checkTemperatureMode k s m = k.UPDATE_NONE →
      (∀ fuel, flushMode k _pin busy fuel s m w =
        some (k.UPDATE_NONE, s, w.emit [.op .println])) ∧
      (∀ fuel, flush k _pin busy fuel s w = some (s, w.emit [.op .println])) ∧
      busOps k _pin s [.op .println] = [.println]) ∧
    (checkTemperatureMode k s m = k.UPDATE_GLOBAL →
      (∀ fuel, flushMode k _pin busy fuel s m w =
        (_flushGlobal k _pin busy fuel s w).map fun w' => (k.UPDATE_GLOBAL, s, w')) ∧
      (EventuallyHigh busy →
        ∃ fuel w', _flushGlobal k _pin busy fuel s w = some w' ∧
          flushMode k _pin busy fuel s m w = some (k.UPDATE_GLOBAL, s, w') ∧
          flush k _pin busy fuel s w = some (s, w'))) := by
  obtain ⟨k1, k2, k3⟩ := hk
  have hfm : ∀ fuel n, checkTemperatureMode k s n = k.UPDATE_NONE →
      flushMode k _pin busy fuel s n w = some (k.UPDATE_NONE, s, w.emit [.op .println]) := by
    intro fuel n hn
    unfold flushMode
    simp only [hn]
    rw [if_neg]
    rintro (h | h | h)
    · exact k1 h
    · exact k2 h
    · exact k3 h
  have hfg : ∀ fuel n, checkTemperatureMode k s n = k.UPDATE_GLOBAL →
      flushMode k _pin busy fuel s n w =
        (_flushGlobal k _pin busy fuel s w).map fun w' => (k.UPDATE_GLOBAL, s, w') := by
    intro fuel n hn
    unfold flushMode
    simp only [hn]
    rw [if_pos (Or.inr (Or.inr trivial))]
  constructor
  · intro hn
    refine ⟨fun fuel => hfm fuel m hn, fun fuel => ?_, rfl⟩
    unfold flush
    rw [hfm fuel k.UPDATE_GLOBAL ((checkTemperatureMode_arg k s _ _).trans hn)]
    rfl
  · intro hg
    refine ⟨fun fuel => hfg fuel m hg, fun hb => ?_⟩
    obtain ⟨f0, w', hw⟩ := completes_flushGlobal k _pin busy hb s w
    have hw0 : _flushGlobal k _pin busy f0 s w = some w' := hw f0 (le_refl _)
    refine ⟨f0, w', hw0, ?_, ?_⟩
    · rw [hfg f0 m hg, hw0]
      rfl
    · unfold flush
      rw [hfg f0 k.UPDATE_GLOBAL ((checkTemperatureMode_arg k s _ _).trans hg), hw0]
      rfl

/-- Witness for C14: the 152 x 152 panel at -5 degrees Celsius (class CS): the refresh is
suppressed. -/
theorem flushMode_gate_witness :
    constants0.Valid ∧
      flushMode constants0 ⟨1, 2, 3, 4, 5⟩ (fun _ => true) 0
        (setTemperatureC screen154 (-5)) constants0.UPDATE_GLOBAL ⟨[], 0⟩ =
        some (constants0.UPDATE_NONE, setTemperatureC screen154 (-5),
          Bus.emit ⟨[], 0⟩ [.op .println]) :=
  ⟨by decide,
    ((flushMode_gate constants0 (by decide) ⟨1, 2, 3, 4, 5⟩ (fun _ => true)
      (setTemperatureC screen154 (-5)) constants0.UPDATE_GLOBAL ⟨[], 0⟩).1 (by decide)).1 0⟩

/-! ## Calls of the refresh sequence -/

theorem emit_calls (w : Bus) (cs : List Call) : (w.emit cs).calls = w.calls ++ cs := rfl

theorem waitBusy_calls (_pin : Pins) (busy : Nat → Bool) (fuel : Nat) :
    ∀ (w w' : Bus), waitBusy _pin busy fuel w = some w' →
      ∃ p, w'.calls = w.calls ++ p ∧ ∀ c ∈ p, Call.isPoll c = true := by
  induction fuel with
  | zero => intro w w' h; simp [waitBusy] at h
  | succ n ih =>
    intro w w' h
    unfold waitBusy at h
    simp only [] at h
    split_ifs at h with hl
    · obtain ⟨p, hp, hq⟩ := ih _ _ h
      refine ⟨[.op (.digitalRead _pin.panelBusy (busy w.reads)), .op (.delay 100)] ++ p,
        ?_, ?_⟩
      · rw [hp, emit_calls]
        simp
      · intro c hc
        rcases List.mem_append.1 hc with hc | hc
        · simp only [List.mem_cons, List.mem_singleton, List.not_mem_nil, or_false] at hc
          rcases hc with rfl | rfl <;> rfl
        · exact hq c hc
    · refine ⟨[.op (.digitalRead _pin.panelBusy (busy w.reads))], ?_, ?_⟩
      · simp only [Option.some.injEq] at h
        rw [← h]
      · intro c hc
        simp only [List.mem_singleton] at hc
        rw [hc]
        rfl

theorem spinBusy_calls (_pin : Pins) (busy : Nat → Bool) (fuel : Nat) :
    ∀ (w w' : Bus), spinBusy _pin busy fuel w = some w' →
      ∃ p, w'.calls = w.calls ++ p ∧ ∀ c ∈ p, Call.isPoll c = true := by
  induction fuel with
  | zero => intro w w' h; simp [spinBusy] at h
  | succ n ih =>
    intro w w' h
    unfold spinBusy at h
    simp only [] at h
    split_ifs at h with hl
    · obtain ⟨p, hp, hq⟩ := ih _ _ h
      refine ⟨[.op (.digitalRead _pin.panelBusy (busy w.reads))] ++ p, ?_, ?_⟩
      · rw [hp]
        simp
      · intro c hc
        rcases List.mem_append.1 hc with hc | hc
        · simp only [List.mem_singleton] at hc
          rw [hc]
          rfl
        · exact hq c hc
    · refine ⟨[.op (.digitalRead _pin.panelBusy (busy w.reads))], ?_, ?_⟩
      · simp only [Option.some.injEq] at h
        rw [← h]
      · intro c hc
        simp only [List.mem_singleton] at hc
        rw [hc]
        rfl

/-- The calls of the medium group after the soft-start, up to the polls of the busy
line. -/
theorem flushMediumRefresh_calls (_pin : Pins) (busy : Nat → Bool) (fuel : Nat)
    (w w' : Bus) (h : flushMediumRefresh _pin busy fuel w = some w') :
    ∃ p1 p2 p3, (∀ c ∈ p1 ++ p2 ++ p3, Call.isPoll c = true) ∧
      w'.calls = w.calls ++ (p1 ++
        [sendArr 0x15 [0x3c] 1, callDelay_ms 5] ++ p2 ++
        [sendArr 0x09 [0x7f] 1, sendArr 0x05 [0x7d] 1, sendArr 0x09 [0x00] 1,
          callDelay_ms 200] ++ p3 ++
        [.op (.digitalWrite _pin.panelDC LOW), .op (.digitalWrite _pin.panelCS LOW),
          .op (.digitalWrite _pin.panelReset LOW)]) := by
  unfold flushMediumRefresh at h
  simp only [Option.bind_eq_some, Option.some.injEq] at h
  obtain ⟨w1, h1, w2, h2, w3, h3, h4⟩ := h
  obtain ⟨p1, e1, q1⟩ := waitBusy_calls _ _ _ _ _ h1
  obtain ⟨p2, e2, q2⟩ := waitBusy_calls _ _ _ _ _ h2
  obtain ⟨p3, e3, q3⟩ := waitBusy_calls _ _ _ _ _ h3
  refine ⟨p1, p2, p3, ?_, ?_⟩
  · intro c hc
    simp only [List.mem_append] at hc
    rcases hc with (hc | hc) | hc
    · exact q1 c hc
    · exact q2 c hc
    · exact q3 c hc
  · rw [← h4, emit_calls, e3, emit_calls, e2, emit_calls, e1]
    simp only [List.append_assoc]

/-- The calls of the large group after the soft-start, up to the polls of the busy
line. -/
theorem flushLargeRefresh_calls (k : Constants) (_pin : Pins) (busy : Nat → Bool)
    (fuel : Nat) (w w' : Bus) (h : flushLargeRefresh k _pin busy fuel w = some w') :
    ∃ p1 p2 p3, (∀ c ∈ p1 ++ p2 ++ p3, Call.isPoll c = true) ∧
      w'.calls = w.calls ++ (p1 ++
        [sendArr 0x15 [0x3c] 1, callDelay_ms 5] ++ p2 ++
        [sendArr 0x09 [0x7f] 1, sendArr 0x05 [0x7d] 1, sendArr 0x09 [0x00] 1,
          callDelay_ms 200] ++ p3 ++
        ([.op (.digitalWrite _pin.panelDC LOW), .op (.digitalWrite _pin.panelCS LOW)] ++
         (if _pin.panelCSS ≠ k.NOT_CONNECTED then [.op (.digitalWrite _pin.panelCSS LOW)]
          else []) ++
         [.op (.digitalWrite _pin.panelReset LOW)] ++
         (if _pin.panelCSS ≠ k.NOT_CONNECTED then [.op (.digitalWrite _pin.panelCSS HIGH)]
          else []))) := by
  unfold flushLargeRefresh at h
  simp only [Option.bind_eq_some, Option.some.injEq] at h
  obtain ⟨w1, h1, w2, h2, w3, h3, h4⟩ := h
  obtain ⟨p1, e1, q1⟩ := waitBusy_calls _ _ _ _ _ h1
  obtain ⟨p2, e2, q2⟩ := waitBusy_calls _ _ _ _ _ h2
  obtain ⟨p3, e3, q3⟩ := waitBusy_calls _ _ _ _ _ h3
  refine ⟨p1, p2, p3, ?_, ?_⟩
  · intro c hc
    simp only [List.mem_append] at hc
    rcases hc with (hc | hc) | hc
    · exact q1 c hc
    · exact q2 c hc
    · exact q3 c hc
  · rw [← h4, emit_calls, e3, emit_calls, e2, emit_calls, e1]
    simp only [List.append_assoc]

/-- The calls of the small group after power on, up to the polls of the busy line. -/
theorem flushSmallRefresh_calls (_pin : Pins) (busy : Nat → Bool) (fuel : Nat)
    (w w' : Bus) (h : flushSmallRefresh _pin busy fuel w = some w') :
    ∃ p1 p2 p3, (∀ c ∈ p1 ++ p2 ++ p3, Call.isPoll c = true) ∧
      w'.calls = w.calls ++ (p1 ++
        [sendArr 0x12 [0x00] 1, callDelay_ms 5] ++ p2 ++
        [sendArr 0x02 [0x00] 1, callDelay_ms 5] ++ p3 ++
        [.op (.digitalWrite _pin.panelDC LOW), .op (.digitalWrite _pin.panelCS LOW),
          .op (.digitalWrite _pin.panelReset LOW)]) := by
  unfold flushSmallRefresh at h
  simp only [Option.bind_eq_some, Option.some.injEq] at h
  obtain ⟨w1, h1, w2, h2, w3, h3, w4, h4, h5⟩ := h
  obtain ⟨p1, e1, q1⟩ := waitBusy_calls _ _ _ _ _ h1
  obtain ⟨p2, e2, q2⟩ := spinBusy_calls _ _ _ _ _ h2
  obtain ⟨p3, e3, q3⟩ := waitBusy_calls _ _ _ _ _ h3
  obtain ⟨p4, e4, q4⟩ := waitBusy_calls _ _ _ _ _ h4
  refine ⟨p1 ++ p2, p3, p4, ?_, ?_⟩
  · intro c hc
    simp only [List.mem_append] at hc
    rcases hc with ((hc | hc) | hc) | hc
    · exact q1 c hc
    · exact q2 c hc
    · exact q3 c hc
    · exact q4 c hc
  · rw [← h5, emit_calls, e4, emit_calls, e3, emit_calls, e2, e1]
    simp only [List.append_assoc]

theorem bytes_add (img : Nat → Nat) (a b : Nat) :
    bytes img (a + b) = bytes img a ++ bytes (ptrAdd img a) b := by
  unfold bytes ptrAdd
  rw [List.range_add, List.map_append, List.map_map]
  rfl

theorem bytes_length (img : Nat → Nat) (n : Nat) : (bytes img n).length = n := by
  simp [bytes]

theorem poll_payloadLength (c : Call) (h : Call.isPoll c = true) :
    Call.payloadLength c = 0 ∧ ∀ idx, Call.isFrameOf idx c = false := by
  cases c with
  | op o => exact ⟨rfl, fun _ => rfl⟩
  | reset _ _ _ _ _ => simp [Call.isPoll] at h
  | sendIndexData _ _ => simp [Call.isPoll] at h
  | sendIndexDataMaster _ _ => simp [Call.isPoll] at h
  | sendIndexDataSlave _ _ => simp [Call.isPoll] at h

theorem filter_polls (idx : List Nat) (p : List Call) (h : ∀ c ∈ p, Call.isPoll c = true) :
    p.filter (Call.isFrameOf idx) = [] := by
  rw [List.filter_eq_nil_iff]
  intro c hc
  rw [(poll_payloadLength c (h c hc)).2 idx]
  exact Bool.false_ne_true

theorem softStart565_frames :
    softStart565.filter (Call.isFrameOf [0x10, 0x11]) = [] ∧
      softStart565.all
        (fun c => Call.isFrameOf [0x10, 0x11] c || decide (Call.payloadLength c ≤ 6)) =
          true := by
  constructor <;> decide

theorem softStart970_frames :
    softStart970.filter (Call.isFrameOf [0x10, 0x11]) = [] ∧
      softStart970.all
        (fun c => Call.isFrameOf [0x10, 0x11] c || decide (Call.payloadLength c ≤ 6)) =
          true := by
  constructor <;> decide


theorem isFrameOf_sendArr (idx : List Nat) (i : Nat) (a : List Nat) (n : Nat) :
    Call.isFrameOf idx (sendArr i a n) = idx.contains i := rfl

theorem isFrameOf_sendArrMaster (idx : List Nat) (i : Nat) (a : List Nat) (n : Nat) :
    Call.isFrameOf idx (sendArrMaster i a n) = idx.contains i := rfl

theorem isFrameOf_sendArrSlave (idx : List Nat) (i : Nat) (a : List Nat) (n : Nat) :
    Call.isFrameOf idx (sendArrSlave i a n) = idx.contains i := rfl

theorem isFrameOf_callDelay (idx : List Nat) (n : Nat) :
    Call.isFrameOf idx (callDelay_ms n) = false := rfl

theorem isFrameOf_reset (idx : List Nat) (a b c d e : Nat) :
    Call.isFrameOf idx (.reset a b c d e) = false := rfl

theorem isFrameOf_op (idx : List Nat) (o : BusOp) :
    Call.isFrameOf idx (.op o) = false := rfl

theorem isFrameOf_send (idx : List Nat) (i : Nat) (p : List Nat) :
    Call.isFrameOf idx (.sendIndexData i p) = idx.contains i := rfl

theorem isFrameOf_sendMaster (idx : List Nat) (i : Nat) (p : List Nat) :
    Call.isFrameOf idx (.sendIndexDataMaster i p) = idx.contains i := rfl

theorem isFrameOf_sendSlave (idx : List Nat) (i : Nat) (p : List Nat) :
    Call.isFrameOf idx (.sendIndexDataSlave i p) = idx.contains i := rfl

theorem payloadLength_sendArr (i : Nat) (a : List Nat) (n : Nat) :
    Call.payloadLength (sendArr i a n) = n := bytes_length _ _

theorem payloadLength_sendArrMaster (i : Nat) (a : List Nat) (n : Nat) :
    Call.payloadLength (sendArrMaster i a n) = n := bytes_length _ _

theorem payloadLength_sendArrSlave (i : Nat) (a : List Nat) (n : Nat) :
    Call.payloadLength (sendArrSlave i a n) = n := bytes_length _ _

theorem payloadLength_callDelay (n : Nat) : Call.payloadLength (callDelay_ms n) = 0 := rfl

theorem payloadLength_reset (a b c d e : Nat) :
    Call.payloadLength (.reset a b c d e) = 0 := rfl

theorem payloadLength_op (o : BusOp) : Call.payloadLength (.op o) = 0 := rfl

theorem flushMedium_frames (s : Screen)
    (hm : s._codeSize = 0x56 ∨ s._codeSize = 0x58 ∨ s._codeSize = 0x74) :
    (flushMediumImage s ++ flushMediumCOG s).filter (Call.isFrameOf [0x10, 0x11]) =
      [.sendIndexData 0x10 (bytes s._newImage s._frameSize),
       .sendIndexData 0x11 (bytes (ptrAdd s._newImage s._pageColourSize) s._frameSize)] ∧
    (flushMediumImage s ++ flushMediumCOG s).all
      (fun c => Call.isFrameOf [0x10, 0x11] c || decide (Call.payloadLength c ≤ 6)) =
        true := by
  rcases hm with h | h | h <;> by_cases ht : s._codeType = 0x0B <;>
    simp only [flushMediumImage, flushMediumCOG, h, ht, reduceIte, List.filter_append,
      List.filter_cons, List.filter_nil, List.all_append, List.all_cons, List.all_nil,
      isFrameOf_sendArr, isFrameOf_callDelay, isFrameOf_reset, isFrameOf_send,
      payloadLength_sendArr, payloadLength_callDelay, payloadLength_reset,
      Nat.reduceEqDiff, Nat.reduceLeDiff, List.nil_append, List.append_nil,
      List.contains_cons, List.contains_nil, Nat.reduceBEq, Bool.or_false, Bool.or_true,
      Bool.false_or, Bool.true_or, Bool.false_eq_true, List.cons_append, List.elem_cons,
      List.elem_nil, List.contains, beq_self_eq_true, decide_True, Bool.and_true,
      Bool.and_self, and_self]

theorem flushLarge_frames (s : Screen) (hl : s._codeSize = 0x96 ∨ s._codeSize = 0xB9) :
    (flushLargeImage s ++ flushLargeCOG s).filter (Call.isFrameOf [0x10, 0x11]) =
      [.sendIndexDataMaster 0x10 (bytes s._newImage s._frameSize),
       .sendIndexDataMaster 0x11
          (bytes (ptrAdd s._newImage s._pageColourSize) s._frameSize),
       .sendIndexDataSlave 0x10 (bytes (ptrAdd s._newImage s._frameSize) s._frameSize),
       .sendIndexDataSlave 0x11
          (bytes (ptrAdd (ptrAdd s._newImage s._pageColourSize) s._frameSize)
            s._frameSize)] ∧
    (flushLargeImage s ++ flushLargeCOG s).all
      (fun c => Call.isFrameOf [0x10, 0x11] c || decide (Call.payloadLength c ≤ 6)) =
        true := by
  rcases hl with h | h <;> by_cases ht : s._codeType = 0x0B <;>
    simp only [flushLargeImage, flushLargeCOG, h, ht, reduceIte, List.filter_append,
      List.filter_cons, List.filter_nil, List.all_append, List.all_cons, List.all_nil,
      isFrameOf_sendArr, isFrameOf_sendArrMaster, isFrameOf_sendArrSlave,
      isFrameOf_callDelay, isFrameOf_reset, isFrameOf_sendMaster, isFrameOf_sendSlave,
      payloadLength_sendArr, payloadLength_sendArrMaster, payloadLength_sendArrSlave,
      payloadLength_callDelay, payloadLength_reset,
      Nat.reduceEqDiff, Nat.reduceLeDiff, List.nil_append, List.append_nil,
      List.contains_cons, List.contains_nil, Nat.reduceBEq, Bool.or_false, Bool.or_true,
      Bool.false_or, Bool.true_or, Bool.false_eq_true, List.cons_append, List.elem_cons,
      List.elem_nil, List.contains, beq_self_eq_true, decide_True, Bool.and_true,
      Bool.and_self, and_self]

theorem flushSmall_frames (s : Screen) :
    (flushSmallImage s).filter (Call.isFrameOf [0x10, 0x13]) =
      [.sendIndexData 0x10 (bytes s._newImage s._frameSize),
       .sendIndexData 0x13 (bytes (ptrAdd s._newImage s._pageColourSize) s._frameSize)] ∧
    (flushSmallImage s).all
      (fun c => Call.isFrameOf [0x10, 0x13] c || decide (Call.payloadLength c ≤ 6)) =
        true := by
  simp only [flushSmallImage, reduceIte, List.filter_append,
      List.filter_cons, List.filter_nil, List.all_append, List.all_cons, List.all_nil,
      isFrameOf_sendArr, isFrameOf_callDelay, isFrameOf_reset, isFrameOf_send,
      payloadLength_sendArr, payloadLength_callDelay, payloadLength_reset,
      Nat.reduceEqDiff, Nat.reduceLeDiff, List.nil_append, List.append_nil,
      List.contains_cons, List.contains_nil, Nat.reduceBEq, Bool.or_false, Bool.or_true,
      Bool.false_or, Bool.true_or, Bool.false_eq_true, List.cons_append, List.elem_cons,
      List.elem_nil, List.contains, beq_self_eq_true, decide_True, Bool.and_true,
      Bool.and_self, and_self]

theorem all_polls (idx : List Nat) (p : List Call) (h : ∀ c ∈ p, Call.isPoll c = true) :
    p.all (fun c => Call.isFrameOf idx c || decide (Call.payloadLength c ≤ 6)) = true := by
  rw [List.all_eq_true]
  intro c hc
  rw [(poll_payloadLength c (h c hc)).1]
  simp

theorem configured_frameSize (s : Screen) (h : Configured s) :
    (s._codeSize = 0x96 ∨ s._codeSize = 0xB9 → s._frameSize + s._frameSize = s._pageColourSize) ∧
    (¬ (s._codeSize = 0x96 ∨ s._codeSize = 0xB9) → s._frameSize = s._pageColourSize) := by
  obtain ⟨hr, -, -⟩ := configured_row s h
  simp only [profileRows, List.mem_cons, List.mem_singleton, List.not_mem_nil, or_false,
    Prod.mk.injEq] at hr
  rcases hr with ⟨c1, -, -, -, c5, c6⟩ | ⟨c1, -, -, -, c5, c6⟩ | ⟨c1, -, -, -, c5, c6⟩ |
    ⟨c1, -, -, -, c5, c6⟩ | ⟨c1, -, -, -, c5, c6⟩ | ⟨c1, -, -, -, c5, c6⟩ |
    ⟨c1, -, -, -, c5, c6⟩ | ⟨c1, -, -, -, c5, c6⟩ | ⟨c1, -, -, -, c5, c6⟩ |
    ⟨c1, -, -, -, c5, c6⟩ | ⟨c1, -, -, -, c5, c6⟩ | ⟨c1, -, -, -, c5, c6⟩ |
    ⟨c1, -, -, -, c5, c6⟩ <;>
    · rw [c1, c5, c6]
      constructor <;> intro hh <;> first | rfl | (exfalso; revert hh; decide)

/-- The calls of a refresh of the medium group, up to the polls of the busy line. -/
theorem flushGlobal_calls_medium (k : Constants) (_pin : Pins) (busy : Nat → Bool)
    (fuel : Nat) (s : Screen) (w w' : Bus)
    (hm : s._codeSize = 0x56 ∨ s._codeSize = 0x58 ∨ s._codeSize = 0x74)
    (hr : _flushGlobal k _pin busy fuel s w = some w') :
    ∃ p1 p2 p3, (∀ c ∈ p1 ++ p2 ++ p3, Call.isPoll c = true) ∧
      w'.calls = w.calls ++ ((flushMediumImage s ++ flushMediumCOG s) ++ softStart565 ++ p1 ++
        [sendArr 0x15 [0x3c] 1, callDelay_ms 5] ++ p2 ++
        [sendArr 0x09 [0x7f] 1, sendArr 0x05 [0x7d] 1, sendArr 0x09 [0x00] 1,
          callDelay_ms 200] ++ p3 ++
        [.op (.digitalWrite _pin.panelDC LOW), .op (.digitalWrite _pin.panelCS LOW),
          .op (.digitalWrite _pin.panelReset LOW)] ++
        [.op (.digitalWrite _pin.panelCS HIGH)]) := by
  unfold _flushGlobal at hr
  rw [if_pos hm] at hr
  simp only [Option.map_eq_some'] at hr
  obtain ⟨w1, h1, h2⟩ := hr
  unfold flushMedium at h1
  obtain ⟨p1, p2, p3, hp, hc⟩ := flushMediumRefresh_calls _ _ _ _ _ h1
  refine ⟨p1, p2, p3, hp, ?_⟩
  rw [← h2, emit_calls, hc, emit_calls]
  simp only [List.append_assoc]

/-- The calls of a refresh of the large group, up to the polls of the busy line. -/
theorem flushGlobal_calls_large (k : Constants) (_pin : Pins) (busy : Nat → Bool)
    (fuel : Nat) (s : Screen) (w w' : Bus)
    (hl : s._codeSize = 0x96 ∨ s._codeSize = 0xB9)
    (hr : _flushGlobal k _pin busy fuel s w = some w') :
    ∃ p1 p2 p3, (∀ c ∈ p1 ++ p2 ++ p3, Call.isPoll c = true) ∧
      w'.calls = w.calls ++ ((flushLargeImage s ++ flushLargeCOG s) ++ softStart970 ++ p1 ++
        [sendArr 0x15 [0x3c] 1, callDelay_ms 5] ++ p2 ++
        [sendArr 0x09 [0x7f] 1, sendArr 0x05 [0x7d] 1, sendArr 0x09 [0x00] 1,
          callDelay_ms 200] ++ p3 ++
        ([.op (.digitalWrite _pin.panelDC LOW), .op (.digitalWrite _pin.panelCS LOW)] ++
         (if _pin.panelCSS ≠ k.NOT_CONNECTED then [.op (.digitalWrite _pin.panelCSS LOW)]
          else []) ++
         [.op (.digitalWrite _pin.panelReset LOW)] ++
         (if _pin.panelCSS ≠ k.NOT_CONNECTED then [.op (.digitalWrite _pin.panelCSS HIGH)]
          else [])) ++
        [.op (.digitalWrite _pin.panelCS HIGH)]) := by
  have hm : ¬ (s._codeSize = 0x56 ∨ s._codeSize = 0x58 ∨ s._codeSize = 0x74) := by
    rcases hl with h | h <;> rw [h] <;> decide
  unfold _flushGlobal at hr
  rw [if_neg hm, if_pos hl] at hr
  simp only [Option.map_eq_some'] at hr
  obtain ⟨w1, h1, h2⟩ := hr
  unfold flushLarge at h1
  obtain ⟨p1, p2, p3, hp, hc⟩ := flushLargeRefresh_calls _ _ _ _ _ _ h1
  refine ⟨p1, p2, p3, hp, ?_⟩
  rw [← h2, emit_calls, hc, emit_calls]
  simp only [List.append_assoc]

/-- The calls of a refresh of the small group, up to the polls of the busy line. -/
theorem flushGlobal_calls_small (k : Constants) (_pin : Pins) (busy : Nat → Bool)
    (fuel : Nat) (s : Screen) (w w' : Bus)
    (hm : ¬ (s._codeSize = 0x56 ∨ s._codeSize = 0x58 ∨ s._codeSize = 0x74))
    (hl : ¬ (s._codeSize = 0x96 ∨ s._codeSize = 0xB9))
    (hr : _flushGlobal k _pin busy fuel s w = some w') :
    ∃ p1 p2 p3, (∀ c ∈ p1 ++ p2 ++ p3, Call.isPoll c = true) ∧
      w'.calls = w.calls ++ (flushSmallImage s ++ p1 ++
        [sendArr 0x12 [0x00] 1, callDelay_ms 5] ++ p2 ++
        [sendArr 0x02 [0x00] 1, callDelay_ms 5] ++ p3 ++
        [.op (.digitalWrite _pin.panelDC LOW), .op (.digitalWrite _pin.panelCS LOW),
          .op (.digitalWrite _pin.panelReset LOW)] ++
        [.op (.digitalWrite _pin.panelCS HIGH)]) := by
  unfold _flushGlobal at hr
  rw [if_neg hm, if_neg hl] at hr
  simp only [Option.map_eq_some'] at hr
  obtain ⟨w1, h1, h2⟩ := hr
  unfold flushSmall at h1
  obtain ⟨p1, p2, p3, hp, hc⟩ := flushSmallRefresh_calls _ _ _ _ _ h1
  refine ⟨p1, p2, p3, hp, ?_⟩
  rw [← h2, emit_calls, hc, emit_calls]
  simp only [List.append_assoc]

/-! ## Image payloads of a refresh -/

/-- The calls of a completed refresh read as image frames: the frames to the image
registers, how they partition the buffer, and the size of every other transfer. -/
theorem flushGlobal_frames_of_run (k : Constants) (_pin : Pins) (busy : Nat → Bool)
    (fuel : Nat) (s : Screen) (w w' : Bus) (h : Configured s)
    (hr : _flushGlobal k _pin busy fuel s w = some w') :
    ∃ new, w'.calls = w.calls ++ new ∧
      (¬ (s._codeSize = 0x96 ∨ s._codeSize = 0xB9) →
        imageFrames s new =
          [.sendIndexData 0x10 (bytes s._newImage s._frameSize),
           .sendIndexData
              (if s._codeSize = 0x56 ∨ s._codeSize = 0x58 ∨ s._codeSize = 0x74
                then 0x11 else 0x13)
              (bytes (ptrAdd s._newImage s._pageColourSize) s._frameSize)] ∧
        bytes s._newImage s._frameSize ++
            bytes (ptrAdd s._newImage s._pageColourSize) s._frameSize =
          bytes s._newImage (s._pageColourSize * 2)) ∧
      (s._codeSize = 0x96 ∨ s._codeSize = 0xB9 →
        imageFrames s new =
          [.sendIndexDataMaster 0x10 (bytes s._newImage s._frameSize),
           .sendIndexDataMaster 0x11
              (bytes (ptrAdd s._newImage s._pageColourSize) s._frameSize),
           .sendIndexDataSlave 0x10
              (bytes (ptrAdd s._newImage s._frameSize) s._frameSize),
           .sendIndexDataSlave 0x11
              (bytes (ptrAdd (ptrAdd s._newImage s._pageColourSize) s._frameSize)
                s._frameSize)] ∧
        (bytes s._newImage s._frameSize ++
            bytes (ptrAdd s._newImage s._frameSize) s._frameSize) ++
          (bytes (ptrAdd s._newImage s._pageColourSize) s._frameSize ++
            bytes (ptrAdd (ptrAdd s._newImage s._pageColourSize) s._frameSize)
              s._frameSize) =
          bytes s._newImage (s._pageColourSize * 2)) ∧
      (∀ c ∈ new, Call.isFrameOf (imageIndices s) c = false →
        Call.payloadLength c ≤ 6) := by
  obtain ⟨hdual, hsingle⟩ := configured_frameSize s h
  have hall : ∀ (idx : List Nat) (l : List Call),
      l.all (fun c => Call.isFrameOf idx c || decide (Call.payloadLength c ≤ 6)) = true →
      ∀ c ∈ l, Call.isFrameOf idx c = false → Call.payloadLength c ≤ 6 := by
    intro idx l hl c hc hf
    have := (List.all_eq_true.1 hl) c hc
    rw [hf] at this
    simpa using this
  by_cases hm : s._codeSize = 0x56 ∨ s._codeSize = 0x58 ∨ s._codeSize = 0x74
  · -- medium group
    have hl : ¬ (s._codeSize = 0x96 ∨ s._codeSize = 0xB9) := by
      rcases hm with e | e | e <;> rw [e] <;> decide
    obtain ⟨p1, p2, p3, hp, hc⟩ := flushGlobal_calls_medium k _pin busy fuel s w w' hm hr
    have hi : imageIndices s = [0x10, 0x11] := by
      unfold imageIndices
      rw [if_pos (by tauto)]
    have q1 : ∀ c ∈ p1, Call.isPoll c = true := fun c hc => hp c (by simp [hc])
    have q2 : ∀ c ∈ p2, Call.isPoll c = true := fun c hc => hp c (by simp [hc])
    have q3 : ∀ c ∈ p3, Call.isPoll c = true := fun c hc => hp c (by simp [hc])
    obtain ⟨m1, m2⟩ := flushMedium_frames s hm
    refine ⟨_, hc, fun _ => ⟨?_, ?_⟩, fun hd => absurd hd hl, ?_⟩
    · unfold imageFrames
      rw [hi, if_pos hm]
      simp only [List.filter_append, m1, softStart565_frames.1, filter_polls _ _ q1,
        filter_polls _ _ q2, filter_polls _ _ q3, List.filter_cons, List.filter_nil,
        isFrameOf_sendArr, isFrameOf_callDelay, isFrameOf_op, List.contains_cons,
        List.contains_nil, Nat.reduceBEq, Bool.or_false, Bool.false_eq_true, reduceIte,
        List.append_nil, List.elem_cons, List.elem_nil, List.contains]
    · rw [hsingle hl, Nat.mul_two, bytes_add]
    · rw [hi]
      apply hall
      simp only [List.all_append, m2, softStart565_frames.2, all_polls _ _ q1,
        all_polls _ _ q2, all_polls _ _ q3, List.all_cons, List.all_nil,
        isFrameOf_sendArr, isFrameOf_callDelay, isFrameOf_op, payloadLength_sendArr,
        payloadLength_callDelay, payloadLength_op, Nat.reduceLeDiff, decide_True,
        Bool.or_true, Bool.and_true, Bool.and_self, Nat.zero_le]
  · by_cases hl : s._codeSize = 0x96 ∨ s._codeSize = 0xB9
    · -- large group
      obtain ⟨p1, p2, p3, hp, hc⟩ := flushGlobal_calls_large k _pin busy fuel s w w' hl hr
      have hi : imageIndices s = [0x10, 0x11] := by
        unfold imageIndices
        rw [if_pos (by tauto)]
      have q1 : ∀ c ∈ p1, Call.isPoll c = true := fun c hc => hp c (by simp [hc])
      have q2 : ∀ c ∈ p2, Call.isPoll c = true := fun c hc => hp c (by simp [hc])
      have q3 : ∀ c ∈ p3, Call.isPoll c = true := fun c hc => hp c (by simp [hc])
      obtain ⟨m1, m2⟩ := flushLarge_frames s hl
      refine ⟨_, hc, fun hd => absurd hl hd, fun _ => ⟨?_, ?_⟩, ?_⟩
      · unfold imageFrames
        rw [hi]
        have e1 : (if _pin.panelCSS ≠ k.NOT_CONNECTED
            then [Call.op (BusOp.digitalWrite _pin.panelCSS LOW)] else []).filter
              (Call.isFrameOf [0x10, 0x11]) = [] := by
          split_ifs <;> rfl
        have e2 : (if _pin.panelCSS ≠ k.NOT_CONNECTED
            then [Call.op (BusOp.digitalWrite _pin.panelCSS HIGH)] else []).filter
              (Call.isFrameOf [0x10, 0x11]) = [] := by
          split_ifs <;> rfl
        simp only [List.filter_append, m1, e1, e2, softStart970_frames.1, filter_polls _ _ q1,
          filter_polls _ _ q2, filter_polls _ _ q3, List.filter_cons, List.filter_nil,
          isFrameOf_sendArr, isFrameOf_callDelay, isFrameOf_op, List.contains_cons,
          List.contains_nil, Nat.reduceBEq, Bool.or_false, Bool.false_eq_true, reduceIte,
          List.append_nil, List.elem_cons, List.elem_nil, List.contains]
      · rw [← bytes_add, ← bytes_add, hdual hl, Nat.mul_two, bytes_add]
      · rw [hi]
        apply hall
        have e1 : (if _pin.panelCSS ≠ k.NOT_CONNECTED
            then [Call.op (BusOp.digitalWrite _pin.panelCSS LOW)] else []).all
              (fun c => Call.isFrameOf [0x10, 0x11] c ||
                decide (Call.payloadLength c ≤ 6)) = true := by
          split_ifs <;> rfl
        have e2 : (if _pin.panelCSS ≠ k.NOT_CONNECTED
            then [Call.op (BusOp.digitalWrite _pin.panelCSS HIGH)] else []).all
              (fun c => Call.isFrameOf [0x10, 0x11] c ||
                decide (Call.payloadLength c ≤ 6)) = true := by
          split_ifs <;> rfl
        simp only [List.all_append, m2, e1, e2, softStart970_frames.2, all_polls _ _ q1,
          all_polls _ _ q2, all_polls _ _ q3, List.all_cons, List.all_nil,
          isFrameOf_sendArr, isFrameOf_callDelay, isFrameOf_op, payloadLength_sendArr,
          payloadLength_callDelay, payloadLength_op, Nat.reduceLeDiff, decide_True,
          Bool.or_true, Bool.and_true, Bool.and_self, Nat.zero_le]
    · -- small group
      obtain ⟨p1, p2, p3, hp, hc⟩ :=
        flushGlobal_calls_small k _pin busy fuel s w w' hm hl hr
      have hi : imageIndices s = [0x10, 0x13] := by
        unfold imageIndices
        rw [if_neg (by tauto)]
      have q1 : ∀ c ∈ p1, Call.isPoll c = true := fun c hc => hp c (by simp [hc])
      have q2 : ∀ c ∈ p2, Call.isPoll c = true := fun c hc => hp c (by simp [hc])
      have q3 : ∀ c ∈ p3, Call.isPoll c = true := fun c hc => hp c (by simp [hc])
      obtain ⟨m1, m2⟩ := flushSmall_frames s
      refine ⟨_, hc, fun _ => ⟨?_, ?_⟩, fun hd => absurd hd hl, ?_⟩
      · unfold imageFrames
        rw [hi, if_neg hm]
        simp only [List.filter_append, m1, filter_polls _ _ q1,
          filter_polls _ _ q2, filter_polls _ _ q3, List.filter_cons, List.filter_nil,
          isFrameOf_sendArr, isFrameOf_callDelay, isFrameOf_op, List.contains_cons,
          List.contains_nil, Nat.reduceBEq, Bool.or_false, Bool.false_eq_true, reduceIte,
          List.append_nil, List.elem_cons, List.elem_nil, List.contains]
      · rw [hsingle hl, Nat.mul_two, bytes_add]
      · rw [hi]
        apply hall
        simp only [List.all_append, m2, all_polls _ _ q1,
          all_polls _ _ q2, all_polls _ _ q3, List.all_cons, List.all_nil,
          isFrameOf_sendArr, isFrameOf_callDelay, isFrameOf_op, payloadLength_sendArr,
          payloadLength_callDelay, payloadLength_op, Nat.reduceLeDiff, decide_True,
          Bool.or_true, Bool.and_true, Bool.and_self, Nat.zero_le]

/-! ## Undocumented size codes and the width/height convention -/

theorem clear_screenDiagonal (c : Colours) (s : Screen) (colour : Nat) :
    (clear c s colour)._screenDiagonal = s._screenDiagonal ∧
    (clear c s colour)._screenWidth = s._screenWidth ∧
    (clear c s colour)._screenHeigth = s._screenHeigth ∧
    (clear c s colour)._eScreen_EPD_EXT3 = s._eScreen_EPD_EXT3 := by
  unfold clear
  split_ifs <;> exact ⟨rfl, rfl, rfl, rfl⟩

theorem sizeTable_undocumented (s : Screen) (h : s._codeSize ∉ documentedSizes) :
    sizeTable s = s := by
  simp only [documentedSizes, List.mem_cons, List.mem_singleton, List.not_mem_nil,
    or_false, not_or] at h
  obtain ⟨h1, h2, h3, h4, h5, h6, h7, h8, h9, h10, h11, h12, h13⟩ := h
  unfold sizeTable
  rw [if_neg h1, if_neg h2, if_neg h3, if_neg h4, if_neg h5, if_neg h6, if_neg h7,
    if_neg h8, if_neg h9, if_neg h10, if_neg h11, if_neg h12, if_neg h13]

theorem beginGeometry_screenDiagonal (s : Screen) :
    (beginGeometry s)._screenDiagonal = (sizeTable (beginCodes s))._screenDiagonal := by
  unfold beginGeometry beginFrameSize
  simp only [beginPageSize, beginBufferSize]
  split <;> rfl

theorem begin_screenSize (c : Colours) (s : Screen) :
    (begin c s)._screenDiagonal = (sizeTable (beginCodes s))._screenDiagonal ∧
    (begin c s)._screenWidth = (begin c s)._screenSizeH ∧
    (begin c s)._screenHeigth = (begin c s)._screenSizeV := by
  unfold begin
  obtain ⟨d1, d2, d3, -⟩ := clear_screenDiagonal c
    { (_setOrientation (beginScreenSize (beginBuffer (beginGeometry s))) 0) with
      _invert := false } c.white
  obtain ⟨hg, -⟩ := clear_fields c
    { (_setOrientation (beginScreenSize (beginBuffer (beginGeometry s))) 0) with
      _invert := false } c.white
  simp only [geometry, List.cons.injEq, and_true] at hg
  obtain ⟨-, g2, g3, -⟩ := hg
  rw [d1, d2, d3, g2, g3]
  simp only [_setOrientation, beginScreenSize, beginBuffer]
  exact ⟨beginGeometry_screenDiagonal s, trivial, trivial⟩

/-- C21 (as amended): for a device identifier whose size byte is not one of the 13
documented codes, `begin` leaves `_screenSizeV`, `_screenSizeH` and `_screenDiagonal` as
they were before the call and derives bufferStride = `_screenSizeH` / 8, pageColourSize =
`_screenSizeV` * bufferStride and frameSize = pageColourSize from them; when the three
members are 0 before the call, all six are 0 after it. -/
theorem begin_undocumented (c : Colours) (s : Screen)
    (h : (s._eScreen_EPD_EXT3 >>> 8) &&& 0xff ∉ documentedSizes) :
    (begin c s)._screenSizeV = s._screenSizeV ∧
    (begin c s)._screenSizeH = s._screenSizeH ∧
    (begin c s)._screenDiagonal = s._screenDiagonal ∧
    (begin c s)._bufferSizeH = s._screenSizeH / 8 ∧
    (begin c s)._pageColourSize = (s._screenSizeV * (s._screenSizeH / 8)) % 2 ^ 32 ∧
    (s._screenSizeV < 2 ^ 16 → s._screenSizeH < 2 ^ 16 →
      (begin c s)._pageColourSize = s._screenSizeV * (s._screenSizeH / 8)) ∧
    (begin c s)._frameSize = (begin c s)._pageColourSize ∧
    (s._screenSizeV = 0 → s._screenSizeH = 0 → s._screenDiagonal = 0 →
      (begin c s)._screenSizeV = 0 ∧ (begin c s)._screenSizeH = 0 ∧
      (begin c s)._screenDiagonal = 0 ∧ (begin c s)._bufferSizeH = 0 ∧
      (begin c s)._pageColourSize = 0 ∧ (begin c s)._frameSize = 0) := by
  have hg := begin_geometry c s
  simp only [geometry, List.cons.injEq, and_true] at hg
  obtain ⟨-, g2, g3, -, -, g6, g7, g8⟩ := hg
  obtain ⟨-, f2, f3, -, -, f6, f7, f8⟩ := beginGeometry_fields s
  have hk : (beginCodes s)._codeSize ∉ documentedSizes := h
  have hs := sizeTable_undocumented (beginCodes s) hk
  have e2 : (beginCodes s)._screenSizeV = s._screenSizeV := rfl
  have e3 : (beginCodes s)._screenSizeH = s._screenSizeH := rfl
  have e4 : (beginCodes s)._screenDiagonal = s._screenDiagonal := rfl
  have hn : ¬ ((s._eScreen_EPD_EXT3 >>> 8) &&& 0xff = 0x96 ∨
      (s._eScreen_EPD_EXT3 >>> 8) &&& 0xff = 0xB9) := by
    intro hh
    apply h
    rcases hh with hh | hh <;> rw [hh] <;> decide
  simp only [hs, e2, e3] at f2 f3 f6 f7
  rw [if_neg hn] at f8
  have d := (begin_screenSize c s).1
  rw [hs, e4] at d
  have p1 : (begin c s)._screenSizeV = s._screenSizeV := by rw [g2, f2]
  have p2 : (begin c s)._screenSizeH = s._screenSizeH := by rw [g3, f3]
  have p4 : (begin c s)._bufferSizeH = s._screenSizeH / 8 := by rw [g6, f6]
  have p5 : (begin c s)._pageColourSize = (s._screenSizeV * (s._screenSizeH / 8)) % 2 ^ 32 := by
    rw [g7, f7]
  have p6 : (begin c s)._frameSize = (begin c s)._pageColourSize := by rw [g8, f8, g7]
  refine ⟨p1, p2, d, p4, p5, ?_, p6, ?_⟩
  · intro hv hh
    rw [p5]
    apply Nat.mod_eq_of_lt
    have : s._screenSizeH / 8 < 2 ^ 13 := by omega
    calc s._screenSizeV * (s._screenSizeH / 8) < 2 ^ 16 * 2 ^ 13 :=
          Nat.mul_lt_mul'' hv this
      _ < 2 ^ 32 := by norm_num
  · intro hv hh hd
    rw [p6, p5, p4, p1, p2, d, hv, hh, hd]
    exact ⟨rfl, rfl, rfl, rfl, rfl, rfl⟩

/-- Witness for C21 (as amended): the device identifier 0x00FF00 on an object whose size
members are zero. -/
theorem begin_undocumented_witness :
    (construct 0x00FF00)._eScreen_EPD_EXT3 >>> 8 &&& 0xff ∉ documentedSizes ∧
      (begin colours565 (construct 0x00FF00))._pageColourSize = 0 :=
  ⟨by decide,
    ((begin_undocumented colours565 (construct 0x00FF00) (by decide)).2.2.2.2.2.2.2
      rfl rfl rfl).2.2.2.2.1⟩

/-- Counterexample for C21 as stated: a driver object with the device identifier 0x00FF00
(size byte 0xFF, not documented) whose size members hold 152, 152 and 154 before the call
(the constructor does not set them): after `begin` they still hold these values, the
stride is 19 and page and frame size are 2888, none of them 0. -/
theorem begin_undocumented_not_zero :
    (0x00FF00 >>> 8) &&& 0xff ∉ documentedSizes ∧
      (begin colours565 { construct 0x00FF00 with
        _screenSizeV := 152, _screenSizeH := 152, _screenDiagonal := 154 })._screenSizeV
        = 152 ∧
      (begin colours565 { construct 0x00FF00 with
        _screenSizeV := 152, _screenSizeH := 152, _screenDiagonal := 154 })._screenSizeH
        = 152 ∧
      (begin colours565 { construct 0x00FF00 with
        _screenSizeV := 152, _screenSizeH := 152, _screenDiagonal := 154 })._screenDiagonal
        = 154 ∧
      (begin colours565 { construct 0x00FF00 with
        _screenSizeV := 152, _screenSizeH := 152, _screenDiagonal := 154 })._bufferSizeH
        = 19 ∧
      (begin colours565 { construct 0x00FF00 with
        _screenSizeV := 152, _screenSizeH := 152, _screenDiagonal := 154 })._pageColourSize
        = 2888 ∧
      (begin colours565 { construct 0x00FF00 with
        _screenSizeV := 152, _screenSizeH := 152, _screenDiagonal := 154 })._frameSize
        = 2888 := by
  refine ⟨by decide, by decide, by decide, by decide, by decide, by decide, by decide⟩

/-! ## Buffer bounds -/

theorem configured_allocatedBytes (s : Screen) (h : Configured s) :
    allocatedBytes s = s._pageColourSize * 2 := by
  obtain ⟨-, -, hd⟩ := configured_row s h
  unfold allocatedBytes
  rw [hd]

theorem writeBasic_image_other (c : Colours) (s : Screen) (z1 y1 colour k : Nat)
    (h1 : k ≠ z1) (h2 : k ≠ s._pageColourSize + z1) :
    (writeBasic c s z1 y1 colour)._newImage k = s._newImage k := by
  unfold writeBasic
  split_ifs <;> simp only [store_other _ _ _ _ h1, store_other _ _ _ _ h2]

/-- C28: on every documented panel, in every orientation and for every (x, y), `point` and
`readPixel` never index outside the frame buffer: whenever `_orientCoordinates` succeeds,
the plane-relative offset `_getZ(xNative, yNative)` is < pageColourSize, so both accessed
indices z and pageColourSize + z are < pageColourSize * 2, the allocated length. `point`
leaves every cell from the allocated length on as it was, and `readPixel` does not depend
on any such cell. -/
theorem point_readPixel_in_buffer (c : Colours) (s : Screen) (h : Configured s)
    (x y : Nat) :
    allocatedBytes s = s._pageColourSize * 2 ∧
    ((_orientCoordinates s x y).1 = false →
      _getZ s (_orientCoordinates s x y).2.1 (_orientCoordinates s x y).2.2 <
        s._pageColourSize ∧
      _getZ s (_orientCoordinates s x y).2.1 (_orientCoordinates s x y).2.2 <
        allocatedBytes s ∧
      s._pageColourSize +
        _getZ s (_orientCoordinates s x y).2.1 (_orientCoordinates s x y).2.2 <
        allocatedBytes s) ∧
    (∀ colour k, allocatedBytes s ≤ k →
      (point c s x y colour)._newImage k = s._newImage k) ∧
    (∀ img, (∀ k, k < allocatedBytes s → img k = s._newImage k) →
      readPixel c { s with _newImage := img } x y = readPixel c s x y) := by
  have ha := configured_allocatedBytes s h
  have hz : (_orientCoordinates s x y).1 = false →
      _getZ s (_orientCoordinates s x y).2.1 (_orientCoordinates s x y).2.2 <
        s._pageColourSize := by
    intro hin
    obtain ⟨r1, r2⟩ := orientCoordinates_range s x y hin
    exact getZ_lt_pageColourSize s h _ _ r1 r2
  refine ⟨ha, ?_, ?_, ?_⟩
  · intro hin
    have := hz hin
    refine ⟨this, ?_, ?_⟩ <;> omega
  · intro colour k hk
    unfold point
    cases hin : (_orientCoordinates s x y).1
    · rw [setPoint_inbounds c s x y colour hin]
      have := hz hin
      apply writeBasic_image_other <;> omega
    · unfold _setPoint
      simp only [hin, if_true]
  · intro img himg
    unfold readPixel
    cases hin : (_orientCoordinates s x y).1
    · have := hz hin
      have e1 : _orientCoordinates { s with _newImage := img } x y =
          _orientCoordinates s x y := rfl
      have e2 : ∀ a b, _getZ { s with _newImage := img } a b = _getZ s a b := fun _ _ => rfl
      unfold _getPoint
      simp only [e1, e2, hin]
      rw [himg _ (by omega), himg _ (by omega)]
    · unfold _getPoint
      have e1 : _orientCoordinates { s with _newImage := img } x y =
          _orientCoordinates s x y := rfl
      simp only [e1, hin, if_true]

/-- Witness for C28: the logical pixel (151, 151) of the 152 x 152 panel. -/
theorem point_readPixel_in_buffer_witness :
    Configured screen154 ∧ (_orientCoordinates screen154 151 151).1 = false ∧
      _getZ screen154 (_orientCoordinates screen154 151 151).2.1
        (_orientCoordinates screen154 151 151).2.2 < screen154._pageColourSize :=
  ⟨by decide, by decide,
    ((point_readPixel_in_buffer colours565 screen154 (by decide) 151 151).2.1
      (by decide)).1⟩

/-! ## Pixel addresses and the frames of the two controllers -/

theorem bytes_getElem? (f : Nat → Nat) (n i : Nat) (h : i < n) :
    (bytes f n)[i]? = some (f i) := by
  unfold bytes
  rw [List.getElem?_map, List.getElem?_range h]
  rfl

/-- C30: on the dual-controller panels (0x96, 0xB9), for every in-range native (x, y), the
plane-relative offset `_getZ(x, y)` is < frameSize exactly when y < `_screenSizeH` / 2;
otherwise it lies in [frameSize, 2 * frameSize). In the first case the pixel's bytes are
in the frames transmitted to the master (the first halves of the two planes), in the second
case in the frames transmitted to the slave (the second halves). -/
theorem getZ_master_slave (s : Screen) (h : Configured s)
    (hl : s._codeSize = 0x96 ∨ s._codeSize = 0xB9) (x y : Nat)
    (hx : x < s._screenSizeV) (hy : y < s._screenSizeH) :
    (_getZ s x y < s._frameSize ↔ y < s._screenSizeH / 2) ∧
    (¬ y < s._screenSizeH / 2 →
      s._frameSize ≤ _getZ s x y ∧ _getZ s x y < 2 * s._frameSize) ∧
    (y < s._screenSizeH / 2 →
      (bytes s._newImage s._frameSize)[_getZ s x y]? = some (s._newImage (_getZ s x y)) ∧
      (bytes (ptrAdd s._newImage s._pageColourSize) s._frameSize)[_getZ s x y]? =
        some (s._newImage (s._pageColourSize + _getZ s x y))) ∧
    (¬ y < s._screenSizeH / 2 →
      (bytes (ptrAdd s._newImage s._frameSize) s._frameSize)[_getZ s x y - s._frameSize]? =
        some (s._newImage (_getZ s x y)) ∧
      (bytes (ptrAdd (ptrAdd s._newImage s._pageColourSize) s._frameSize)
          s._frameSize)[_getZ s x y - s._frameSize]? =
        some (s._newImage (s._pageColourSize + _getZ s x y))) := by
  obtain ⟨hr, -, -⟩ := configured_row s h
  simp only [profileRows, List.mem_cons, List.mem_singleton, List.not_mem_nil, or_false,
    Prod.mk.injEq] at hr
  have key : (y < s._screenSizeH / 2 → _getZ s x y < s._frameSize) ∧
      (¬ y < s._screenSizeH / 2 →
        s._frameSize ≤ _getZ s x y ∧ _getZ s x y < 2 * s._frameSize) := by
    have b1 : x < 2 ^ 16 ∧ y < 2 ^ 16 := by
      rcases hr with ⟨-, c2, c3, -⟩ | ⟨-, c2, c3, -⟩ | ⟨-, c2, c3, -⟩ | ⟨-, c2, c3, -⟩ |
        ⟨-, c2, c3, -⟩ | ⟨-, c2, c3, -⟩ | ⟨-, c2, c3, -⟩ | ⟨-, c2, c3, -⟩ | ⟨-, c2, c3, -⟩ |
        ⟨-, c2, c3, -⟩ | ⟨-, c2, c3, -⟩ | ⟨-, c2, c3, -⟩ | ⟨-, c2, c3, -⟩ <;>
        · rw [c2] at hx
          rw [c3] at hy
          omega
    rw [getZ_nowrap s h x y b1.1 b1.2, if_pos hl]
    rcases hr with ⟨c1, c2, c3, c4, c5, c6⟩ | ⟨c1, c2, c3, c4, c5, c6⟩ |
      ⟨c1, c2, c3, c4, c5, c6⟩ | ⟨c1, c2, c3, c4, c5, c6⟩ | ⟨c1, c2, c3, c4, c5, c6⟩ |
      ⟨c1, c2, c3, c4, c5, c6⟩ | ⟨c1, c2, c3, c4, c5, c6⟩ | ⟨c1, c2, c3, c4, c5, c6⟩ |
      ⟨c1, c2, c3, c4, c5, c6⟩ | ⟨c1, c2, c3, c4, c5, c6⟩ | ⟨c1, c2, c3, c4, c5, c6⟩ |
      ⟨c1, c2, c3, c4, c5, c6⟩ | ⟨c1, c2, c3, c4, c5, c6⟩ <;>
      · rw [c1] at hl
        rw [c2] at hx
        rw [c3] at hy
        first
        | (exfalso; omega)
        | (simp only [c3, c4, c5, c6]
           norm_num
           constructor
           · intro hlt
             rw [if_neg (by omega)]
             omega
           · intro hge
             rw [if_pos (by omega)]
             omega)
  obtain ⟨k1, k2⟩ := key
  refine ⟨⟨?_, k1⟩, k2, ?_, ?_⟩
  · intro hz
    by_contra hn
    have := (k2 hn).1
    omega
  · intro hlt
    have hz := k1 hlt
    refine ⟨bytes_getElem? _ _ _ hz, ?_⟩
    rw [bytes_getElem? _ _ _ hz]
    rfl
  · intro hge
    obtain ⟨z1, z2⟩ := k2 hge
    have hz : _getZ s x y - s._frameSize < s._frameSize := by omega
    rw [bytes_getElem? _ _ _ hz, bytes_getElem? _ _ _ hz]
    unfold ptrAdd
    have e : s._frameSize + (_getZ s x y - s._frameSize) = _getZ s x y := by omega
    rw [e]
    exact ⟨rfl, rfl⟩

/-- Witness for C30: the native pixel (0, 480) of the 9.69 inch panel is the first one of
the slave half. -/
theorem getZ_master_slave_witness :
    Configured screen969 ∧ (screen969._codeSize = 0x96 ∨ screen969._codeSize = 0xB9) ∧
      (0 : Nat) < screen969._screenSizeV ∧ (480 : Nat) < screen969._screenSizeH ∧
      (_getZ screen969 0 480 < screen969._frameSize ↔ 480 < screen969._screenSizeH / 2) :=
  ⟨by decide, by decide, by decide, by decide,
    (getZ_master_slave screen969 (by decide) (by decide) 0 480 (by decide) (by decide)).1⟩

/-! ## Frame of a pixel write -/

theorem bitRead_mod_256 (v b : Nat) (hb : b < 8) : bitRead (v % 256) b = bitRead v b := by
  rw [bitRead_eq_testBit, bitRead_eq_testBit]
  have : (256 : Nat) = 2 ^ 8 := by norm_num
  rw [this, Nat.testBit_mod_two_pow]
  simp [hb]

theorem bitRead_bitClear_other (v n b : Nat) (hn : n < 8) (hb : b < 8) (h : b ≠ n) :
    bitRead (bitClear v n % 256) b = bitRead v b := by
  rw [bitRead_mod_256 _ _ hb, bitRead_eq_testBit, bitRead_eq_testBit,
    testBit_bitClear v n b hn hb]
  have : n ≠ b := fun e => h e.symm
  simp [this]

theorem bitRead_bitSet_other (v n b : Nat) (hn : n < 8) (hb : b < 8) (h : b ≠ n) :
    bitRead (bitSet v n % 256) b = bitRead v b := by
  rw [bitRead_mod_256 _ _ hb, bitRead_eq_testBit, bitRead_eq_testBit,
    testBit_bitSet v n b hn hb]
  have : n ≠ b := fun e => h e.symm
  simp [this]

theorem store_store_bit (img : Nat → Nat) (z p a1 a2 k b : Nat)
    (h1 : bitRead (a1 % 256) b = bitRead (img z) b ∨ k ≠ z)
    (h2 : bitRead (a2 % 256) b = bitRead (img (p + z)) b ∨ k ≠ p + z) :
    bitRead (store (store img z a1) (p + z) a2 k) b = bitRead (img k) b := by
  by_cases e2 : k = p + z
  · subst e2
    rw [store_same]
    rcases h2 with h2 | h2
    · exact h2
    · exact absurd rfl h2
  · rw [store_other _ _ _ _ e2]
    by_cases e1 : k = z
    · subst e1
      rw [store_same]
      rcases h1 with h1 | h1
      · exact h1
      · exact absurd rfl h1
    · rw [store_other _ _ _ _ e1]

theorem writeBasic_bit_other (c : Colours) (s : Screen) (z1 y1 colour k b : Nat)
    (hp : 0 < s._pageColourSize) (hb : b < 8)
    (h1 : k = z1 → b ≠ 7 - y1 % 8) (h2 : k = s._pageColourSize + z1 → b ≠ 7 - y1 % 8) :
    bitRead ((writeBasic c s z1 y1 colour)._newImage k) b = bitRead (s._newImage k) b := by
  have hn : 7 - y1 % 8 < 8 := by omega
  have hne : s._pageColourSize + z1 ≠ z1 := by omega
  have a1 : ∀ v, bitRead (bitClear v (7 - y1 % 8) % 256) b = bitRead v b ∨ k ≠ z1 := by
    intro v
    by_cases e : k = z1
    · exact Or.inl (bitRead_bitClear_other _ _ _ hn hb (h1 e))
    · exact Or.inr e
  have a2 : ∀ v, bitRead (bitSet v (7 - y1 % 8) % 256) b = bitRead v b ∨ k ≠ z1 := by
    intro v
    by_cases e : k = z1
    · exact Or.inl (bitRead_bitSet_other _ _ _ hn hb (h1 e))
    · exact Or.inr e
  have b1 : ∀ v, bitRead (bitClear v (7 - y1 % 8) % 256) b = bitRead v b ∨
      k ≠ s._pageColourSize + z1 := by
    intro v
    by_cases e : k = s._pageColourSize + z1
    · exact Or.inl (bitRead_bitClear_other _ _ _ hn hb (h2 e))
    · exact Or.inr e
  have b2 : ∀ v, bitRead (bitSet v (7 - y1 % 8) % 256) b = bitRead v b ∨
      k ≠ s._pageColourSize + z1 := by
    intro v
    by_cases e : k = s._pageColourSize + z1
    · exact Or.inl (bitRead_bitSet_other _ _ _ hn hb (h2 e))
    · exact Or.inr e
  unfold writeBasic
  split_ifs
  · simp only [store_other _ _ _ _ hne]
    exact store_store_bit _ _ _ _ _ _ _ (a1 _) (b2 _)
  · simp only [store_other _ _ _ _ hne]
    exact store_store_bit _ _ _ _ _ _ _ (a1 _) (b1 _)
  · simp only [store_other _ _ _ _ hne]
    exact store_store_bit _ _ _ _ _ _ _ (a2 _) (b1 _)
  · rfl

theorem orientCoordinates_inj (s : Screen) (x y u v a b : Nat)
    (h1 : _orientCoordinates s x y = (false, a, b))
    (h2 : _orientCoordinates s u v = (false, a, b)) : x = u ∧ y = v := by
  unfold _orientCoordinates at h1 h2
  split_ifs at h1 h2 <;> simp only [Prod.mk.injEq, Bool.true_eq_false, false_and,
    true_and] at h1 h2 <;> omega

theorem getZ_address_ne (s : Screen) (h : Configured s) (x y u v : Nat)
    (hx : x < s._screenSizeV) (hy : y < s._screenSizeH)
    (hu : u < s._screenSizeV) (hv : v < s._screenSizeH)
    (hne : ¬ (x = u ∧ y = v)) :
    _getZ s x y = _getZ s u v → 7 - y % 8 ≠ 7 - v % 8 := by
  intro hz hb
  apply hne
  obtain ⟨hr, -, -⟩ := configured_row s h
  simp only [profileRows, List.mem_cons, List.mem_singleton, List.not_mem_nil, or_false,
    Prod.mk.injEq] at hr
  have b1 : x < 2 ^ 16 ∧ y < 2 ^ 16 ∧ u < 2 ^ 16 ∧ v < 2 ^ 16 := by
    rcases hr with ⟨-, c2, c3, -⟩ | ⟨-, c2, c3, -⟩ | ⟨-, c2, c3, -⟩ | ⟨-, c2, c3, -⟩ |
      ⟨-, c2, c3, -⟩ | ⟨-, c2, c3, -⟩ | ⟨-, c2, c3, -⟩ | ⟨-, c2, c3, -⟩ | ⟨-, c2, c3, -⟩ |
      ⟨-, c2, c3, -⟩ | ⟨-, c2, c3, -⟩ | ⟨-, c2, c3, -⟩ | ⟨-, c2, c3, -⟩ <;>
      · rw [c2] at hx hu
        rw [c3] at hy hv
        omega
  rw [getZ_nowrap s h x y b1.1 b1.2.1, getZ_nowrap s h u v b1.2.2.1 b1.2.2.2] at hz
  rcases hr with ⟨c1, c2, c3, c4, c5, -⟩ | ⟨c1, c2, c3, c4, c5, -⟩ | ⟨c1, c2, c3, c4, c5, -⟩ |
    ⟨c1, c2, c3, c4, c5, -⟩ | ⟨c1, c2, c3, c4, c5, -⟩ | ⟨c1, c2, c3, c4, c5, -⟩ |
    ⟨c1, c2, c3, c4, c5, -⟩ | ⟨c1, c2, c3, c4, c5, -⟩ | ⟨c1, c2, c3, c4, c5, -⟩ |
    ⟨c1, c2, c3, c4, c5, -⟩ | ⟨c1, c2, c3, c4, c5, -⟩ | ⟨c1, c2, c3, c4, c5, -⟩ |
    ⟨c1, c2, c3, c4, c5, -⟩ <;>
    · rw [c2] at hx hu
      rw [c3] at hy hv
      simp only [c1, c3, c4, c5] at hz
      norm_num at hz
      try split_ifs at hz
      all_goals omega

theorem planeBits_congr (s t : Screen) (z y : Nat) (hp : t._pageColourSize = s._pageColourSize)
    (h0 : bitRead (t._newImage z) (7 - y % 8) = bitRead (s._newImage z) (7 - y % 8))
    (h1 : bitRead (t._newImage (s._pageColourSize + z)) (7 - y % 8) =
      bitRead (s._newImage (s._pageColourSize + z)) (7 - y % 8)) :
    planeBits t z y = planeBits s z y := by
  unfold planeBits
  rw [hp, h0, h1]

/-- C27: on every documented panel, in every orientation, under either invert setting and
for every colour, `point(x, y, colour)` at an in-bounds (x, y) changes at most one bit of
plane 0 and one bit of plane 1, both at the pixel's own address (byte `_getZ`, bit
7 - (yNative mod 8)): every other bit of every byte is as before, and `readPixel` at every
other coordinate returns what it returned before. -/
theorem point_frame (c : Colours) (s : Screen) (h : Configured s) (x y colour : Nat)
    (hin : (_orientCoordinates s x y).1 = false) :
    (∀ k b, b < 8 →
      (k = _getZ s (_orientCoordinates s x y).2.1 (_orientCoordinates s x y).2.2 →
        b ≠ 7 - (_orientCoordinates s x y).2.2 % 8) →
      (k = s._pageColourSize +
          _getZ s (_orientCoordinates s x y).2.1 (_orientCoordinates s x y).2.2 →
        b ≠ 7 - (_orientCoordinates s x y).2.2 % 8) →
      bitRead ((point c s x y colour)._newImage k) b = bitRead (s._newImage k) b) ∧
    (∀ u v, (u, v) ≠ (x, y) →
      readPixel c (point c s x y colour) u v = readPixel c s u v) := by
  have hp := configured_pageColourSize_pos s h
  have hbits : ∀ k b, b < 8 →
      (k = _getZ s (_orientCoordinates s x y).2.1 (_orientCoordinates s x y).2.2 →
        b ≠ 7 - (_orientCoordinates s x y).2.2 % 8) →
      (k = s._pageColourSize +
          _getZ s (_orientCoordinates s x y).2.1 (_orientCoordinates s x y).2.2 →
        b ≠ 7 - (_orientCoordinates s x y).2.2 % 8) →
      bitRead ((point c s x y colour)._newImage k) b = bitRead (s._newImage k) b := by
    intro k b hb h1 h2
    unfold point
    rw [setPoint_inbounds c s x y colour hin]
    exact writeBasic_bit_other c s _ _ _ k b hp hb h1 h2
  refine ⟨hbits, ?_⟩
  intro u v hne
  obtain ⟨g, go, -⟩ := setPoint_fields c s x y colour
  have eo : _orientCoordinates (point c s x y colour) u v = _orientCoordinates s u v :=
    orientCoordinates_congr s _ u v go g
  unfold readPixel
  cases hin2 : (_orientCoordinates s u v).1
  · have hin3 : (_orientCoordinates (point c s x y colour) u v).1 = false := by
      rw [eo]; exact hin2
    rw [getPoint_inbounds c _ u v hin3, getPoint_inbounds c s u v hin2, eo]
    have ez : ∀ a b, _getZ (point c s x y colour) a b = _getZ s a b :=
      fun a b => getZ_congr s _ a b g
    rw [ez]
    obtain ⟨r1, r2⟩ := orientCoordinates_range s x y hin
    obtain ⟨r3, r4⟩ := orientCoordinates_range s u v hin2
    have z1 := getZ_lt_pageColourSize s h _ _ r1 r2
    have z2 := getZ_lt_pageColourSize s h _ _ r3 r4
    have hdiff : ¬ ((_orientCoordinates s u v).2.1 = (_orientCoordinates s x y).2.1 ∧
        (_orientCoordinates s u v).2.2 = (_orientCoordinates s x y).2.2) := by
      intro hh
      apply hne
      have e1 : _orientCoordinates s x y =
          (false, (_orientCoordinates s x y).2.1, (_orientCoordinates s x y).2.2) := by
        rw [← hin]
      have e2 : _orientCoordinates s u v =
          (false, (_orientCoordinates s x y).2.1, (_orientCoordinates s x y).2.2) := by
        rw [← hh.1, ← hh.2, ← hin2]
      obtain ⟨q1, q2⟩ := orientCoordinates_inj s u v x y _ _ e2 e1
      rw [q1, q2]
    have hadd := getZ_address_ne s h _ _ _ _ r3 r4 r1 r2 hdiff
    have hps : (point c s x y colour)._pageColourSize = s._pageColourSize := by
      have g2 := g
      simp only [geometry, List.cons.injEq, and_true] at g2
      exact g2.2.2.2.2.2.2.1
    have hpb : planeBits (point c s x y colour)
        (_getZ s (_orientCoordinates s u v).2.1 (_orientCoordinates s u v).2.2)
        (_orientCoordinates s u v).2.2 =
        planeBits s (_getZ s (_orientCoordinates s u v).2.1 (_orientCoordinates s u v).2.2)
          (_orientCoordinates s u v).2.2 := by
      apply planeBits_congr _ _ _ _ hps
      · apply hbits _ _ (by omega)
        · exact hadd
        · intro e
          omega
      · apply hbits _ _ (by omega)
        · intro e
          omega
        · intro e
          exact hadd (by omega)
    rw [hpb]
  · unfold _getPoint
    simp only [eo, hin2, if_true]

/-- Witness for C27: a write at the logical pixel (3, 5) of the 152 x 152 panel leaves the
read at (3, 6) as it was. -/
theorem point_frame_witness :
    Configured screen154 ∧ (_orientCoordinates screen154 3 5).1 = false ∧
      readPixel colours565 (point colours565 screen154 3 5 colours565.red) 3 6 =
        readPixel colours565 screen154 3 6 :=
  ⟨by decide, by decide,
    (point_frame colours565 screen154 (by decide) 3 5 colours565.red (by decide)).2 3 6
      (by decide)⟩

/-! ## The two plane bits of a pixel are never both set -/

theorem forLoop_zero {α : Type} (body : Nat → α → α) (a : α) : forLoop 0 body a = a := rfl

theorem forLoop_columns (H P n : Nat) (v1 v2 : Nat) (img : Nat → Nat) (hn : n * H + H ≤ P) :
    ∀ m, m ≤ H →
      (∀ t, t < n * H + m → n * H ≤ t →
        forLoop m (fun j img => store (store img (n * H + j) v1) (n * H + j + P) v2) img t
            = v1 % 256 ∧
        forLoop m (fun j img => store (store img (n * H + j) v1) (n * H + j + P) v2) img
            (t + P) = v2 % 256) ∧
      (∀ t, t < n * H →
        forLoop m (fun j img => store (store img (n * H + j) v1) (n * H + j + P) v2) img t
            = img t ∧
        forLoop m (fun j img => store (store img (n * H + j) v1) (n * H + j + P) v2) img
            (t + P) = img (t + P)) := by
  intro m
  induction m with
  | zero =>
    intro _
    refine ⟨fun t h1 h2 => by omega, fun t _ => ⟨rfl, rfl⟩⟩
  | succ m ih =>
    intro hm
    obtain ⟨ih1, ih2⟩ := ih (by omega)
    rw [forLoop_succ]
    constructor
    · intro t h1 h2
      by_cases e : t = n * H + m
      · subst e
        constructor
        · rw [store_other _ _ _ _ (by omega), store_same]
        · rw [store_same]
      · obtain ⟨q1, q2⟩ := ih1 t (by omega) h2
        constructor
        · rw [store_other _ _ _ _ (by omega), store_other _ _ _ _ (by omega)]
          exact q1
        · rw [store_other _ _ _ _ (by omega), store_other _ _ _ _ (by omega)]
          exact q2
    · intro t ht
      obtain ⟨q1, q2⟩ := ih2 t ht
      constructor
      · rw [store_other _ _ _ _ (by omega), store_other _ _ _ _ (by omega)]
        exact q1
      · rw [store_other _ _ _ _ (by omega), store_other _ _ _ _ (by omega)]
        exact q2

theorem forLoop_rows (V H P : Nat) (p1 p2 : Nat → Nat) (img : Nat → Nat) (hP : V * H ≤ P) :
    ∀ n, n ≤ V → ∀ t, t < n * H →
      forLoop n (fun i img =>
        forLoop H (fun j img => store (store img (i * H + j) (p1 i)) (i * H + j + P) (p2 i))
          img) img t = p1 (t / H) % 256 ∧
      forLoop n (fun i img =>
        forLoop H (fun j img => store (store img (i * H + j) (p1 i)) (i * H + j + P) (p2 i))
          img) img (t + P) = p2 (t / H) % 256 := by
  intro n
  induction n with
  | zero => intro _ t ht; omega
  | succ n ih =>
    intro hn t ht
    have hrow : n * H + H ≤ P := by
      have : (n + 1) * H ≤ V * H := Nat.mul_le_mul_right H hn
      rw [Nat.add_mul, Nat.one_mul] at this
      omega
    have ht2 : t < n * H + H := by
      rw [Nat.add_mul, Nat.one_mul] at ht
      exact ht
    rw [forLoop_succ]
    obtain ⟨c1, c2⟩ := forLoop_columns H P n (p1 n) (p2 n)
      (forLoop n (fun i img =>
        forLoop H (fun j img => store (store img (i * H + j) (p1 i)) (i * H + j + P) (p2 i))
          img) img) hrow H (le_refl _)
    by_cases hlt : t < n * H
    · obtain ⟨q1, q2⟩ := c2 t hlt
      obtain ⟨i1, i2⟩ := ih (by omega) t hlt
      exact ⟨q1.trans i1, q2.trans i2⟩
    · have hH : 0 < H := by
        rcases Nat.eq_zero_or_pos H with e | e
        · subst e; omega
        · exact e
      have hdiv : t / H = n := by
        apply Nat.div_eq_of_lt_le
        · rw [Nat.mul_comm] at hlt ⊢; omega
        · rw [Nat.add_mul, Nat.one_mul]; exact ht2
      obtain ⟨q1, q2⟩ := c1 t ht2 (by omega)
      rw [hdiv]
      exact ⟨q1, q2⟩

theorem configured_page (s : Screen) (h : Configured s) :
    s._bufferSizeV * s._bufferSizeH = s._pageColourSize := by
  obtain ⟨hr, hv, -⟩ := configured_row s h
  rw [hv]
  simp only [profileRows, List.mem_cons, List.mem_singleton, List.not_mem_nil, or_false,
    Prod.mk.injEq] at hr
  rcases hr with ⟨-, c2, -, c4, c5, -⟩ | ⟨-, c2, -, c4, c5, -⟩ | ⟨-, c2, -, c4, c5, -⟩ |
    ⟨-, c2, -, c4, c5, -⟩ | ⟨-, c2, -, c4, c5, -⟩ | ⟨-, c2, -, c4, c5, -⟩ |
    ⟨-, c2, -, c4, c5, -⟩ | ⟨-, c2, -, c4, c5, -⟩ | ⟨-, c2, -, c4, c5, -⟩ |
    ⟨-, c2, -, c4, c5, -⟩ | ⟨-, c2, -, c4, c5, -⟩ | ⟨-, c2, -, c4, c5, -⟩ |
    ⟨-, c2, -, c4, c5, -⟩ <;>
    · rw [c2, c4, c5]

theorem bitRead_zero (b : Nat) : bitRead 0 b = 0 := by
  simp [bitRead]

theorem clear_pageColourSize (c : Colours) (s : Screen) (colour : Nat) :
    (clear c s colour)._pageColourSize = s._pageColourSize := by
  unfold clear
  split_ifs <;> rfl

theorem clear_rows_cells (s : Screen) (h : Configured s) (p1 p2 : Nat → Nat) (k : Nat)
    (hk : k < s._pageColourSize) :
    forLoop s._bufferSizeV (fun i img =>
      forLoop s._bufferSizeH (fun j img =>
        store (store img (i * s._bufferSizeH + j) (p1 i))
          (i * s._bufferSizeH + j + s._pageColourSize) (p2 i)) img) s._newImage k =
        p1 (k / s._bufferSizeH) % 256 ∧
    forLoop s._bufferSizeV (fun i img =>
      forLoop s._bufferSizeH (fun j img =>
        store (store img (i * s._bufferSizeH + j) (p1 i))
          (i * s._bufferSizeH + j + s._pageColourSize) (p2 i)) img) s._newImage
        (s._pageColourSize + k) = p2 (k / s._bufferSizeH) % 256 := by
  have hp := configured_page s h
  have := forLoop_rows s._bufferSizeV s._bufferSizeH s._pageColourSize p1 p2 s._newImage
    (by rw [hp]) s._bufferSizeV (le_refl _) k (by rw [hp]; exact hk)
  rw [Nat.add_comm s._pageColourSize k]
  exact this

theorem clear_noBothBits (c : Colours) (s : Screen) (h : Configured s) (colour : Nat) :
    NoBothBits (clear c s colour) := by
  intro k b hk hb
  rw [clear_pageColourSize] at hk ⊢
  have m0 : ∀ img v, memset img 0 v s._pageColourSize k = v % 256 :=
    fun img v => memset_inside img 0 v _ k (by omega) (by omega)
  have m0' : ∀ img off v, memset img s._pageColourSize v off k = img k :=
    fun img off v => memset_outside img _ v _ k (by omega)
  have m1 : ∀ img v, memset img s._pageColourSize v s._pageColourSize
      (s._pageColourSize + k) = v % 256 :=
    fun img v => memset_inside img _ v _ _ (by omega) (by omega)
  unfold clear
  split_ifs
  · -- red
    intro hh
    have := hh.1
    simp only [m0', m0, Nat.zero_mod, bitRead_zero] at this
    omega
  · -- grey
    intro hh
    have := hh.2
    simp only [m1, Nat.zero_mod, bitRead_zero] at this
    omega
  · -- darkRed
    obtain ⟨q1, q2⟩ := clear_rows_cells s h
      (fun i => if i % 2 ≠ 0 then 0b10101010 else 0b01010101)
      (fun i => if i % 2 ≠ 0 then 0b01010101 else 0b10101010) k hk
    intro hh
    have a1 := hh.1
    have a2 := hh.2
    change bitRead (forLoop s._bufferSizeV _ s._newImage k) b = 1 at a1
    change bitRead (forLoop s._bufferSizeV _ s._newImage (s._pageColourSize + k)) b = 1 at a2
    erw [q1] at a1
    erw [q2] at a2
    by_cases hodd : k / s._bufferSizeH % 2 ≠ 0
    · rw [if_pos hodd] at a1 a2
      revert a1 a2
      interval_cases b <;> decide
    · rw [if_neg hodd] at a1 a2
      revert a1 a2
      interval_cases b <;> decide
  · -- lightRed
    obtain ⟨q1, -⟩ := clear_rows_cells s h
      (fun i => if i % 2 ≠ 0 then 0b00000000 else 0b00000000)
      (fun i => if i % 2 ≠ 0 then 0b01010101 else 0b10101010) k hk
    intro hh
    have a1 := hh.1
    change bitRead (forLoop s._bufferSizeV _ s._newImage k) b = 1 at a1
    erw [q1] at a1
    simp only [ite_self, Nat.zero_mod, bitRead_zero] at a1
    omega
  · intro hh
    have := hh.2
    simp only [m1, Nat.zero_mod, bitRead_zero] at this
    omega
  · intro hh
    have := hh.2
    simp only [m1, Nat.zero_mod, bitRead_zero] at this
    omega

theorem configured_of_geometry (s t : Screen)
    (he : t._eScreen_EPD_EXT3 = s._eScreen_EPD_EXT3) (hg : geometry t = geometry s)
    (h : Configured s) : Configured t := by
  obtain ⟨hm, hs⟩ := h
  have hg2 := hg
  simp only [geometry, List.cons.injEq, and_true] at hg2
  obtain ⟨g1, g2, g3, g4, g5, g6, g7, g8⟩ := hg2
  refine ⟨by rw [g1]; exact hm, ?_⟩
  rw [hg, ← hs]
  obtain ⟨f1, f2, f3, f4, f5, f6, f7, f8⟩ := beginGeometry_fields s
  obtain ⟨t1, t2, t3, t4, t5, t6, t7, t8⟩ := beginGeometry_fields t
  have hcs : (beginCodes t)._codeSize = (beginCodes s)._codeSize := by
    show (t._eScreen_EPD_EXT3 >>> 8) &&& 0xff = (s._eScreen_EPD_EXT3 >>> 8) &&& 0xff
    rw [he]
  obtain ⟨dv, dh⟩ := sizeTable_dims_congr (beginCodes s) (beginCodes t) hcs g2 g3
  simp only [dv, dh] at t2 t3 t5 t6 t7
  have e7 : (beginGeometry t)._pageColourSize = (beginGeometry s)._pageColourSize := by
    rw [t7, f7]
  simp only [geometry, List.cons.injEq, and_true]
  refine ⟨by rw [t1, f1, he], by rw [t2, f2], by rw [t3, f3], by rw [t4, f4],
    by rw [t5, f5], by rw [t6, f6], e7, ?_⟩
  rw [t8, f8, e7, he]

theorem sizeTable_eScreen (s : Screen) :
    (sizeTable s)._eScreen_EPD_EXT3 = s._eScreen_EPD_EXT3 := by
  unfold sizeTable
  simp only [apply_ite Screen._eScreen_EPD_EXT3, ite_self]

theorem beginGeometry_eScreen (s : Screen) :
    (beginGeometry s)._eScreen_EPD_EXT3 = s._eScreen_EPD_EXT3 := by
  unfold beginGeometry beginFrameSize
  simp only [beginPageSize, beginBufferSize]
  split <;> exact sizeTable_eScreen (beginCodes s)

theorem begin_configured (c : Colours) (s : Screen)
    (h : (s._eScreen_EPD_EXT3 >>> 8) &&& 0xff ∈ documentedSizes) :
    Configured (begin c s) := by
  have hg := begin_geometry c s
  have he : (begin c s)._eScreen_EPD_EXT3 = s._eScreen_EPD_EXT3 := by
    unfold begin
    rw [(clear_screenDiagonal c _ c.white).2.2.2]
    simp only [_setOrientation, beginScreenSize, beginBuffer]
    exact beginGeometry_eScreen s
  obtain ⟨f1, f2, f3, f4, f5, f6, f7, f8⟩ := beginGeometry_fields s
  obtain ⟨t1, t2, t3, t4, t5, t6, t7, t8⟩ := beginGeometry_fields (begin c s)
  have hg2 := hg
  simp only [geometry, List.cons.injEq, and_true] at hg2
  obtain ⟨g1, g2, g3, g4, g5, g6, g7, g8⟩ := hg2
  refine ⟨by rw [g1, f1]; exact h, ?_⟩
  rw [hg]
  have hk : (beginCodes s)._codeSize = (s._eScreen_EPD_EXT3 >>> 8) &&& 0xff := rfl
  have hk2 : (beginCodes (begin c s))._codeSize = (s._eScreen_EPD_EXT3 >>> 8) &&& 0xff := by
    show ((begin c s)._eScreen_EPD_EXT3 >>> 8) &&& 0xff = _
    rw [he]
  have hd := sizeTable_dims (beginCodes s) _ hk
  have hd2 := sizeTable_dims (beginCodes (begin c s)) _ hk2
  have hdims : (sizeTable (beginCodes (begin c s)))._screenSizeV =
        (sizeTable (beginCodes s))._screenSizeV ∧
      (sizeTable (beginCodes (begin c s)))._screenSizeH =
        (sizeTable (beginCodes s))._screenSizeH := by
    simp only [documentedSizes, List.mem_cons, List.mem_singleton, List.not_mem_nil,
      or_false] at h
    rcases h with h | h | h | h | h | h | h | h | h | h | h | h | h <;>
      · have hx := hd
        have hy := hd2
        simp only [h] at hx hy
        norm_num at hx hy
        rw [hx.1, hx.2, hy.1, hy.2]
        exact ⟨rfl, rfl⟩
  obtain ⟨dv, dh⟩ := hdims
  simp only [dv, dh] at t2 t3 t5 t6 t7
  have e7 : (beginGeometry (begin c s))._pageColourSize = (beginGeometry s)._pageColourSize := by
    rw [t7, f7]
  simp only [geometry, List.cons.injEq, and_true]
  refine ⟨by rw [t1, f1, he], by rw [t2, f2], by rw [t3, f3], by rw [t4, f4],
    by rw [t5, f5], by rw [t6, f6], e7, ?_⟩
  rw [t8, f8, e7, he]

theorem writeBasic_noBothBits (c : Colours) (s : Screen) (z1 y1 colour : Nat)
    (hz : z1 < s._pageColourSize) (h : NoBothBits s) :
    NoBothBits (writeBasic c s z1 y1 colour) := by
  have hp : 0 < s._pageColourSize := by omega
  have hps : (writeBasic c s z1 y1 colour)._pageColourSize = s._pageColourSize := by
    have g := (writeBasic_fields c s z1 y1 colour).1
    simp only [geometry, List.cons.injEq, and_true] at g
    exact g.2.2.2.2.2.2.1
  intro k b hk hb
  rw [hps] at hk ⊢
  by_cases e : k = z1 ∧ b = 7 - y1 % 8
  · obtain ⟨e1, e2⟩ := e
    subst e1
    subst e2
    have hw := writeBasic_planeBits c s k y1 colour hp
    unfold planeBits at hw
    rw [hps] at hw
    have h0 := h k (7 - y1 % 8) hk hb
    intro hh
    rw [hh.1, hh.2] at hw
    split_ifs at hw
    · simp only [Prod.mk.injEq] at hw; omega
    · simp only [Prod.mk.injEq] at hw; omega
    · simp only [Prod.mk.injEq] at hw; omega
    · simp only [Prod.mk.injEq] at hw
      exact h0 ⟨hw.1.symm, hw.2.symm⟩
  · have q1 : bitRead ((writeBasic c s z1 y1 colour)._newImage k) b =
        bitRead (s._newImage k) b := by
      apply writeBasic_bit_other c s z1 y1 colour k b hp hb
      · intro e1 e2
        exact e ⟨e1, e2⟩
      · intro e1
        omega
    have q2 : bitRead ((writeBasic c s z1 y1 colour)._newImage (s._pageColourSize + k)) b =
        bitRead (s._newImage (s._pageColourSize + k)) b := by
      apply writeBasic_bit_other c s z1 y1 colour _ b hp hb
      · intro e1
        omega
      · intro e1 e2
        exact e ⟨by omega, e2⟩
    rw [q1, q2]
    exact h k b hk hb

theorem point_noBothBits (c : Colours) (s : Screen) (hc : Configured s) (x y colour : Nat)
    (h : NoBothBits s) : NoBothBits (point c s x y colour) := by
  unfold point
  cases hin : (_orientCoordinates s x y).1
  · rw [setPoint_inbounds c s x y colour hin]
    obtain ⟨r1, r2⟩ := orientCoordinates_range s x y hin
    exact writeBasic_noBothBits c s _ _ _ (getZ_lt_pageColourSize s hc _ _ r1 r2) h
  · unfold _setPoint
    simp only [hin, if_true]
    exact h

theorem reachable_invariant (c : Colours) (s : Screen) (h : Reachable c s) :
    Configured s ∧ NoBothBits s := by
  induction h with
  | begin s h =>
    have hc := begin_configured c s h
    refine ⟨hc, ?_⟩
    unfold begin
    apply clear_noBothBits
    have hh : Configured (begin c s) := hc
    unfold begin at hh
    exact configured_of_geometry _ _ (clear_screenDiagonal c _ c.white).2.2.2.symm
      (clear_fields c _ c.white).1.symm hh
  | clear s colour _ ih =>
    exact ⟨configured_of_geometry s _ (clear_screenDiagonal c s colour).2.2.2
      (clear_fields c s colour).1 ih.1, clear_noBothBits c s ih.1 colour⟩
  | point s x1 y1 colour _ ih =>
    exact ⟨configured_congr s _ (setPoint_sameProfile c s x1 y1 colour) ih.1,
      point_noBothBits c s ih.1 x1 y1 colour ih.2⟩
  | invert s flag _ ih => exact ⟨configured_of_geometry s _ rfl rfl ih.1, ih.2⟩
  | setOrientation s orientation _ ih => exact ⟨configured_of_geometry s _ rfl rfl ih.1, ih.2⟩
  | setTemperatureC s temperatureC _ ih => exact ⟨configured_of_geometry s _ rfl rfl ih.1, ih.2⟩
  | setTemperatureF s temperatureF _ ih => exact ⟨configured_of_geometry s _ rfl rfl ih.1, ih.2⟩

/-- C29: no pixel ever has both plane bits set. The buffer left by `begin` (documented
device identifier) has no bit position set in both plane 0 and plane 1; `clear(c)`
establishes this for every colour c and `point(x, y, c)` preserves it for every colour and
coordinate, under either invert setting (`invert` does not touch the buffer); hence in
every reachable state no in-bounds pixel carries the undefined encoding (1, 1) that
`readPixel` would meet. -/
theorem noBothBits_invariant (c : Colours) :
    (∀ s, (s._eScreen_EPD_EXT3 >>> 8) &&& 0xff ∈ documentedSizes →
      NoBothBits (begin c s)) ∧
    (∀ s colour, Configured s → NoBothBits (clear c s colour)) ∧
    (∀ s x y colour, Configured s → NoBothBits s → NoBothBits (point c s x y colour)) ∧
    (∀ s flag, NoBothBits s → NoBothBits (invert s flag)) ∧
    (∀ s, Reachable c s →
      NoBothBits s ∧
      ∀ x y, (_orientCoordinates s x y).1 = false →
        planeBits s (_getZ s (_orientCoordinates s x y).2.1 (_orientCoordinates s x y).2.2)
          (_orientCoordinates s x y).2.2 ≠ (1, 1)) := by
  refine ⟨fun s h => (reachable_invariant c _ (Reachable.begin s h)).2,
    fun s colour h => clear_noBothBits c s h colour,
    fun s x y colour hc h => point_noBothBits c s hc x y colour h,
    fun s flag h => h, ?_⟩
  intro s hr
  obtain ⟨hc, hn⟩ := reachable_invariant c s hr
  refine ⟨hn, ?_⟩
  intro x y hin
  obtain ⟨r1, r2⟩ := orientCoordinates_range s x y hin
  have hz := getZ_lt_pageColourSize s hc _ _ r1 r2
  have := hn _ (7 - (_orientCoordinates s x y).2.2 % 8) hz (by omega)
  intro e
  unfold planeBits at e
  simp only [Prod.mk.injEq] at e
  exact this e

/-- Witness for C29: the 152 x 152 panel after `begin` and a red pixel at (0, 0) is a
reachable state. -/
theorem noBothBits_invariant_witness :
    Reachable colours565 (point colours565 screen154 0 0 colours565.red) ∧
      NoBothBits (point colours565 screen154 0 0 colours565.red) :=
  ⟨Reachable.point _ 0 0 _ (Reachable.begin _ (by decide)),
    ((noBothBits_invariant colours565).2.2.2.2 _
      (Reachable.point _ 0 0 _ (Reachable.begin _ (by decide)))).1⟩

/-! ## Soft-start ramp -/

theorem isTransfer_sendArr (i : Nat) (a : List Nat) (n : Nat) :
    Call.isTransfer (sendArr i a n) = true := rfl

theorem isTransfer_send (i : Nat) (p : List Nat) :
    Call.isTransfer (.sendIndexData i p) = true := rfl

theorem isTransfer_callDelay (n : Nat) : Call.isTransfer (callDelay_ms n) = false := rfl

theorem isTransfer_reset (a b c d e : Nat) : Call.isTransfer (.reset a b c d e) = false := rfl

theorem isTransfer_op (o : BusOp) : Call.isTransfer (.op o) = false := rfl

theorem filter_polls_transfer (p : List Call) (h : ∀ c ∈ p, Call.isPoll c = true) :
    p.filter Call.isTransfer = [] := by
  rw [List.filter_eq_nil_iff]
  intro c hc
  have := h c hc
  cases c with
  | op o => exact Bool.false_ne_true
  | reset _ _ _ _ _ => simp [Call.isPoll] at this
  | sendIndexData _ _ => simp [Call.isPoll] at this
  | sendIndexDataMaster _ _ => simp [Call.isPoll] at this
  | sendIndexDataSlave _ _ => simp [Call.isPoll] at this

theorem sendArr_one (i v : Nat) : sendArr i [v] 1 = .sendIndexData i [v] := rfl

/-- The transfers of a completed refresh of the small group, call by call. -/
theorem flushGlobal_small_calls (k : Constants) (_pin : Pins) (busy : Nat → Bool)
    (s : Screen)
    (hm : ¬ (s._codeSize = 0x56 ∨ s._codeSize = 0x58 ∨ s._codeSize = 0x74))
    (hl : ¬ (s._codeSize = 0x96 ∨ s._codeSize = 0xB9)) :
    (∀ fuel w w', _flushGlobal k _pin busy fuel s w = some w' →
      ∃ new, w'.calls = w.calls ++ new ∧
        new.filter Call.isTransfer =
          [.sendIndexData 0x00 [0x0e],
           .sendIndexData 0xe5 [toUInt8 s._temperature],
           .sendIndexData 0xe0 [0x02],
           .sendIndexData 0x10 (bytes s._newImage s._frameSize),
           .sendIndexData 0x13 (bytes (ptrAdd s._newImage s._pageColourSize) s._frameSize),
           .sendIndexData 0x04 [0x00],
           .sendIndexData 0x12 [0x00],
           .sendIndexData 0x02 [0x00]] ∧
        new.filter (Call.isFrameOf [0x51, 0x09]) = []) ∧
    (EventuallyHigh busy → ∀ w, ∃ fuel w', _flushGlobal k _pin busy fuel s w = some w') := by
  constructor
  · intro fuel w w' hr
    obtain ⟨p1, p2, p3, hp, hcalls⟩ := flushGlobal_calls_small k _pin busy fuel s w w' hm hl hr
    refine ⟨_, hcalls, ?_, ?_⟩
    · have q1 := filter_polls_transfer p1 (fun c hc => hp c (by simp [hc]))
      have q2 := filter_polls_transfer p2 (fun c hc => hp c (by simp [hc]))
      have q3 := filter_polls_transfer p3 (fun c hc => hp c (by simp [hc]))
      simp only [flushSmallImage, List.filter_append, q1, q2, q3, List.filter_cons,
        List.filter_nil, isTransfer_sendArr, isTransfer_send, isTransfer_callDelay,
        isTransfer_reset, isTransfer_op, reduceIte, List.nil_append, List.append_nil,
        List.cons_append, Bool.false_eq_true, sendArr_one]
    · have q1 := filter_polls [0x51, 0x09] p1 (fun c hc => hp c (by simp [hc]))
      have q2 := filter_polls [0x51, 0x09] p2 (fun c hc => hp c (by simp [hc]))
      have q3 := filter_polls [0x51, 0x09] p3 (fun c hc => hp c (by simp [hc]))
      simp only [flushSmallImage, List.filter_append, q1, q2, q3, List.filter_cons,
        List.filter_nil, isFrameOf_sendArr, isFrameOf_send, isFrameOf_callDelay,
        isFrameOf_reset, isFrameOf_op, reduceIte, List.nil_append, List.append_nil,
        List.cons_append, Bool.false_eq_true, List.contains_cons, List.contains_nil,
        Nat.reduceBEq, Bool.or_false, Bool.or_true, Bool.false_or, Bool.true_or,
        List.elem_cons, List.elem_nil, List.contains, Nat.reduceEqDiff]
  · intro hb w
    obtain ⟨fuel0, w', hw⟩ := completes_flushGlobal k _pin busy hb s w
    exact ⟨fuel0, w', hw fuel0 (le_refl _)⟩

/-! ## Temperature compensation byte -/

theorem temperatureRange_bounds (n : Nat) :
    -25 ≤ (temperatureRange n).1 ∧ (temperatureRange n).2 ≤ 60 := by
  unfold temperatureRange
  simp only []
  split_ifs <;> constructor <;> decide

theorem checkTemperatureMode_global (k : Constants) (hk : k.Valid) (s : Screen) (m : Nat)
    (hg : checkTemperatureMode k s m = k.UPDATE_GLOBAL) :
    -25 ≤ s._temperature ∧ s._temperature ≤ 60 := by
  rw [checkTemperatureMode_eq] at hg
  obtain ⟨b1, b2⟩ := temperatureRange_bounds s._codeExtra
  by_cases hc : (temperatureRange s._codeExtra).1 ≤ s._temperature ∧
      s._temperature ≤ (temperatureRange s._codeExtra).2
  · constructor <;> omega
  · rw [if_neg hc] at hg
    exact absurd hg hk.2.2

theorem flushMode_of_global (k : Constants) (_pin : Pins) (busy : Nat → Bool) (fuel : Nat)
    (s : Screen) (m : Nat) (w : Bus)
    (hg : checkTemperatureMode k s m = k.UPDATE_GLOBAL) :
    flushMode k _pin busy fuel s m w =
      (_flushGlobal k _pin busy fuel s w).map fun w' => (k.UPDATE_GLOBAL, s, w') := by
  unfold flushMode
  simp only [hg, or_true, if_true]

theorem sendArrMaster_one (i v : Nat) :
    sendArrMaster i [v] 1 = .sendIndexDataMaster i [v] := rfl

theorem sendArrSlave_one (i v : Nat) :
    sendArrSlave i [v] 1 = .sendIndexDataSlave i [v] := rfl

theorem flushMedium_0x45 (s : Screen)
    (hm : s._codeSize = 0x56 ∨ s._codeSize = 0x58 ∨ s._codeSize = 0x74) :
    (flushMediumImage s ++ flushMediumCOG s).filter (Call.isFrameOf [0x45]) =
      [.sendIndexData 0x45 [0x80],
       .sendIndexData 0x45 [toUInt8 (s._temperature * 2 + 0x50)]] := by
  rcases hm with h | h | h <;> by_cases ht : s._codeType = 0x0B <;>
    simp only [flushMediumImage, flushMediumCOG, h, ht, reduceIte, List.filter_append,
      List.filter_cons, List.filter_nil,
      isFrameOf_sendArr, isFrameOf_callDelay, isFrameOf_reset, isFrameOf_send,
      Nat.reduceEqDiff, List.nil_append, List.append_nil,
      List.contains_cons, List.contains_nil, Nat.reduceBEq, Bool.or_false, Bool.or_true,
      Bool.false_or, Bool.true_or, Bool.false_eq_true, List.cons_append, List.elem_cons,
      List.elem_nil, List.contains, beq_self_eq_true, sendArr_one]

theorem flushLarge_0x45 (s : Screen) (hl : s._codeSize = 0x96 ∨ s._codeSize = 0xB9) :
    (flushLargeImage s ++ flushLargeCOG s).filter (Call.isFrameOf [0x45]) =
      [.sendIndexDataMaster 0x45 [0x80],
       .sendIndexDataMaster 0x45 [toUInt8 (s._temperature * 2 + 0x50)],
       .sendIndexDataSlave 0x45 [0x80],
       .sendIndexDataSlave 0x45 [toUInt8 (s._temperature * 2 + 0x50)]] := by
  rcases hl with h | h <;> by_cases ht : s._codeType = 0x0B <;>
    simp only [flushLargeImage, flushLargeCOG, h, ht, reduceIte, List.filter_append,
      List.filter_cons, List.filter_nil,
      isFrameOf_sendArr, isFrameOf_sendArrMaster, isFrameOf_sendArrSlave,
      isFrameOf_callDelay, isFrameOf_reset, isFrameOf_sendMaster, isFrameOf_sendSlave,
      Nat.reduceEqDiff, List.nil_append, List.append_nil,
      List.contains_cons, List.contains_nil, Nat.reduceBEq, Bool.or_false, Bool.or_true,
      Bool.false_or, Bool.true_or, Bool.false_eq_true, List.cons_append, List.elem_cons,
      List.elem_nil, List.contains, beq_self_eq_true, sendArrMaster_one, sendArrSlave_one]

theorem softStart_0x45 :
    softStart565.filter (Call.isFrameOf [0x45]) = [] ∧
      softStart970.filter (Call.isFrameOf [0x45]) = [] := by
  constructor <;> decide

theorem toUInt8_of_byte (v : Int) (h0 : 0 ≤ v) (h1 : v ≤ 255) : (toUInt8 v : Int) = v := by
  unfold toUInt8
  rw [Int.emod_eq_of_lt h0 (by omega), Int.toNat_of_nonneg h0]

theorem flushGlobal_0x45_medium (k : Constants) (_pin : Pins) (busy : Nat → Bool)
    (fuel : Nat) (s : Screen) (w w' : Bus)
    (hm : s._codeSize = 0x56 ∨ s._codeSize = 0x58 ∨ s._codeSize = 0x74)
    (hr : _flushGlobal k _pin busy fuel s w = some w') :
    ∃ new, w'.calls = w.calls ++ new ∧
      new.filter (Call.isFrameOf [0x45]) =
        [.sendIndexData 0x45 [0x80],
         .sendIndexData 0x45 [toUInt8 (s._temperature * 2 + 0x50)]] := by
  obtain ⟨p1, p2, p3, hp, hcalls⟩ := flushGlobal_calls_medium k _pin busy fuel s w w' hm hr
  refine ⟨_, hcalls, ?_⟩
  have q1 := filter_polls [0x45] p1 (fun c hc => hp c (by simp [hc]))
  have q2 := filter_polls [0x45] p2 (fun c hc => hp c (by simp [hc]))
  have q3 := filter_polls [0x45] p3 (fun c hc => hp c (by simp [hc]))
  simp only [List.filter_append, flushMedium_0x45 s hm, softStart_0x45.1, q1, q2, q3,
    List.filter_cons, List.filter_nil, isFrameOf_sendArr, isFrameOf_callDelay,
    isFrameOf_op, reduceIte, List.nil_append, List.append_nil, List.cons_append,
    Bool.false_eq_true, List.contains_cons, List.contains_nil, Nat.reduceBEq,
    Bool.or_false, Bool.or_true, Bool.false_or, Bool.true_or, List.elem_cons,
    List.elem_nil, List.contains, Nat.reduceEqDiff]

theorem flushGlobal_0x45_large (k : Constants) (_pin : Pins) (busy : Nat → Bool)
    (fuel : Nat) (s : Screen) (w w' : Bus)
    (hl : s._codeSize = 0x96 ∨ s._codeSize = 0xB9)
    (hr : _flushGlobal k _pin busy fuel s w = some w') :
    ∃ new, w'.calls = w.calls ++ new ∧
      new.filter (Call.isFrameOf [0x45]) =
        [.sendIndexDataMaster 0x45 [0x80],
         .sendIndexDataMaster 0x45 [toUInt8 (s._temperature * 2 + 0x50)],
         .sendIndexDataSlave 0x45 [0x80],
         .sendIndexDataSlave 0x45 [toUInt8 (s._temperature * 2 + 0x50)]] := by
  obtain ⟨p1, p2, p3, hp, hcalls⟩ := flushGlobal_calls_large k _pin busy fuel s w w' hl hr
  refine ⟨_, hcalls, ?_⟩
  have q1 := filter_polls [0x45] p1 (fun c hc => hp c (by simp [hc]))
  have q2 := filter_polls [0x45] p2 (fun c hc => hp c (by simp [hc]))
  have q3 := filter_polls [0x45] p3 (fun c hc => hp c (by simp [hc]))
  have e1 : (if _pin.panelCSS ≠ k.NOT_CONNECTED then
      [Call.op (.digitalWrite _pin.panelCSS LOW)] else []).filter
        (Call.isFrameOf [0x45]) = [] := by
    split_ifs <;> rfl
  have e2 : (if _pin.panelCSS ≠ k.NOT_CONNECTED then
      [Call.op (.digitalWrite _pin.panelCSS HIGH)] else []).filter
        (Call.isFrameOf [0x45]) = [] := by
    split_ifs <;> rfl
  simp only [List.filter_append, flushLarge_0x45 s hl, softStart_0x45.2, q1, q2, q3, e1, e2,
    List.filter_cons, List.filter_nil, isFrameOf_sendArr, isFrameOf_callDelay,
    isFrameOf_op, reduceIte, List.nil_append, List.append_nil, List.cons_append,
    Bool.false_eq_true, List.contains_cons, List.contains_nil, Nat.reduceBEq,
    Bool.or_false, Bool.or_true, Bool.false_or, Bool.true_or, List.elem_cons,
    List.elem_nil, List.contains, Nat.reduceEqDiff]

/-- The range of the compensation byte and the calls to register 0x45 in a refresh that
the policy permits. -/
theorem flushMode_temperature_calls (k : Constants) (hk : k.Valid) (_pin : Pins)
    (busy : Nat → Bool) (s : Screen) (m : Nat)
    (hg : checkTemperatureMode k s m = k.UPDATE_GLOBAL) :
    (0 ≤ s._temperature * 2 + 0x50 ∧ s._temperature * 2 + 0x50 ≤ 255 ∧
      (toUInt8 (s._temperature * 2 + 0x50) : Int) = s._temperature * 2 + 0x50) ∧
    (s._codeSize = 0x56 ∨ s._codeSize = 0x58 ∨ s._codeSize = 0x74 →
      ∀ fuel w r, flushMode k _pin busy fuel s m w = some r →
        ∃ new, r.2.2.calls = w.calls ++ new ∧
          new.filter (Call.isFrameOf [0x45]) =
            [.sendIndexData 0x45 [0x80],
             .sendIndexData 0x45 [toUInt8 (s._temperature * 2 + 0x50)]]) ∧
    (s._codeSize = 0x96 ∨ s._codeSize = 0xB9 →
      ∀ fuel w r, flushMode k _pin busy fuel s m w = some r →
        ∃ new, r.2.2.calls = w.calls ++ new ∧
          new.filter (Call.isFrameOf [0x45]) =
            [.sendIndexDataMaster 0x45 [0x80],
             .sendIndexDataMaster 0x45 [toUInt8 (s._temperature * 2 + 0x50)],
             .sendIndexDataSlave 0x45 [0x80],
             .sendIndexDataSlave 0x45 [toUInt8 (s._temperature * 2 + 0x50)]]) ∧
    (s._temperature = 0 → toUInt8 (s._temperature * 2 + 0x50) = 0x50) ∧
    (s._temperature = 25 → toUInt8 (s._temperature * 2 + 0x50) = 0x82) ∧
    (EventuallyHigh busy → ∀ w, ∃ fuel r,
      flushMode k _pin busy fuel s m w = some r ∧ r.1 = k.UPDATE_GLOBAL) := by
  obtain ⟨t1, t2⟩ := checkTemperatureMode_global k hk s m hg
  have hrun : ∀ fuel w r, flushMode k _pin busy fuel s m w = some r →
      _flushGlobal k _pin busy fuel s w = some r.2.2 := by
    intro fuel w r hr
    rw [flushMode_of_global k _pin busy fuel s m w hg] at hr
    cases hf : _flushGlobal k _pin busy fuel s w with
    | none => rw [hf] at hr; exact absurd hr (by simp)
    | some w' =>
      rw [hf] at hr
      simp only [Option.map_some', Option.some.injEq] at hr
      rw [← hr]
  refine ⟨⟨by omega, by omega, toUInt8_of_byte _ (by omega) (by omega)⟩, ?_, ?_, ?_, ?_, ?_⟩
  · intro hm fuel w r hr
    exact flushGlobal_0x45_medium k _pin busy fuel s w r.2.2 hm (hrun fuel w r hr)
  · intro hl fuel w r hr
    exact flushGlobal_0x45_large k _pin busy fuel s w r.2.2 hl (hrun fuel w r hr)
  · intro h0
    rw [h0]
    rfl
  · intro h25
    rw [h25]
    rfl
  · intro hb w
    obtain ⟨fuel0, w', hw⟩ := completes_flushGlobal k _pin busy hb s w
    have hw0 : _flushGlobal k _pin busy fuel0 s w = some w' := hw fuel0 (le_refl _)
    refine ⟨fuel0, (k.UPDATE_GLOBAL, s, w'), ?_, rfl⟩
    rw [flushMode_of_global k _pin busy fuel0 s m w hg, hw0]
    rfl

/-! ## Regeneration -/

theorem flushGlobal_documentedFrames (k : Constants) (_pin : Pins) (busy : Nat → Bool)
    (fuel : Nat) (s : Screen) (w w' : Bus)
    (hr : _flushGlobal k _pin busy fuel s w = some w') :
    ∃ new, w'.calls = w.calls ++ new ∧ imageFrames s new = documentedFrames s := by
  by_cases hm : s._codeSize = 0x56 ∨ s._codeSize = 0x58 ∨ s._codeSize = 0x74
  · have hl : ¬ (s._codeSize = 0x96 ∨ s._codeSize = 0xB9) := by
      rcases hm with e | e | e <;> rw [e] <;> decide
    obtain ⟨p1, p2, p3, hp, hc⟩ := flushGlobal_calls_medium k _pin busy fuel s w w' hm hr
    have hi : imageIndices s = [0x10, 0x11] := by
      unfold imageIndices
      rw [if_pos (by tauto)]
    have q1 : ∀ c ∈ p1, Call.isPoll c = true := fun c hc => hp c (by simp [hc])
    have q2 : ∀ c ∈ p2, Call.isPoll c = true := fun c hc => hp c (by simp [hc])
    have q3 : ∀ c ∈ p3, Call.isPoll c = true := fun c hc => hp c (by simp [hc])
    obtain ⟨m1, -⟩ := flushMedium_frames s hm
    refine ⟨_, hc, ?_⟩
    unfold imageFrames documentedFrames
    rw [hi, if_neg hl, if_pos hm]
    simp only [List.filter_append, m1, softStart565_frames.1, filter_polls _ _ q1,
      filter_polls _ _ q2, filter_polls _ _ q3, List.filter_cons, List.filter_nil,
      isFrameOf_sendArr, isFrameOf_callDelay, isFrameOf_op, List.contains_cons,
      List.contains_nil, Nat.reduceBEq, Bool.or_false, Bool.false_eq_true, reduceIte,
      List.append_nil, List.elem_cons, List.elem_nil, List.contains]
  · by_cases hl : s._codeSize = 0x96 ∨ s._codeSize = 0xB9
    · obtain ⟨p1, p2, p3, hp, hc⟩ := flushGlobal_calls_large k _pin busy fuel s w w' hl hr
      have hi : imageIndices s = [0x10, 0x11] := by
        unfold imageIndices
        rw [if_pos (by tauto)]
      have q1 : ∀ c ∈ p1, Call.isPoll c = true := fun c hc => hp c (by simp [hc])
      have q2 : ∀ c ∈ p2, Call.isPoll c = true := fun c hc => hp c (by simp [hc])
      have q3 : ∀ c ∈ p3, Call.isPoll c = true := fun c hc => hp c (by simp [hc])
      obtain ⟨m1, -⟩ := flushLarge_frames s hl
      have e1 : (if _pin.panelCSS ≠ k.NOT_CONNECTED then
          [Call.op (.digitalWrite _pin.panelCSS LOW)] else []).filter
            (Call.isFrameOf [0x10, 0x11]) = [] := by
        split_ifs <;> rfl
      have e2 : (if _pin.panelCSS ≠ k.NOT_CONNECTED then
          [Call.op (.digitalWrite _pin.panelCSS HIGH)] else []).filter
            (Call.isFrameOf [0x10, 0x11]) = [] := by
        split_ifs <;> rfl
      refine ⟨_, hc, ?_⟩
      unfold imageFrames documentedFrames
      rw [hi, if_pos hl]
      simp only [List.filter_append, m1, softStart970_frames.1, filter_polls _ _ q1,
        filter_polls _ _ q2, filter_polls _ _ q3, e1, e2, List.filter_cons, List.filter_nil,
        isFrameOf_sendArr, isFrameOf_callDelay, isFrameOf_op, List.contains_cons,
        List.contains_nil, Nat.reduceBEq, Bool.or_false, Bool.false_eq_true, reduceIte,
        List.append_nil, List.elem_cons, List.elem_nil, List.contains]
    · obtain ⟨p1, p2, p3, hp, hc⟩ := flushGlobal_calls_small k _pin busy fuel s w w' hm hl hr
      have hi : imageIndices s = [0x10, 0x13] := by
        unfold imageIndices
        rw [if_neg (by tauto)]
      have q1 : ∀ c ∈ p1, Call.isPoll c = true := fun c hc => hp c (by simp [hc])
      have q2 : ∀ c ∈ p2, Call.isPoll c = true := fun c hc => hp c (by simp [hc])
      have q3 : ∀ c ∈ p3, Call.isPoll c = true := fun c hc => hp c (by simp [hc])
      obtain ⟨m1, -⟩ := flushSmall_frames s
      refine ⟨_, hc, ?_⟩
      unfold imageFrames documentedFrames
      rw [hi, if_neg hl, if_neg hm]
      simp only [List.filter_append, m1, filter_polls _ _ q1,
        filter_polls _ _ q2, filter_polls _ _ q3, List.filter_cons, List.filter_nil,
        isFrameOf_sendArr, isFrameOf_callDelay, isFrameOf_op, List.contains_cons,
        List.contains_nil, Nat.reduceBEq, Bool.or_false, Bool.false_eq_true, reduceIte,
        List.append_nil, List.elem_cons, List.elem_nil, List.contains]

theorem clear_white_eq (c : Colours) (hc : c.Distinct) (s : Screen) :
    clear c s c.white =
      { s with _newImage :=
          memset (memset s._newImage 0 (if s._invert = true then 0xff else 0x00)
            s._pageColourSize) s._pageColourSize 0x00 s._pageColourSize } := by
  obtain ⟨h1, h2, h3, h4, h5, h6, h7, h8, h9, h10, h11, h12, h13, h14, h15⟩ :=
    distinct_ne c hc
  unfold clear
  rw [if_neg h7, if_neg h6, if_neg h9, if_neg h8]
  cases hi : s._invert <;> simp

theorem clear_black_eq (c : Colours) (hc : c.Distinct) (s : Screen) :
    clear c s c.black =
      { s with _newImage :=
          memset (memset s._newImage 0 (if s._invert = true then 0x00 else 0xff)
            s._pageColourSize) s._pageColourSize 0x00 s._pageColourSize } := by
  obtain ⟨h1, h2, h3, h4, h5, h6, h7, h8, h9, h10, h11, h12, h13, h14, h15⟩ :=
    distinct_ne c hc
  unfold clear
  rw [if_neg h3, if_neg h2, if_neg h5, if_neg h4]
  cases hi : s._invert <;> simp [h1]

theorem memset_memset_planes (img img2 : Nat → Nat) (p v : Nat)
    (h : ∀ k, p + p ≤ k → img2 k = img k) :
    memset (memset img2 0 v p) p 0x00 p = memset (memset img 0 v p) p 0x00 p := by
  funext k
  unfold memset
  by_cases h1 : p ≤ k ∧ k < p + p
  · rw [if_pos h1, if_pos h1]
  · rw [if_neg h1, if_neg h1]
    by_cases h2 : 0 ≤ k ∧ k < 0 + p
    · rw [if_pos h2, if_pos h2]
    · rw [if_neg h2, if_neg h2]
      apply h
      omega

theorem clear_clear_white (c : Colours) (hc : c.Distinct) (s : Screen) :
    clear c (clear c s c.black) c.white = clear c s c.white := by
  rw [clear_white_eq c hc (clear c s c.black), clear_white_eq c hc s, clear_black_eq c hc s]
  simp only []
  congr 1
  apply memset_memset_planes
  intro k hk
  rw [memset_outside _ _ _ _ _ (by omega), memset_outside _ _ _ _ _ (by omega)]

theorem checkTemperatureMode_clear (c : Colours) (k : Constants) (s : Screen)
    (colour m : Nat) :
    checkTemperatureMode k (clear c s colour) m = checkTemperatureMode k s m := by
  obtain ⟨-, -, -, ht, he, -⟩ := clear_fields c s colour
  rw [checkTemperatureMode_eq, checkTemperatureMode_eq, ht, he]

theorem imageFrames_clear (c : Colours) (s : Screen) (colour : Nat) (l : List Call) :
    imageFrames (clear c s colour) l = imageFrames s l := by
  have g := (clear_fields c s colour).1
  simp only [geometry, List.cons.injEq, and_true] at g
  unfold imageFrames imageIndices
  rw [g.1]

theorem flush_of_global (k : Constants) (_pin : Pins) (busy : Nat → Bool) (fuel : Nat)
    (s : Screen) (w : Bus)
    (hg : checkTemperatureMode k s k.UPDATE_GLOBAL = k.UPDATE_GLOBAL) :
    flush k _pin busy fuel s w =
      (_flushGlobal k _pin busy fuel s w).map fun w' => (s, w') := by
  unfold flush
  rw [flushMode_of_global k _pin busy fuel s _ w hg]
  cases _flushGlobal k _pin busy fuel s w <;> rfl

theorem flush_of_none (k : Constants) (hk : k.Valid) (_pin : Pins) (busy : Nat → Bool)
    (fuel : Nat) (s : Screen) (w : Bus)
    (hn : checkTemperatureMode k s k.UPDATE_GLOBAL = k.UPDATE_NONE) :
    flush k _pin busy fuel s w = some (s, w.emit [.op .println]) := by
  obtain ⟨h1, h2, h3⟩ := hk
  unfold flush flushMode
  simp only [hn]
  rw [if_neg (by
    intro h
    rcases h with h | h | h
    · exact h1 h
    · exact h2 h
    · exact h3 h)]
  rfl

theorem emit_emit (w : Bus) (a b : List Call) : (w.emit a).emit b = w.emit (a ++ b) := by
  unfold Bus.emit
  simp only [List.append_assoc]

theorem regenerate_of_global (c : Colours) (hc : c.Distinct) (k : Constants) (_pin : Pins)
    (busy : Nat → Bool) (fuel : Nat) (s : Screen) (w : Bus)
    (hg : checkTemperatureMode k s k.UPDATE_GLOBAL = k.UPDATE_GLOBAL) :
    regenerate c k _pin busy fuel s w =
      (_flushGlobal k _pin busy fuel (clear c s c.black) w).bind fun w1 =>
        (_flushGlobal k _pin busy fuel (clear c s c.white)
          (w1.emit [.op (.delay 100)])).map fun w2 => (clear c s c.white, w2) := by
  have g1 : checkTemperatureMode k (clear c s c.black) k.UPDATE_GLOBAL = k.UPDATE_GLOBAL := by
    rw [checkTemperatureMode_clear]; exact hg
  have g2 : checkTemperatureMode k (clear c s c.white) k.UPDATE_GLOBAL = k.UPDATE_GLOBAL := by
    rw [checkTemperatureMode_clear]; exact hg
  unfold regenerate
  simp only []
  rw [flush_of_global k _pin busy fuel _ w g1]
  cases _flushGlobal k _pin busy fuel (clear c s c.black) w with
  | none => rfl
  | some w1 =>
    simp only [Option.map_some', Option.some_bind]
    rw [clear_clear_white c hc s, flush_of_global k _pin busy fuel _ _ g2]

theorem regenerate_of_none (c : Colours) (hc : c.Distinct) (k : Constants) (hk : k.Valid)
    (_pin : Pins) (busy : Nat → Bool) (fuel : Nat) (s : Screen) (w : Bus)
    (hn : checkTemperatureMode k s k.UPDATE_GLOBAL = k.UPDATE_NONE) :
    regenerate c k _pin busy fuel s w =
      some (clear c s c.white,
        w.emit [.op .println, .op (.delay 100), .op .println]) := by
  have n1 : checkTemperatureMode k (clear c s c.black) k.UPDATE_GLOBAL = k.UPDATE_NONE := by
    rw [checkTemperatureMode_clear]; exact hn
  have n2 : checkTemperatureMode k (clear c s c.white) k.UPDATE_GLOBAL = k.UPDATE_NONE := by
    rw [checkTemperatureMode_clear]; exact hn
  unfold regenerate
  simp only []
  rw [flush_of_none k hk _pin busy fuel _ w n1]
  simp only [Option.some_bind]
  rw [clear_clear_white c hc s, flush_of_none k hk _pin busy fuel _ _ n2, emit_emit,
    emit_emit]
  rfl

/-- C22 (as amended): `regenerate()` forces a black-then-white cycle. From every driver
state whose temperature the policy permits it runs exactly two refresh sequences, the first
transmitting the buffer produced by `clear(black)` and the second, after `delay(100)`, the
buffer produced by `clear(white)`; from a state whose temperature the policy rejects it
runs no refresh sequence (its only calls are the two diagnostic lines and the delay). In
both cases it ends with the frame buffer equal to the one `clear(white)` produces. -/
theorem regenerate_cycle (c : Colours) (hc : c.Distinct) (k : Constants) (hk : k.Valid)
    (_pin : Pins) (busy : Nat → Bool) (s : Screen) (w : Bus) :
    (checkTemperatureMode k s k.UPDATE_GLOBAL = k.UPDATE_GLOBAL →
      (∀ fuel, regenerate c k _pin busy fuel s w =
        (_flushGlobal k _pin busy fuel (clear c s c.black) w).bind fun w1 =>
          (_flushGlobal k _pin busy fuel (clear c s c.white)
            (w1.emit [.op (.delay 100)])).map fun w2 => (clear c s c.white, w2)) ∧
      (∀ fuel r, regenerate c k _pin busy fuel s w = some r →
        r.1 = clear c s c.white ∧
        ∃ new1 new2, r.2.calls = w.calls ++ (new1 ++ [.op (.delay 100)] ++ new2) ∧
          imageFrames s new1 = documentedFrames (clear c s c.black) ∧
          imageFrames s new2 = documentedFrames (clear c s c.white) ∧
          imageFrames s (new1 ++ [.op (.delay 100)] ++ new2) =
            documentedFrames (clear c s c.black) ++
              documentedFrames (clear c s c.white)) ∧
      (EventuallyHigh busy → ∃ fuel r, regenerate c k _pin busy fuel s w = some r)) ∧
    (checkTemperatureMode k s k.UPDATE_GLOBAL = k.UPDATE_NONE →
      ∀ fuel, regenerate c k _pin busy fuel s w =
        some (clear c s c.white,
          w.emit [.op .println, .op (.delay 100), .op .println])) ∧
    (checkTemperatureMode k s k.UPDATE_GLOBAL = k.UPDATE_GLOBAL ∨
      checkTemperatureMode k s k.UPDATE_GLOBAL = k.UPDATE_NONE) := by
  refine ⟨fun hg => ⟨fun fuel => regenerate_of_global c hc k _pin busy fuel s w hg, ?_, ?_⟩,
    fun hn fuel => regenerate_of_none c hc k hk _pin busy fuel s w hn, ?_⟩
  · intro fuel r hr
    rw [regenerate_of_global c hc k _pin busy fuel s w hg] at hr
    cases h1 : _flushGlobal k _pin busy fuel (clear c s c.black) w with
    | none => rw [h1] at hr; exact absurd hr (by simp)
    | some w1 =>
      rw [h1] at hr
      simp only [Option.some_bind] at hr
      cases h2 : _flushGlobal k _pin busy fuel (clear c s c.white)
          (w1.emit [.op (.delay 100)]) with
      | none => rw [h2] at hr; exact absurd hr (by simp)
      | some w2 =>
        rw [h2] at hr
        simp only [Option.map_some', Option.some.injEq] at hr
        obtain ⟨new1, c1, f1⟩ := flushGlobal_documentedFrames k _pin busy fuel _ w w1 h1
        obtain ⟨new2, c2, f2⟩ := flushGlobal_documentedFrames k _pin busy fuel _ _ w2 h2
        rw [imageFrames_clear] at f1 f2
        rw [← hr]
        refine ⟨rfl, new1, new2, ?_, f1, f2, ?_⟩
        · show w2.calls = _
          rw [c2, emit_calls, c1]
          simp only [List.append_assoc]
        · have hd : imageFrames s [Call.op (.delay 100)] = [] := rfl
          unfold imageFrames at f1 f2 hd ⊢
          rw [List.filter_append, List.filter_append, f1, f2, hd, List.append_nil]
  · intro hb
    obtain ⟨fa, w1, ha⟩ := completes_flushGlobal k _pin busy hb (clear c s c.black) w
    obtain ⟨fb, w2, hbb⟩ := completes_flushGlobal k _pin busy hb (clear c s c.white)
      (w1.emit [.op (.delay 100)])
    have e1 : _flushGlobal k _pin busy (max fa fb) (clear c s c.black) w = some w1 :=
      ha _ (le_max_left _ _)
    have e2 : _flushGlobal k _pin busy (max fa fb) (clear c s c.white)
        (w1.emit [.op (.delay 100)]) = some w2 := hbb _ (le_max_right _ _)
    refine ⟨max fa fb, (clear c s c.white, w2), ?_⟩
    rw [regenerate_of_global c hc k _pin busy _ s w hg, e1]
    simp only [Option.some_bind]
    rw [e2]
    rfl
  · rw [checkTemperatureMode_eq]
    split_ifs
    · exact Or.inl rfl
    · exact Or.inr rfl

/-- Witness for C22 (as amended): the 152 x 152 panel at 0 degrees Celsius with the busy
line always HIGH: the regeneration runs to its end. -/
theorem regenerate_cycle_witness :
    colours565.Distinct ∧ constants0.Valid ∧
      checkTemperatureMode constants0 screen154 constants0.UPDATE_GLOBAL =
        constants0.UPDATE_GLOBAL ∧
      EventuallyHigh (fun _ => true) ∧
      ∃ fuel r, regenerate colours565 constants0 pins0 (fun _ => true) fuel screen154
        ⟨[], 0⟩ = some r :=
  ⟨by decide, by decide, by decide, fun n => ⟨n, le_refl _, rfl⟩,
    ((regenerate_cycle colours565 (by decide) constants0 (by decide) pins0 (fun _ => true)
      screen154 ⟨[], 0⟩).1 (by decide)).2.2 (fun n => ⟨n, le_refl _, rfl⟩)⟩

/-- Counterexample for C22 as stated: on the 152 x 152 panel at -5 degrees Celsius (class
CS, range 0..50) `regenerate()` runs no refresh sequence: the calls it makes are the
diagnostic line, `delay(100)` and the diagnostic line again, with no reset and no
transfer. -/
theorem regenerate_no_refresh_when_cold :
    (regenerate colours565 constants0 pins0 (fun _ => true) 1
        (setTemperatureC screen154 (-5)) ⟨[], 0⟩).map (fun r => r.2.calls) =
      some [.op .println, .op (.delay 100), .op .println] ∧
    ((regenerate colours565 constants0 pins0 (fun _ => true) 1
        (setTemperatureC screen154 (-5)) ⟨[], 0⟩).map
      (fun r => imageFrames screen154 r.2.calls)) = some [] := by
  constructor <;> decide

/-! ## Whole-screen fill with a composite red against the per-pixel path -/

theorem bitRead_pattern (y : Nat) :
    bitRead (0b10101010 % 256) (7 - y % 8) = (if y % 2 = 0 then 1 else 0) ∧
    bitRead (0b01010101 % 256) (7 - y % 8) = (if y % 2 = 0 then 0 else 1) ∧
    bitRead (0b00000000 % 256) (7 - y % 8) = 0 := by
  have h2 : y % 2 = (y % 8) % 2 := by omega
  have h8 : y % 8 < 8 := Nat.mod_lt _ (by decide)
  rw [h2]
  generalize y % 8 = r at h8
  interval_cases r <;> decide

theorem getZ_single_row (s : Screen) (h : Configured s)
    (hs : ¬ (s._codeSize = 0x96 ∨ s._codeSize = 0xB9)) (x y : Nat)
    (hx : x < s._screenSizeV) (hy : y < s._screenSizeH) :
    _getZ s x y / s._bufferSizeH = x := by
  obtain ⟨hr, -, -⟩ := configured_row s h
  simp only [profileRows, List.mem_cons, List.mem_singleton, List.not_mem_nil, or_false,
    Prod.mk.injEq] at hr
  have b1 : x < 2 ^ 16 ∧ y < 2 ^ 16 := by
    rcases hr with ⟨-, c2, c3, -⟩ | ⟨-, c2, c3, -⟩ | ⟨-, c2, c3, -⟩ | ⟨-, c2, c3, -⟩ |
      ⟨-, c2, c3, -⟩ | ⟨-, c2, c3, -⟩ | ⟨-, c2, c3, -⟩ | ⟨-, c2, c3, -⟩ | ⟨-, c2, c3, -⟩ |
      ⟨-, c2, c3, -⟩ | ⟨-, c2, c3, -⟩ | ⟨-, c2, c3, -⟩ | ⟨-, c2, c3, -⟩ <;>
      · rw [c2] at hx
        rw [c3] at hy
        omega
  rw [getZ_nowrap s h x y b1.1 b1.2, if_neg hs]
  rcases hr with ⟨c1, c2, c3, c4, c5, -⟩ | ⟨c1, c2, c3, c4, c5, -⟩ | ⟨c1, c2, c3, c4, c5, -⟩ |
    ⟨c1, c2, c3, c4, c5, -⟩ | ⟨c1, c2, c3, c4, c5, -⟩ | ⟨c1, c2, c3, c4, c5, -⟩ |
    ⟨c1, c2, c3, c4, c5, -⟩ | ⟨c1, c2, c3, c4, c5, -⟩ | ⟨c1, c2, c3, c4, c5, -⟩ |
    ⟨c1, c2, c3, c4, c5, -⟩ | ⟨c1, c2, c3, c4, c5, -⟩ | ⟨c1, c2, c3, c4, c5, -⟩ |
    ⟨c1, c2, c3, c4, c5, -⟩ <;>
    · rw [c1] at hs
      rw [c2] at hx
      rw [c3] at hy
      first
      | (exfalso; omega)
      | (rw [c4]; omega)

theorem clear_darkRed_image (c : Colours) (hc : c.Distinct) (s : Screen) :
    (clear c s c.darkRed)._newImage =
      forLoop s._bufferSizeV (fun i img =>
        forLoop s._bufferSizeH (fun j img =>
          store (store img (i * s._bufferSizeH + j)
              (if i % 2 ≠ 0 then 0b10101010 else 0b01010101))
            (i * s._bufferSizeH + j + s._pageColourSize)
              (if i % 2 ≠ 0 then 0b01010101 else 0b10101010)) img) s._newImage := by
  obtain ⟨h1, h2, h3, h4, h5, h6, h7, h8, h9, h10, h11, h12, h13, h14, h15⟩ :=
    distinct_ne c hc
  unfold clear
  rw [if_neg h14.symm, if_neg h12.symm, if_pos rfl]

theorem clear_lightRed_image (c : Colours) (hc : c.Distinct) (s : Screen) :
    (clear c s c.lightRed)._newImage =
      forLoop s._bufferSizeV (fun i img =>
        forLoop s._bufferSizeH (fun j img =>
          store (store img (i * s._bufferSizeH + j)
              (if i % 2 ≠ 0 then 0b00000000 else 0b00000000))
            (i * s._bufferSizeH + j + s._pageColourSize)
              (if i % 2 ≠ 0 then 0b01010101 else 0b10101010)) img) s._newImage := by
  obtain ⟨h1, h2, h3, h4, h5, h6, h7, h8, h9, h10, h11, h12, h13, h14, h15⟩ :=
    distinct_ne c hc
  unfold clear
  rw [if_neg h13.symm, if_neg h11.symm, if_neg h15, if_pos rfl]

theorem clear_darkRed_planeBits (c : Colours) (hc : c.Distinct) (s : Screen)
    (h : Configured s) (hs : ¬ (s._codeSize = 0x96 ∨ s._codeSize = 0xB9)) (x y : Nat)
    (hx : x < s._screenSizeV) (hy : y < s._screenSizeH) :
    planeBits (clear c s c.darkRed) (_getZ s x y) y =
      if (x + y) % 2 = 0 then (0, 1) else (1, 0) := by
  have hz := getZ_lt_pageColourSize s h x y hx hy
  have hrow := getZ_single_row s h hs x y hx hy
  have q := clear_rows_cells s h (fun i => if i % 2 ≠ 0 then 0b10101010 else 0b01010101)
    (fun i => if i % 2 ≠ 0 then 0b01010101 else 0b10101010) (_getZ s x y) hz
  simp only [] at q
  obtain ⟨q1, q2⟩ := q
  obtain ⟨b1, b2, -⟩ := bitRead_pattern y
  unfold planeBits
  rw [clear_pageColourSize, clear_darkRed_image c hc s, q1, q2, hrow]
  rcases Nat.mod_two_eq_zero_or_one x with hx2 | hx2 <;>
    rcases Nat.mod_two_eq_zero_or_one y with hy2 | hy2
  · have e1 : ¬ (x % 2 ≠ 0) := by omega
    have e2 : (x + y) % 2 = 0 := by omega
    rw [if_neg e1, if_neg e1, b2, b1, if_pos hy2, if_pos hy2, if_pos e2]
  · have e1 : ¬ (x % 2 ≠ 0) := by omega
    have e2 : ¬ ((x + y) % 2 = 0) := by omega
    have e3 : ¬ (y % 2 = 0) := by omega
    rw [if_neg e1, if_neg e1, b2, b1, if_neg e3, if_neg e3, if_neg e2]
  · have e1 : x % 2 ≠ 0 := by omega
    have e2 : ¬ ((x + y) % 2 = 0) := by omega
    rw [if_pos e1, if_pos e1, b2, b1, if_pos hy2, if_pos hy2, if_neg e2]
  · have e1 : x % 2 ≠ 0 := by omega
    have e2 : (x + y) % 2 = 0 := by omega
    have e3 : ¬ (y % 2 = 0) := by omega
    rw [if_pos e1, if_pos e1, b2, b1, if_neg e3, if_neg e3, if_pos e2]

theorem clear_lightRed_planeBits (c : Colours) (hc : c.Distinct) (s : Screen)
    (h : Configured s) (hs : ¬ (s._codeSize = 0x96 ∨ s._codeSize = 0xB9)) (x y : Nat)
    (hx : x < s._screenSizeV) (hy : y < s._screenSizeH) :
    planeBits (clear c s c.lightRed) (_getZ s x y) y =
      if (x + y) % 2 = 0 then (0, 1) else (0, 0) := by
  have hz := getZ_lt_pageColourSize s h x y hx hy
  have hrow := getZ_single_row s h hs x y hx hy
  have q := clear_rows_cells s h (fun i => if i % 2 ≠ 0 then 0b00000000 else 0b00000000)
    (fun i => if i % 2 ≠ 0 then 0b01010101 else 0b10101010) (_getZ s x y) hz
  simp only [] at q
  obtain ⟨q1, q2⟩ := q
  obtain ⟨b1, b2, b3⟩ := bitRead_pattern y
  unfold planeBits
  rw [clear_pageColourSize, clear_lightRed_image c hc s, q1, q2, hrow, ite_self, b3]
  rcases Nat.mod_two_eq_zero_or_one x with hx2 | hx2 <;>
    rcases Nat.mod_two_eq_zero_or_one y with hy2 | hy2
  · have e1 : ¬ (x % 2 ≠ 0) := by omega
    have e2 : (x + y) % 2 = 0 := by omega
    rw [if_neg e1, b1, if_pos hy2, if_pos e2]
  · have e1 : ¬ (x % 2 ≠ 0) := by omega
    have e2 : ¬ ((x + y) % 2 = 0) := by omega
    have e3 : ¬ (y % 2 = 0) := by omega
    rw [if_neg e1, b1, if_neg e3, if_neg e2]
  · have e1 : x % 2 ≠ 0 := by omega
    have e2 : ¬ ((x + y) % 2 = 0) := by omega
    rw [if_pos e1, b2, if_pos hy2, if_neg e2]
  · have e1 : x % 2 ≠ 0 := by omega
    have e2 : (x + y) % 2 = 0 := by omega
    have e3 : ¬ (y % 2 = 0) := by omega
    rw [if_pos e1, b2, if_neg e3, if_pos e2]

theorem setPoint_darkRed_planeBits (c : Colours) (hc : c.Distinct) (s : Screen)
    (h : Configured s) (u v x y : Nat)
    (hin : _orientCoordinates s u v = (false, x, y)) :
    planeBits (_setPoint c s u v c.darkRed) (_getZ s x y) y =
      if (x + y) % 2 = 0 then (0, 1) else (1, 0) := by
  obtain ⟨h1, h2, h3, h4, h5, h6, h7, h8, h9, h10, h11, h12, h13, h14, h15⟩ :=
    distinct_ne c hc
  rw [setPoint_planeBits c s h u v x y _ hin]
  by_cases hp : (x + y) % 2 = 0 <;> cases hi : s._invert <;>
    simp [ditherColour, hp, hi, h3, h7, h1, h1.symm]

theorem setPoint_lightRed_planeBits (c : Colours) (hc : c.Distinct) (s : Screen)
    (h : Configured s) (u v x y : Nat)
    (hin : _orientCoordinates s u v = (false, x, y)) :
    planeBits (_setPoint c s u v c.lightRed) (_getZ s x y) y =
      if (x + y) % 2 = 0 then (0, 1) else (0, 0) := by
  obtain ⟨h1, h2, h3, h4, h5, h6, h7, h8, h9, h10, h11, h12, h13, h14, h15⟩ :=
    distinct_ne c hc
  rw [setPoint_planeBits c s h u v x y _ hin]
  by_cases hp : (x + y) % 2 = 0 <;> cases hi : s._invert <;>
    simp [ditherColour, hp, hi, h15, h3, h7, h1, h1.symm]

theorem orientCoordinates_orientInverse (s : Screen) (x y : Nat)
    (hx : x < s._screenSizeV) (hy : y < s._screenSizeH) :
    _orientCoordinates s (orientInverse s x y).1 (orientInverse s x y).2 = (false, x, y) := by
  unfold _orientCoordinates orientInverse
  split_ifs <;> simp only [Prod.mk.injEq] <;>
    first
      | omega
      | (simp; omega)

/-- C31: on single-controller panels (every documented size code except 0x96 and 0xB9),
for darkRed and lightRed and under either invert setting, after `clear(c)` the two plane
bits of every in-range native pixel (x, y) equal the bits `point` writes for c at that
pixel, whatever the buffer held before the write: (0, 1) (red) when x + y is even, and
otherwise (1, 0) for darkRed and (0, 0) for lightRed. Every in-range native pixel is the
target of `point` at the logical coordinate that `orientInverse` names. -/
theorem clear_composite_matches_point (c : Colours) (hc : c.Distinct) (s : Screen)
    (h : Configured s) (hs : ¬ (s._codeSize = 0x96 ∨ s._codeSize = 0xB9)) (x y : Nat)
    (hx : x < s._screenSizeV) (hy : y < s._screenSizeH) :
    planeBits (clear c s c.darkRed) (_getZ s x y) y =
      (if (x + y) % 2 = 0 then (0, 1) else (1, 0)) ∧
    planeBits (clear c s c.lightRed) (_getZ s x y) y =
      (if (x + y) % 2 = 0 then (0, 1) else (0, 0)) ∧
    (∀ t u v, SameProfile s t → _orientCoordinates s u v = (false, x, y) →
      planeBits (point c t u v c.darkRed) (_getZ s x y) y =
        planeBits (clear c s c.darkRed) (_getZ s x y) y ∧
      planeBits (point c t u v c.lightRed) (_getZ s x y) y =
        planeBits (clear c s c.lightRed) (_getZ s x y) y) ∧
    _orientCoordinates s (orientInverse s x y).1 (orientInverse s x y).2 =
      (false, x, y) := by
  have d := clear_darkRed_planeBits c hc s h hs x y hx hy
  have l := clear_lightRed_planeBits c hc s h hs x y hx hy
  refine ⟨d, l, ?_, orientCoordinates_orientInverse s x y hx hy⟩
  intro t u v hp hin
  have ht := configured_congr s t hp h
  obtain ⟨-, hg, ho, -⟩ := hp
  have hin2 : _orientCoordinates t u v = (false, x, y) := by
    rw [orientCoordinates_congr s t u v ho hg]; exact hin
  have hz : _getZ t x y = _getZ s x y := getZ_congr s t x y hg
  have pd := setPoint_darkRed_planeBits c hc t ht u v x y hin2
  have pl := setPoint_lightRed_planeBits c hc t ht u v x y hin2
  rw [hz] at pd pl
  unfold point
  rw [pd, pl, d, l]
  exact ⟨rfl, rfl⟩

/-- Witness for C31: the native pixel (0, 1) of the 152 x 152 panel after
`clear(darkRed)` holds (1, 0). -/
theorem clear_composite_matches_point_witness :
    colours565.Distinct ∧ Configured screen154 ∧
      ¬ (screen154._codeSize = 0x96 ∨ screen154._codeSize = 0xB9) ∧
      (0 : Nat) < screen154._screenSizeV ∧ (1 : Nat) < screen154._screenSizeH ∧
      planeBits (clear colours565 screen154 colours565.darkRed) (_getZ screen154 0 1) 1 =
        (1, 0) :=
  ⟨by decide, by decide, by decide, by decide, by decide,
    (clear_composite_matches_point colours565 (by decide) screen154 (by decide) (by decide)
      0 1 (by decide) (by decide)).1⟩

/-! ## Calls and the bytes they put on the bus -/

theorem pins_ne (p : Pins) (h : p.Distinct) :
    p.panelDC ≠ p.panelReset ∧ p.panelDC ≠ p.panelCS ∧ p.panelDC ≠ p.panelCSS ∧
    p.panelReset ≠ p.panelCS ∧ p.panelReset ≠ p.panelCSS ∧ p.panelCS ≠ p.panelCSS := by
  unfold Pins.Distinct at h
  simp only [List.nodup_cons, List.mem_cons, List.mem_singleton, List.not_mem_nil,
    not_or, List.nodup_nil, and_true, or_false, not_false_eq_true] at h
  tauto

theorem foldl_wireStep (_pin : Pins) (ops : List BusOp) :
    ∀ (l : Lines) (acc : List WireByte),
      ops.foldl (wireStep _pin) (l, acc) =
        ((wire _pin l ops).1, acc ++ (wire _pin l ops).2) := by
  induction ops with
  | nil => intro l acc; simp [wire]
  | cons o ops ih =>
    intro l acc
    unfold wire
    rw [List.foldl_cons, List.foldl_cons]
    cases o with
    | transfer byte =>
      simp only [wireStep]
      rw [ih l (acc ++ _), ih l ([] ++ _)]
      simp only [List.nil_append, List.append_assoc]
    | digitalWrite pin level =>
      simp only [wireStep]
      rw [ih _ acc, ih _ []]
      simp only [List.nil_append]
    | digitalRead pin level =>
      simp only [wireStep]
      rw [ih _ acc, ih _ []]
      simp only [List.nil_append]
    | delayMicroseconds us =>
      simp only [wireStep]
      rw [ih _ acc, ih _ []]
      simp only [List.nil_append]
    | delay_ms ms =>
      simp only [wireStep]
      rw [ih _ acc, ih _ []]
      simp only [List.nil_append]
    | delay ms =>
      simp only [wireStep]
      rw [ih _ acc, ih _ []]
      simp only [List.nil_append]
    | println =>
      simp only [wireStep]
      rw [ih _ acc, ih _ []]
      simp only [List.nil_append]

theorem wire_append (_pin : Pins) (l : Lines) (a b : List BusOp) :
    wire _pin l (a ++ b) =
      ((wire _pin (wire _pin l a).1 b).1,
        (wire _pin l a).2 ++ (wire _pin (wire _pin l a).1 b).2) := by
  have h : wire _pin l (a ++ b) = b.foldl (wireStep _pin) (wire _pin l a) := by
    unfold wire
    rw [List.foldl_append]
  rw [h]
  exact foldl_wireStep _pin b _ _

theorem foldl_transfers (_pin : Pins) (payload : List Nat) :
    ∀ (l : Lines) (acc : List WireByte),
      (payload.map BusOp.transfer).foldl (wireStep _pin) (l, acc) =
        (l, acc ++ payload.map fun byte => ⟨l.dc, l.cs, l.css, byte⟩) := by
  induction payload with
  | nil => intro l acc; simp
  | cons b payload ih =>
    intro l acc
    rw [List.map_cons, List.foldl_cons]
    simp only [wireStep]
    rw [ih]
    simp only [List.map_cons, List.append_assoc, List.singleton_append]

theorem bytes_arr (payload : List Nat) : bytes (arr payload) payload.length = payload := by
  unfold bytes arr
  apply List.ext_getElem
  · simp
  · intro i h1 h2
    simp only [List.getElem_map, List.getElem_range]
    exact List.getD_eq_getElem _ _ h2

theorem busOps_cons (k : Constants) (_pin : Pins) (s : Screen) (c : Call) (cs : List Call) :
    busOps k _pin s (c :: cs) = Call.ops k _pin s c ++ busOps k _pin s cs := by
  simp [busOps]

theorem busOps_append (k : Constants) (_pin : Pins) (s : Screen) (a b : List Call) :
    busOps k _pin s (a ++ b) = busOps k _pin s a ++ busOps k _pin s b := by
  simp [busOps]

theorem wire_sendIndexData_single (k : Constants) (_pin : Pins) (hp : _pin.Distinct)
    (s : Screen) (hl : ¬ (s._codeSize = 0x96 ∨ s._codeSize = 0xB9)) (l : Lines)
    (index : Nat) (payload : List Nat) :
    wire _pin l (_sendIndexData k _pin s index (arr payload) payload.length) =
      (⟨HIGH, HIGH, l.css⟩, frameTrace LOW l.css index payload) := by
  obtain ⟨n1, n2, n3, n4, n5, n6⟩ := pins_ne _pin hp
  unfold _sendIndexData wire frameTrace
  rw [bytes_arr]
  simp only [hl, if_false, List.append_nil, List.foldl_append, List.foldl_cons,
    List.foldl_nil, wireStep, foldl_transfers, n2, n2.symm, n3, n3.symm, n6, n6.symm,
    if_true, List.nil_append, List.singleton_append, Prod.mk.injEq, and_self, true_and,
    ite_true, ite_false, reduceIte]

theorem wire_sendIndexData_large (k : Constants) (_pin : Pins) (hp : _pin.Distinct)
    (s : Screen) (hl : s._codeSize = 0x96 ∨ s._codeSize = 0xB9)
    (hc : _pin.panelCSS ≠ k.NOT_CONNECTED) (l : Lines) (index : Nat) (payload : List Nat) :
    wire _pin l (_sendIndexData k _pin s index (arr payload) payload.length) =
      (⟨HIGH, HIGH, HIGH⟩, frameTrace LOW LOW index payload) := by
  obtain ⟨n1, n2, n3, n4, n5, n6⟩ := pins_ne _pin hp
  unfold _sendIndexData wire frameTrace
  rw [bytes_arr]
  simp only [hl, hc, ne_eq, not_false_eq_true, if_true, List.append_nil, List.foldl_append,
    List.foldl_cons, List.foldl_nil, wireStep, foldl_transfers, n2, n2.symm, n3, n3.symm, n6,
    n6.symm, List.nil_append, List.singleton_append, Prod.mk.injEq, and_self, true_and,
    ite_true, ite_false, reduceIte]

theorem wire_sendIndexDataMaster (k : Constants) (_pin : Pins) (hp : _pin.Distinct)
    (hc : _pin.panelCSS ≠ k.NOT_CONNECTED) (l : Lines) (index : Nat) (payload : List Nat) :
    wire _pin l (_sendIndexDataMaster k _pin index (arr payload) payload.length) =
      (⟨HIGH, HIGH, HIGH⟩, frameTrace LOW HIGH index payload) := by
  obtain ⟨n1, n2, n3, n4, n5, n6⟩ := pins_ne _pin hp
  unfold _sendIndexDataMaster wire frameTrace
  rw [bytes_arr]
  simp only [hc, ne_eq, not_false_eq_true, if_true, List.append_nil, List.foldl_append,
    List.foldl_cons, List.foldl_nil, wireStep, foldl_transfers, n2, n2.symm, n3, n3.symm, n6,
    n6.symm, List.nil_append, List.singleton_append, Prod.mk.injEq, and_self, true_and,
    ite_true, ite_false, reduceIte]

theorem wire_sendIndexDataSlave (k : Constants) (_pin : Pins) (hp : _pin.Distinct)
    (hc : _pin.panelCSS ≠ k.NOT_CONNECTED) (l : Lines) (index : Nat) (payload : List Nat) :
    wire _pin l (_sendIndexDataSlave k _pin index (arr payload) payload.length) =
      (⟨HIGH, HIGH, HIGH⟩, frameTrace HIGH LOW index payload) := by
  obtain ⟨n1, n2, n3, n4, n5, n6⟩ := pins_ne _pin hp
  unfold _sendIndexDataSlave wire frameTrace
  rw [bytes_arr]
  simp only [hc, ne_eq, not_false_eq_true, if_true, List.append_nil, List.foldl_append,
    List.foldl_cons, List.foldl_nil, wireStep, foldl_transfers, n2, n2.symm, n3, n3.symm, n6,
    n6.symm, List.nil_append, List.singleton_append, Prod.mk.injEq, and_self, true_and,
    ite_true, ite_false, reduceIte]

theorem wire_reset_single (k : Constants) (_pin : Pins) (hp : _pin.Distinct)
    (s : Screen) (hl : ¬ (s._codeSize = 0x96 ∨ s._codeSize = 0xB9)) (l : Lines)
    (ms1 ms2 ms3 ms4 ms5 : Nat) :
    wire _pin l (_reset k _pin s ms1 ms2 ms3 ms4 ms5) = (⟨l.dc, HIGH, l.css⟩, []) := by
  obtain ⟨n1, n2, n3, n4, n5, n6⟩ := pins_ne _pin hp
  unfold _reset wire
  simp only [hl, if_false, List.append_nil, List.foldl_append, List.foldl_cons,
    List.foldl_nil, wireStep, n1, n1.symm, n2, n2.symm, n3, n3.symm, n4, n4.symm, n5,
    n5.symm, n6, n6.symm, if_true, ite_true, ite_false, reduceIte]

theorem wire_reset_large (k : Constants) (_pin : Pins) (hp : _pin.Distinct)
    (s : Screen) (hl : s._codeSize = 0x96 ∨ s._codeSize = 0xB9)
    (hc : _pin.panelCSS ≠ k.NOT_CONNECTED) (l : Lines) (ms1 ms2 ms3 ms4 ms5 : Nat) :
    wire _pin l (_reset k _pin s ms1 ms2 ms3 ms4 ms5) = (⟨l.dc, HIGH, HIGH⟩, []) := by
  obtain ⟨n1, n2, n3, n4, n5, n6⟩ := pins_ne _pin hp
  unfold _reset wire
  simp only [hl, hc, ne_eq, not_false_eq_true, if_true, List.append_nil, List.foldl_append,
    List.foldl_cons, List.foldl_nil, wireStep, n1, n1.symm, n2, n2.symm, n3, n3.symm, n4,
    n4.symm, n5, n5.symm, n6, n6.symm, ite_true, ite_false, reduceIte]

theorem wire_call_single (k : Constants) (_pin : Pins) (hp : _pin.Distinct) (s : Screen)
    (hl : ¬ (s._codeSize = 0x96 ∨ s._codeSize = 0xB9)) (l : Lines) (c : Call)
    (hc : Call.isSingle _pin c = true) :
    (wire _pin l (Call.ops k _pin s c)).2 = Call.frames LOW l.css c ∧
    (wire _pin l (Call.ops k _pin s c)).1.css = l.css := by
  cases c with
  | reset ms1 ms2 ms3 ms4 ms5 =>
    have e : wire _pin l (Call.ops k _pin s (.reset ms1 ms2 ms3 ms4 ms5)) = _ :=
      wire_reset_single k _pin hp s hl l ms1 ms2 ms3 ms4 ms5
    rw [e]
    exact ⟨rfl, rfl⟩
  | sendIndexData index payload =>
    have e : wire _pin l (Call.ops k _pin s (.sendIndexData index payload)) = _ :=
      wire_sendIndexData_single k _pin hp s hl l index payload
    rw [e]
    exact ⟨rfl, rfl⟩
  | sendIndexDataMaster index payload => exact absurd hc (by simp [Call.isSingle])
  | sendIndexDataSlave index payload => exact absurd hc (by simp [Call.isSingle])
  | op o =>
    cases o with
    | digitalWrite pin level =>
      have hne : pin ≠ _pin.panelCSS := by simpa [Call.isSingle] using hc
      refine ⟨rfl, ?_⟩
      show (if pin = _pin.panelCSS then level else l.css) = l.css
      rw [if_neg hne]
    | transfer byte => exact absurd hc (by simp [Call.isSingle])
    | digitalRead pin level => exact ⟨rfl, rfl⟩
    | delayMicroseconds us => exact ⟨rfl, rfl⟩
    | delay_ms ms => exact ⟨rfl, rfl⟩
    | delay ms => exact ⟨rfl, rfl⟩
    | println => exact ⟨rfl, rfl⟩

theorem wire_calls_single (k : Constants) (_pin : Pins) (hp : _pin.Distinct) (s : Screen)
    (hl : ¬ (s._codeSize = 0x96 ∨ s._codeSize = 0xB9)) (cs : List Call) :
    ∀ l : Lines, cs.all (Call.isSingle _pin) = true →
      (wire _pin l (busOps k _pin s cs)).2 = cs.flatMap (Call.frames LOW l.css) ∧
      (wire _pin l (busOps k _pin s cs)).1.css = l.css := by
  induction cs with
  | nil => intro l _; exact ⟨rfl, rfl⟩
  | cons c cs ih =>
    intro l hall
    rw [List.all_cons, Bool.and_eq_true] at hall
    obtain ⟨h1, h2⟩ := wire_call_single k _pin hp s hl l c hall.1
    obtain ⟨i1, i2⟩ := ih (wire _pin l (Call.ops k _pin s c)).1 hall.2
    rw [busOps_cons, wire_append]
    simp only [List.flatMap_cons]
    rw [h1, i1, i2, h2]
    exact ⟨rfl, rfl⟩

theorem wire_call_large (k : Constants) (_pin : Pins) (hp : _pin.Distinct) (s : Screen)
    (hl : s._codeSize = 0x96 ∨ s._codeSize = 0xB9)
    (hn : _pin.panelCSS ≠ k.NOT_CONNECTED) (l : Lines) (c : Call)
    (hc : Call.isClean c = true) :
    (wire _pin l (Call.ops k _pin s c)).2 = Call.frames LOW LOW c := by
  cases c with
  | reset ms1 ms2 ms3 ms4 ms5 =>
    show (wire _pin l (_reset k _pin s ms1 ms2 ms3 ms4 ms5)).2 = _
    rw [wire_reset_large k _pin hp s hl hn]
    rfl
  | sendIndexData index payload =>
    show (wire _pin l (_sendIndexData k _pin s index (arr payload) payload.length)).2 = _
    rw [wire_sendIndexData_large k _pin hp s hl hn]
    rfl
  | sendIndexDataMaster index payload =>
    show (wire _pin l (_sendIndexDataMaster k _pin index (arr payload) payload.length)).2 = _
    rw [wire_sendIndexDataMaster k _pin hp hn]
    rfl
  | sendIndexDataSlave index payload =>
    show (wire _pin l (_sendIndexDataSlave k _pin index (arr payload) payload.length)).2 = _
    rw [wire_sendIndexDataSlave k _pin hp hn]
    rfl
  | op o =>
    cases o with
    | transfer byte => exact absurd hc (by simp [Call.isClean])
    | digitalWrite pin level => rfl
    | digitalRead pin level => rfl
    | delayMicroseconds us => rfl
    | delay_ms ms => rfl
    | delay ms => rfl
    | println => rfl

theorem wire_calls_large (k : Constants) (_pin : Pins) (hp : _pin.Distinct) (s : Screen)
    (hl : s._codeSize = 0x96 ∨ s._codeSize = 0xB9)
    (hn : _pin.panelCSS ≠ k.NOT_CONNECTED) (cs : List Call) :
    ∀ l : Lines, cs.all Call.isClean = true →
      (wire _pin l (busOps k _pin s cs)).2 = cs.flatMap (Call.frames LOW LOW) := by
  induction cs with
  | nil => intro l _; rfl
  | cons c cs ih =>
    intro l hall
    rw [List.all_cons, Bool.and_eq_true] at hall
    have h1 := wire_call_large k _pin hp s hl hn l c hall.1
    have i1 := ih (wire _pin l (Call.ops k _pin s c)).1 hall.2
    rw [busOps_cons, wire_append]
    simp only [List.flatMap_cons]
    rw [h1, i1]

theorem foldr_decode_payload (payload : List Nat) (cs css : Bool) (pend : List Nat)
    (fr : List Frame) :
    (payload.map fun byte => (⟨HIGH, cs, css, byte⟩ : WireByte)).foldr decodeStep (pend, fr) =
      (payload ++ pend, fr) := by
  induction payload with
  | nil => rfl
  | cons b payload ih =>
    rw [List.map_cons, List.foldr_cons, ih]
    rfl

theorem foldr_decode_frame (cs css : Bool) (index : Nat) (payload : List Nat)
    (fr : List Frame) :
    (frameTrace cs css index payload).foldr decodeStep ([], fr) =
      ([], ⟨index, payload, cs, css⟩ :: fr) := by
  unfold frameTrace
  rw [List.foldr_cons, foldr_decode_payload, List.append_nil]
  rfl

theorem foldr_decode_calls (a b : Bool) (cs : List Call) :
    (cs.flatMap (Call.frames a b)).foldr decodeStep ([], []) =
      ([], cs.filterMap (Call.toFrame a b)) := by
  induction cs with
  | nil => rfl
  | cons c cs ih =>
    rw [List.flatMap_cons, List.foldr_append, ih]
    cases c with
    | reset _ _ _ _ _ => rfl
    | op o => rfl
    | sendIndexData index payload =>
      show (frameTrace a b index payload).foldr decodeStep _ = _
      rw [foldr_decode_frame]
      rfl
    | sendIndexDataMaster index payload =>
      show (frameTrace LOW HIGH index payload).foldr decodeStep _ = _
      rw [foldr_decode_frame]
      rfl
    | sendIndexDataSlave index payload =>
      show (frameTrace HIGH LOW index payload).foldr decodeStep _ = _
      rw [foldr_decode_frame]
      rfl

theorem decodeFrames_calls (a b : Bool) (cs : List Call) :
    decodeFrames (cs.flatMap (Call.frames a b)) = cs.filterMap (Call.toFrame a b) := by
  unfold decodeFrames
  rw [foldr_decode_calls]

theorem filterMap_toFrame_filter (a b : Bool) (idx : List Nat) (cs : List Call) :
    (cs.filterMap (Call.toFrame a b)).filter (fun f => idx.contains f.index) =
      (cs.filter (Call.isFrameOf idx)).filterMap (Call.toFrame a b) := by
  induction cs with
  | nil => rfl
  | cons c cs ih =>
    cases c with
    | reset _ _ _ _ _ =>
      rw [List.filterMap_cons_none (by rfl), List.filter_cons_of_neg (by simp [Call.isFrameOf])]
      exact ih
    | op o =>
      rw [List.filterMap_cons_none (by rfl), List.filter_cons_of_neg (by simp [Call.isFrameOf])]
      exact ih
    | sendIndexData index payload =>
      rw [List.filterMap_cons_some (by rfl)]
      by_cases h : idx.contains index = true
      · rw [List.filter_cons_of_pos (by simpa using h),
          List.filter_cons_of_pos (by simpa [Call.isFrameOf] using h),
          List.filterMap_cons_some (by rfl), ih]
      · rw [List.filter_cons_of_neg (by simpa using h),
          List.filter_cons_of_neg (by simpa [Call.isFrameOf] using h), ih]
    | sendIndexDataMaster index payload =>
      rw [List.filterMap_cons_some (by rfl)]
      by_cases h : idx.contains index = true
      · rw [List.filter_cons_of_pos (by simpa using h),
          List.filter_cons_of_pos (by simpa [Call.isFrameOf] using h),
          List.filterMap_cons_some (by rfl), ih]
      · rw [List.filter_cons_of_neg (by simpa using h),
          List.filter_cons_of_neg (by simpa [Call.isFrameOf] using h), ih]
    | sendIndexDataSlave index payload =>
      rw [List.filterMap_cons_some (by rfl)]
      by_cases h : idx.contains index = true
      · rw [List.filter_cons_of_pos (by simpa using h),
          List.filter_cons_of_pos (by simpa [Call.isFrameOf] using h),
          List.filterMap_cons_some (by rfl), ih]
      · rw [List.filter_cons_of_neg (by simpa using h),
          List.filter_cons_of_neg (by simpa [Call.isFrameOf] using h), ih]

theorem filterMap_toFrame_transfer (a b : Bool) (cs : List Call) :
    cs.filterMap (Call.toFrame a b) =
      (cs.filter Call.isTransfer).filterMap (Call.toFrame a b) := by
  induction cs with
  | nil => rfl
  | cons c cs ih =>
    cases c with
    | reset _ _ _ _ _ =>
      rw [List.filterMap_cons_none (by rfl), List.filter_cons_of_neg (by simp [Call.isTransfer])]
      exact ih
    | op o =>
      rw [List.filterMap_cons_none (by rfl), List.filter_cons_of_neg (by simp [Call.isTransfer])]
      exact ih
    | sendIndexData index payload =>
      rw [List.filter_cons_of_pos (by rfl), List.filterMap_cons_some (by rfl),
        List.filterMap_cons_some (by rfl), ih]
    | sendIndexDataMaster index payload =>
      rw [List.filter_cons_of_pos (by rfl), List.filterMap_cons_some (by rfl),
        List.filterMap_cons_some (by rfl), ih]
    | sendIndexDataSlave index payload =>
      rw [List.filter_cons_of_pos (by rfl), List.filterMap_cons_some (by rfl),
        List.filterMap_cons_some (by rfl), ih]

theorem isSingle_sendArr (_pin : Pins) (i : Nat) (a : List Nat) (n : Nat) :
    Call.isSingle _pin (sendArr i a n) = true := rfl

theorem isSingle_send (_pin : Pins) (i : Nat) (p : List Nat) :
    Call.isSingle _pin (.sendIndexData i p) = true := rfl

theorem isSingle_callDelay (_pin : Pins) (n : Nat) :
    Call.isSingle _pin (callDelay_ms n) = true := rfl

theorem isSingle_reset (_pin : Pins) (a b c d e : Nat) :
    Call.isSingle _pin (.reset a b c d e) = true := rfl

theorem isSingle_write (_pin : Pins) (pin : Nat) (level : Bool) :
    Call.isSingle _pin (.op (.digitalWrite pin level)) = decide (pin ≠ _pin.panelCSS) := rfl

theorem poll_isSingle (_pin : Pins) (p : List Call) (h : ∀ c ∈ p, Call.isPoll c = true) :
    p.all (Call.isSingle _pin) = true ∧ p.all Call.isClean = true := by
  constructor <;>
  · rw [List.all_eq_true]
    intro c hc
    have := h c hc
    cases c with
    | op o =>
      cases o with
      | digitalRead _ _ => rfl
      | delay _ => rfl
      | digitalWrite _ _ => simp [Call.isPoll] at this
      | transfer _ => simp [Call.isPoll] at this
      | delayMicroseconds _ => simp [Call.isPoll] at this
      | delay_ms _ => simp [Call.isPoll] at this
      | println => simp [Call.isPoll] at this
    | reset _ _ _ _ _ => simp [Call.isPoll] at this
    | sendIndexData _ _ => simp [Call.isPoll] at this
    | sendIndexDataMaster _ _ => simp [Call.isPoll] at this
    | sendIndexDataSlave _ _ => simp [Call.isPoll] at this

theorem softStart_single (_pin : Pins) :
    softStart565.all (Call.isSingle _pin) = true ∧ softStart970.all Call.isClean = true := by
  constructor <;> rfl

theorem flushMedium_single (_pin : Pins) (s : Screen)
    (hm : s._codeSize = 0x56 ∨ s._codeSize = 0x58 ∨ s._codeSize = 0x74) :
    (flushMediumImage s ++ flushMediumCOG s).all (Call.isSingle _pin) = true := by
  rcases hm with h | h | h <;> by_cases ht : s._codeType = 0x0B <;>
    simp only [flushMediumImage, flushMediumCOG, h, ht, reduceIte, List.all_append,
      List.all_cons, List.all_nil, isSingle_sendArr, isSingle_callDelay, isSingle_reset,
      isSingle_send, Nat.reduceEqDiff, List.nil_append, List.append_nil, Bool.and_true,
      Bool.and_self, List.cons_append]

theorem flushSmall_single (_pin : Pins) (s : Screen) :
    (flushSmallImage s).all (Call.isSingle _pin) = true := by
  simp only [flushSmallImage, List.all_cons, List.all_nil, isSingle_sendArr,
    isSingle_callDelay, isSingle_reset, isSingle_send, Bool.and_true, Bool.and_self]

theorem flushGlobal_all_single (k : Constants) (_pin : Pins) (hp : _pin.Distinct)
    (busy : Nat → Bool) (fuel : Nat) (s : Screen) (w w' : Bus)
    (hl : ¬ (s._codeSize = 0x96 ∨ s._codeSize = 0xB9))
    (hr : _flushGlobal k _pin busy fuel s w = some w') :
    ∃ new, w'.calls = w.calls ++ new ∧ new.all (Call.isSingle _pin) = true := by
  obtain ⟨n1, n2, n3, n4, n5, n6⟩ := pins_ne _pin hp
  by_cases hm : s._codeSize = 0x56 ∨ s._codeSize = 0x58 ∨ s._codeSize = 0x74
  · obtain ⟨p1, p2, p3, hpl, hc⟩ := flushGlobal_calls_medium k _pin busy fuel s w w' hm hr
    have q1 := (poll_isSingle _pin p1 (fun c hc => hpl c (by simp [hc]))).1
    have q2 := (poll_isSingle _pin p2 (fun c hc => hpl c (by simp [hc]))).1
    have q3 := (poll_isSingle _pin p3 (fun c hc => hpl c (by simp [hc]))).1
    refine ⟨_, hc, ?_⟩
    simp only [List.all_append, flushMedium_single _pin s hm, (softStart_single _pin).1, q1,
      q2, q3, List.all_cons, List.all_nil, isSingle_sendArr, isSingle_callDelay,
      isSingle_write, n3, n5, n6, ne_eq, not_false_eq_true, decide_True, Bool.and_true,
      Bool.and_self]
  · obtain ⟨p1, p2, p3, hpl, hc⟩ := flushGlobal_calls_small k _pin busy fuel s w w' hm hl hr
    have q1 := (poll_isSingle _pin p1 (fun c hc => hpl c (by simp [hc]))).1
    have q2 := (poll_isSingle _pin p2 (fun c hc => hpl c (by simp [hc]))).1
    have q3 := (poll_isSingle _pin p3 (fun c hc => hpl c (by simp [hc]))).1
    refine ⟨_, hc, ?_⟩
    simp only [List.all_append, flushSmall_single _pin s, q1,
      q2, q3, List.all_cons, List.all_nil, isSingle_sendArr, isSingle_callDelay,
      isSingle_write, n3, n5, n6, ne_eq, not_false_eq_true, decide_True, Bool.and_true,
      Bool.and_self]

theorem isClean_sendArr (i : Nat) (a : List Nat) (n : Nat) :
    Call.isClean (sendArr i a n) = true := rfl

theorem isClean_sendArrMaster (i : Nat) (a : List Nat) (n : Nat) :
    Call.isClean (sendArrMaster i a n) = true := rfl

theorem isClean_sendArrSlave (i : Nat) (a : List Nat) (n : Nat) :
    Call.isClean (sendArrSlave i a n) = true := rfl

theorem isClean_sendMaster (i : Nat) (p : List Nat) :
    Call.isClean (.sendIndexDataMaster i p) = true := rfl

theorem isClean_sendSlave (i : Nat) (p : List Nat) :
    Call.isClean (.sendIndexDataSlave i p) = true := rfl

theorem isClean_callDelay (n : Nat) : Call.isClean (callDelay_ms n) = true := rfl

theorem isClean_reset (a b c d e : Nat) : Call.isClean (.reset a b c d e) = true := rfl

theorem isClean_write (pin : Nat) (level : Bool) :
    Call.isClean (.op (.digitalWrite pin level)) = true := rfl

theorem flushLarge_clean (s : Screen) (hl : s._codeSize = 0x96 ∨ s._codeSize = 0xB9) :
    (flushLargeImage s ++ flushLargeCOG s).all Call.isClean = true := by
  rcases hl with h | h <;> by_cases ht : s._codeType = 0x0B <;>
    simp only [flushLargeImage, flushLargeCOG, h, ht, reduceIte, List.all_append,
      List.all_cons, List.all_nil, isClean_sendArr, isClean_sendArrMaster,
      isClean_sendArrSlave, isClean_callDelay, isClean_reset, isClean_sendMaster,
      isClean_sendSlave, Nat.reduceEqDiff, List.nil_append, List.append_nil, Bool.and_true,
      Bool.and_self, List.cons_append]

theorem flushGlobal_all_clean (k : Constants) (_pin : Pins)
    (busy : Nat → Bool) (fuel : Nat) (s : Screen) (w w' : Bus)
    (hl : s._codeSize = 0x96 ∨ s._codeSize = 0xB9)
    (hr : _flushGlobal k _pin busy fuel s w = some w') :
    ∃ new, w'.calls = w.calls ++ new ∧ new.all Call.isClean = true := by
  obtain ⟨p1, p2, p3, hpl, hc⟩ := flushGlobal_calls_large k _pin busy fuel s w w' hl hr
  have q1 := (poll_isSingle _pin p1 (fun c hc => hpl c (by simp [hc]))).2
  have q2 := (poll_isSingle _pin p2 (fun c hc => hpl c (by simp [hc]))).2
  have q3 := (poll_isSingle _pin p3 (fun c hc => hpl c (by simp [hc]))).2
  have e1 : (if _pin.panelCSS ≠ k.NOT_CONNECTED then
      [Call.op (.digitalWrite _pin.panelCSS LOW)] else []).all Call.isClean = true := by
    split_ifs <;> rfl
  have e2 : (if _pin.panelCSS ≠ k.NOT_CONNECTED then
      [Call.op (.digitalWrite _pin.panelCSS HIGH)] else []).all Call.isClean = true := by
    split_ifs <;> rfl
  refine ⟨_, hc, ?_⟩
  simp only [List.all_append, flushLarge_clean s hl, (softStart_single _pin).2, q1,
    q2, q3, e1, e2, List.all_cons, List.all_nil, isClean_sendArr, isClean_callDelay,
    isClean_write, Bool.and_true, Bool.and_self]

/-! ## The frames of a refresh on the bus -/

theorem flatMap_frames_transfer (a b : Bool) (cs : List Call) :
    cs.flatMap (Call.frames a b) = (cs.filter Call.isTransfer).flatMap (Call.frames a b) := by
  induction cs with
  | nil => rfl
  | cons c cs ih =>
    cases c with
    | reset _ _ _ _ _ =>
      rw [List.filter_cons_of_neg (by simp [Call.isTransfer]), List.flatMap_cons, ih]
      rfl
    | op o =>
      rw [List.filter_cons_of_neg (by simp [Call.isTransfer]), List.flatMap_cons, ih]
      rfl
    | sendIndexData index payload =>
      rw [List.filter_cons_of_pos (by rfl), List.flatMap_cons, List.flatMap_cons, ih]
    | sendIndexDataMaster index payload =>
      rw [List.filter_cons_of_pos (by rfl), List.flatMap_cons, List.flatMap_cons, ih]
    | sendIndexDataSlave index payload =>
      rw [List.filter_cons_of_pos (by rfl), List.flatMap_cons, List.flatMap_cons, ih]

theorem wire_run_single (k : Constants) (_pin : Pins) (hp : _pin.Distinct)
    (busy : Nat → Bool) (fuel : Nat) (s : Screen) (w w' : Bus)
    (hl : ¬ (s._codeSize = 0x96 ∨ s._codeSize = 0xB9))
    (hr : _flushGlobal k _pin busy fuel s w = some w') (new : List Call)
    (hnew : w'.calls = w.calls ++ new) (l : Lines) :
    (wire _pin l (busOps k _pin s new)).2 = new.flatMap (Call.frames LOW l.css) ∧
    decodeFrames (wire _pin l (busOps k _pin s new)).2 =
      new.filterMap (Call.toFrame LOW l.css) := by
  obtain ⟨new2, h1, h2⟩ := flushGlobal_all_single k _pin hp busy fuel s w w' hl hr
  have e : new = new2 := List.append_cancel_left (hnew.symm.trans h1)
  subst e
  have h := (wire_calls_single k _pin hp s hl new l h2).1
  rw [h, decodeFrames_calls]
  exact ⟨rfl, rfl⟩

theorem wire_run_large (k : Constants) (_pin : Pins) (hp : _pin.Distinct)
    (busy : Nat → Bool) (fuel : Nat) (s : Screen) (w w' : Bus)
    (hl : s._codeSize = 0x96 ∨ s._codeSize = 0xB9)
    (hn : _pin.panelCSS ≠ k.NOT_CONNECTED)
    (hr : _flushGlobal k _pin busy fuel s w = some w') (new : List Call)
    (hnew : w'.calls = w.calls ++ new) (l : Lines) :
    (wire _pin l (busOps k _pin s new)).2 = new.flatMap (Call.frames LOW LOW) ∧
    decodeFrames (wire _pin l (busOps k _pin s new)).2 =
      new.filterMap (Call.toFrame LOW LOW) := by
  obtain ⟨new2, h1, h2⟩ := flushGlobal_all_clean k _pin busy fuel s w w' hl hr
  have e : new = new2 := List.append_cancel_left (hnew.symm.trans h1)
  subst e
  have h := wire_calls_large k _pin hp s hl hn new l h2
  rw [h, decodeFrames_calls]
  exact ⟨rfl, rfl⟩

/-- C25: for every size code outside the medium set (0x56, 0x58, 0x74) and the large set
(0x96, 0xB9), a refresh emits no soft-start ramp frame (no register 0x51 or 0x09 write) and
its sequence of indexed frames is exactly: 0x00 (soft-reset, payload 0x0E), 0xE5
(temperature input, payload the stored temperature as a byte), 0xE0 (payload 0x02), 0x10
(plane 0), 0x13 (plane 1), 0x04 (power on), 0x12 (display refresh), 0x02 (DC/DC off). This
holds of the calls of the transfer method and of the bytes they put on the SPI bus: each
frame is its index byte with D/C LOW followed by its payload bytes with D/C HIGH, with the
master's chip select LOW. The refresh runs to its end once the busy line reads HIGH at
each wait. -/
theorem flushGlobal_small_frames (k : Constants) (_pin : Pins) (busy : Nat → Bool)
    (s : Screen)
    (hm : ¬ (s._codeSize = 0x56 ∨ s._codeSize = 0x58 ∨ s._codeSize = 0x74))
    (hl : ¬ (s._codeSize = 0x96 ∨ s._codeSize = 0xB9)) :
    (∀ fuel w w', _flushGlobal k _pin busy fuel s w = some w' →
      ∃ new, w'.calls = w.calls ++ new ∧
        new.filter Call.isTransfer =
          [.sendIndexData 0x00 [0x0e],
           .sendIndexData 0xe5 [toUInt8 s._temperature],
           .sendIndexData 0xe0 [0x02],
           .sendIndexData 0x10 (bytes s._newImage s._frameSize),
           .sendIndexData 0x13 (bytes (ptrAdd s._newImage s._pageColourSize) s._frameSize),
           .sendIndexData 0x04 [0x00],
           .sendIndexData 0x12 [0x00],
           .sendIndexData 0x02 [0x00]] ∧
        new.filter (Call.isFrameOf [0x51, 0x09]) = [] ∧
        (_pin.Distinct → ∀ l : Lines,
          (wire _pin l (busOps k _pin s new)).2 =
            frameTrace LOW l.css 0x00 [0x0e] ++
            frameTrace LOW l.css 0xe5 [toUInt8 s._temperature] ++
            frameTrace LOW l.css 0xe0 [0x02] ++
            frameTrace LOW l.css 0x10 (bytes s._newImage s._frameSize) ++
            frameTrace LOW l.css 0x13
              (bytes (ptrAdd s._newImage s._pageColourSize) s._frameSize) ++
            frameTrace LOW l.css 0x04 [0x00] ++
            frameTrace LOW l.css 0x12 [0x00] ++
            frameTrace LOW l.css 0x02 [0x00] ∧
          decodeFrames (wire _pin l (busOps k _pin s new)).2 =
            [⟨0x00, [0x0e], LOW, l.css⟩,
             ⟨0xe5, [toUInt8 s._temperature], LOW, l.css⟩,
             ⟨0xe0, [0x02], LOW, l.css⟩,
             ⟨0x10, bytes s._newImage s._frameSize, LOW, l.css⟩,
             ⟨0x13, bytes (ptrAdd s._newImage s._pageColourSize) s._frameSize, LOW, l.css⟩,
             ⟨0x04, [0x00], LOW, l.css⟩,
             ⟨0x12, [0x00], LOW, l.css⟩,
             ⟨0x02, [0x00], LOW, l.css⟩] ∧
          (decodeFrames (wire _pin l (busOps k _pin s new)).2).filter
            (fun f => [0x51, 0x09].contains f.index) = [])) ∧
    (EventuallyHigh busy → ∀ w, ∃ fuel w', _flushGlobal k _pin busy fuel s w = some w') := by
  obtain ⟨hcalls, hdone⟩ := flushGlobal_small_calls k _pin busy s hm hl
  refine ⟨?_, hdone⟩
  intro fuel w w' hr
  obtain ⟨new, h1, h2, h3⟩ := hcalls fuel w w' hr
  refine ⟨new, h1, h2, h3, ?_⟩
  intro hp l
  obtain ⟨t1, t2⟩ := wire_run_single k _pin hp busy fuel s w w' hl hr new h1 l
  rw [t2, t1, filterMap_toFrame_filter, h3, flatMap_frames_transfer,
    filterMap_toFrame_transfer, h2]
  refine ⟨?_, rfl, rfl⟩
  simp only [List.flatMap_cons, List.flatMap_nil, Call.frames, List.append_nil,
    List.append_assoc]

/-- Witness for C25: a refresh of the 152 x 152 panel (size code 0x15) with the busy line
always HIGH: it completes, and the frames read off the bus include none to 0x51 or 0x09. -/
theorem flushGlobal_small_frames_witness :
    ¬ (screen154._codeSize = 0x56 ∨ screen154._codeSize = 0x58 ∨
        screen154._codeSize = 0x74) ∧
      ¬ (screen154._codeSize = 0x96 ∨ screen154._codeSize = 0xB9) ∧
      pins0.Distinct ∧ EventuallyHigh (fun _ => true) ∧
      ∃ fuel w', _flushGlobal constants0 pins0 (fun _ => true) fuel screen154 ⟨[], 0⟩ =
          some w' ∧
        ∃ new, w'.calls = [] ++ new ∧
          (decodeFrames (wire pins0 ⟨HIGH, HIGH, HIGH⟩
            (busOps constants0 pins0 screen154 new)).2).filter
              (fun f => [0x51, 0x09].contains f.index) = [] := by
  have hb : EventuallyHigh (fun _ => true) := fun n => ⟨n, le_refl _, rfl⟩
  refine ⟨by decide, by decide, by decide, hb, ?_⟩
  obtain ⟨hcalls, hdone⟩ := flushGlobal_small_frames constants0 pins0 (fun _ => true)
    screen154 (by decide) (by decide)
  obtain ⟨fuel, w', hw⟩ := hdone hb ⟨[], 0⟩
  obtain ⟨new, h1, -, -, h4⟩ := hcalls fuel ⟨[], 0⟩ w' hw
  exact ⟨fuel, w', hw, new, h1, (h4 (by decide) ⟨HIGH, HIGH, HIGH⟩).2.2⟩

/-- C23: in every refresh the policy permits on a medium (0x56, 0x58, 0x74) or large
(0x96, 0xB9) panel, the temperature-compensation byte written to register 0x45 equals
currentTemp * 2 + 0x50 as an exact integer, with no 8-bit wraparound for any temperature
the policy lets through (0x50 at 0 C and 0x82 at 25 C). Register 0x45 receives two frames
per controller, first the fixed byte 0x80 and then the compensation byte; on large panels
the same byte is sent to the master and to the slave. This holds of the calls of the
transfer methods and of the frames read off the SPI bus: on a large panel with the slave's
chip select wired, the first pair goes out with only the master selected and the second
pair with only the slave selected. -/
theorem flushMode_temperature_byte (k : Constants) (hk : k.Valid) (_pin : Pins)
    (busy : Nat → Bool) (s : Screen) (m : Nat)
    (hg : checkTemperatureMode k s m = k.UPDATE_GLOBAL) :
    (0 ≤ s._temperature * 2 + 0x50 ∧ s._temperature * 2 + 0x50 ≤ 255 ∧
      (toUInt8 (s._temperature * 2 + 0x50) : Int) = s._temperature * 2 + 0x50) ∧
    (s._codeSize = 0x56 ∨ s._codeSize = 0x58 ∨ s._codeSize = 0x74 →
      ∀ fuel w r, flushMode k _pin busy fuel s m w = some r →
        ∃ new, r.2.2.calls = w.calls ++ new ∧
          new.filter (Call.isFrameOf [0x45]) =
            [.sendIndexData 0x45 [0x80],
             .sendIndexData 0x45 [toUInt8 (s._temperature * 2 + 0x50)]] ∧
          (_pin.Distinct → ∀ l : Lines,
            (wire _pin l (busOps k _pin s new)).2 = new.flatMap (Call.frames LOW l.css) ∧
            (decodeFrames (wire _pin l (busOps k _pin s new)).2).filter
                (fun f => [0x45].contains f.index) =
              [⟨0x45, [0x80], LOW, l.css⟩,
               ⟨0x45, [toUInt8 (s._temperature * 2 + 0x50)], LOW, l.css⟩])) ∧
    (s._codeSize = 0x96 ∨ s._codeSize = 0xB9 →
      ∀ fuel w r, flushMode k _pin busy fuel s m w = some r →
        ∃ new, r.2.2.calls = w.calls ++ new ∧
          new.filter (Call.isFrameOf [0x45]) =
            [.sendIndexDataMaster 0x45 [0x80],
             .sendIndexDataMaster 0x45 [toUInt8 (s._temperature * 2 + 0x50)],
             .sendIndexDataSlave 0x45 [0x80],
             .sendIndexDataSlave 0x45 [toUInt8 (s._temperature * 2 + 0x50)]] ∧
          (_pin.Distinct → _pin.panelCSS ≠ k.NOT_CONNECTED → ∀ l : Lines,
            (wire _pin l (busOps k _pin s new)).2 = new.flatMap (Call.frames LOW LOW) ∧
            (decodeFrames (wire _pin l (busOps k _pin s new)).2).filter
                (fun f => [0x45].contains f.index) =
              [⟨0x45, [0x80], LOW, HIGH⟩,
               ⟨0x45, [toUInt8 (s._temperature * 2 + 0x50)], LOW, HIGH⟩,
               ⟨0x45, [0x80], HIGH, LOW⟩,
               ⟨0x45, [toUInt8 (s._temperature * 2 + 0x50)], HIGH, LOW⟩])) ∧
    (s._temperature = 0 → toUInt8 (s._temperature * 2 + 0x50) = 0x50) ∧
    (s._temperature = 25 → toUInt8 (s._temperature * 2 + 0x50) = 0x82) ∧
    (EventuallyHigh busy → ∀ w, ∃ fuel r,
      flushMode k _pin busy fuel s m w = some r ∧ r.1 = k.UPDATE_GLOBAL) := by
  obtain ⟨c1, c2, c3, c4, c5, c6⟩ := flushMode_temperature_calls k hk _pin busy s m hg
  have hrun : ∀ fuel w r, flushMode k _pin busy fuel s m w = some r →
      _flushGlobal k _pin busy fuel s w = some r.2.2 := by
    intro fuel w r hr
    rw [flushMode_of_global k _pin busy fuel s m w hg] at hr
    cases hf : _flushGlobal k _pin busy fuel s w with
    | none => rw [hf] at hr; exact absurd hr (by simp)
    | some w' =>
      rw [hf] at hr
      simp only [Option.map_some', Option.some.injEq] at hr
      rw [← hr]
  refine ⟨c1, ?_, ?_, c4, c5, c6⟩
  · intro hm fuel w r hr
    have hl : ¬ (s._codeSize = 0x96 ∨ s._codeSize = 0xB9) := by
      rcases hm with e | e | e <;> rw [e] <;> decide
    obtain ⟨new, h1, h2⟩ := c2 hm fuel w r hr
    refine ⟨new, h1, h2, ?_⟩
    intro hp l
    obtain ⟨t1, t2⟩ := wire_run_single k _pin hp busy fuel s w r.2.2 hl (hrun fuel w r hr)
      new h1 l
    rw [t2, filterMap_toFrame_filter, h2]
    exact ⟨t1, rfl⟩
  · intro hl fuel w r hr
    obtain ⟨new, h1, h2⟩ := c3 hl fuel w r hr
    refine ⟨new, h1, h2, ?_⟩
    intro hp hn l
    obtain ⟨t1, t2⟩ := wire_run_large k _pin hp busy fuel s w r.2.2 hl hn (hrun fuel w r hr)
      new h1 l
    rw [t2, filterMap_toFrame_filter, h2]
    exact ⟨t1, rfl⟩

/-- Witness for C23: a refresh of the 9.69 inch panel (size code 0x96) at 25 degrees
Celsius with the busy line always HIGH: it completes, and the frames to register 0x45 read
off the bus are 0x80 and 0x82 for the master, then 0x80 and 0x82 for the slave. -/
theorem flushMode_temperature_byte_witness :
    constants0.Valid ∧
      checkTemperatureMode constants0 (setTemperatureC screen969 25)
        constants0.UPDATE_GLOBAL = constants0.UPDATE_GLOBAL ∧
      ((setTemperatureC screen969 25)._codeSize = 0x96 ∨
        (setTemperatureC screen969 25)._codeSize = 0xB9) ∧
      pins0.Distinct ∧ pins0.panelCSS ≠ constants0.NOT_CONNECTED ∧
      EventuallyHigh (fun _ => true) ∧
      ∃ fuel r, flushMode constants0 pins0 (fun _ => true) fuel
          (setTemperatureC screen969 25) constants0.UPDATE_GLOBAL ⟨[], 0⟩ = some r ∧
        ∃ new, r.2.2.calls = [] ++ new ∧
          (decodeFrames (wire pins0 ⟨HIGH, HIGH, HIGH⟩
            (busOps constants0 pins0 (setTemperatureC screen969 25) new)).2).filter
              (fun f => [0x45].contains f.index) =
            [⟨0x45, [0x80], LOW, HIGH⟩, ⟨0x45, [0x82], LOW, HIGH⟩,
             ⟨0x45, [0x80], HIGH, LOW⟩, ⟨0x45, [0x82], HIGH, LOW⟩] := by
  have hb : EventuallyHigh (fun _ => true) := fun n => ⟨n, le_refl _, rfl⟩
  refine ⟨by decide, by decide, by decide, by decide, by decide, hb, ?_⟩
  obtain ⟨-, -, hlarge, -, -, hdone⟩ := flushMode_temperature_byte constants0 (by decide)
    pins0 (fun _ => true) (setTemperatureC screen969 25) constants0.UPDATE_GLOBAL (by decide)
  obtain ⟨fuel, r, hr, -⟩ := hdone hb ⟨[], 0⟩
  obtain ⟨new, h1, -, h3⟩ := hlarge (by decide) fuel ⟨[], 0⟩ r hr
  exact ⟨fuel, r, hr, new, h1, (h3 (by decide) (by decide) ⟨HIGH, HIGH, HIGH⟩).2⟩

/-- C15: in every refresh sequence on a documented panel the image payloads transmitted
are exactly the frame buffer partitioned as documented, each buffer byte sent once. On
single-controller panels plane 0 (bytes [0, frameSize)) is sent as the first image frame
and plane 1 (bytes [pageColourSize, pageColourSize + frameSize)) as the second. On
dual-controller panels the master receives blackPlane[0, frameSize) then
redPlane[0, frameSize) and the slave receives blackPlane[frameSize, 2*frameSize) then
redPlane[frameSize, 2*frameSize), master frames before slave frames. Every other call of
the sequence transfers at most six bytes. This holds of the calls of the transfer methods
and of the frames read off the SPI bus: on a single-controller panel the image frames go
out with the master's chip select LOW; on a dual-controller panel with the slave's chip
select wired, the master's two frames go out with only the master selected and the
slave's two frames with only the slave selected. The refresh runs to its end once the
busy line reads HIGH at each wait. -/
theorem flushGlobal_image_frames (k : Constants) (_pin : Pins) (busy : Nat → Bool)
    (s : Screen) (h : Configured s) :
    (∀ fuel w w', _flushGlobal k _pin busy fuel s w = some w' →
      ∃ new, w'.calls = w.calls ++ new ∧
        (¬ (s._codeSize = 0x96 ∨ s._codeSize = 0xB9) →
          imageFrames s new =
            [.sendIndexData 0x10 (bytes s._newImage s._frameSize),
             .sendIndexData
                (if s._codeSize = 0x56 ∨ s._codeSize = 0x58 ∨ s._codeSize = 0x74
                  then 0x11 else 0x13)
                (bytes (ptrAdd s._newImage s._pageColourSize) s._frameSize)] ∧
          bytes s._newImage s._frameSize ++
              bytes (ptrAdd s._newImage s._pageColourSize) s._frameSize =
            bytes s._newImage (s._pageColourSize * 2) ∧
          (_pin.Distinct → ∀ l : Lines,
            (wire _pin l (busOps k _pin s new)).2 = new.flatMap (Call.frames LOW l.css) ∧
            (decodeFrames (wire _pin l (busOps k _pin s new)).2).filter
                (fun f => (imageIndices s).contains f.index) =
              [⟨0x10, bytes s._newImage s._frameSize, LOW, l.css⟩,
               ⟨if s._codeSize = 0x56 ∨ s._codeSize = 0x58 ∨ s._codeSize = 0x74
                  then 0x11 else 0x13,
                bytes (ptrAdd s._newImage s._pageColourSize) s._frameSize, LOW, l.css⟩])) ∧
        (s._codeSize = 0x96 ∨ s._codeSize = 0xB9 →
          imageFrames s new =
            [.sendIndexDataMaster 0x10 (bytes s._newImage s._frameSize),
             .sendIndexDataMaster 0x11
                (bytes (ptrAdd s._newImage s._pageColourSize) s._frameSize),
             .sendIndexDataSlave 0x10
                (bytes (ptrAdd s._newImage s._frameSize) s._frameSize),
             .sendIndexDataSlave 0x11
                (bytes (ptrAdd (ptrAdd s._newImage s._pageColourSize) s._frameSize)
                  s._frameSize)] ∧
          (bytes s._newImage s._frameSize ++
              bytes (ptrAdd s._newImage s._frameSize) s._frameSize) ++
            (bytes (ptrAdd s._newImage s._pageColourSize) s._frameSize ++
              bytes (ptrAdd (ptrAdd s._newImage s._pageColourSize) s._frameSize)
                s._frameSize) =
            bytes s._newImage (s._pageColourSize * 2) ∧
          (_pin.Distinct → _pin.panelCSS ≠ k.NOT_CONNECTED → ∀ l : Lines,
            (wire _pin l (busOps k _pin s new)).2 = new.flatMap (Call.frames LOW LOW) ∧
            (decodeFrames (wire _pin l (busOps k _pin s new)).2).filter
                (fun f => (imageIndices s).contains f.index) =
              [⟨0x10, bytes s._newImage s._frameSize, LOW, HIGH⟩,
               ⟨0x11, bytes (ptrAdd s._newImage s._pageColourSize) s._frameSize,
                LOW, HIGH⟩,
               ⟨0x10, bytes (ptrAdd s._newImage s._frameSize) s._frameSize, HIGH, LOW⟩,
               ⟨0x11,
                bytes (ptrAdd (ptrAdd s._newImage s._pageColourSize) s._frameSize)
                  s._frameSize, HIGH, LOW⟩])) ∧
        (∀ c ∈ new, Call.isFrameOf (imageIndices s) c = false →
          Call.payloadLength c ≤ 6)) ∧
    (EventuallyHigh busy → ∀ w, ∃ fuel w', _flushGlobal k _pin busy fuel s w = some w') := by
  constructor
  · intro fuel w w' hr
    obtain ⟨new, h1, h2, h3, h4⟩ := flushGlobal_frames_of_run k _pin busy fuel s w w' h hr
    refine ⟨new, h1, ?_, ?_, h4⟩
    · intro hl
      obtain ⟨a1, a2⟩ := h2 hl
      refine ⟨a1, a2, ?_⟩
      intro hp l
      obtain ⟨t1, t2⟩ := wire_run_single k _pin hp busy fuel s w w' hl hr new h1 l
      unfold imageFrames at a1
      rw [t2, filterMap_toFrame_filter, a1]
      exact ⟨t1, rfl⟩
    · intro hl
      obtain ⟨a1, a2⟩ := h3 hl
      refine ⟨a1, a2, ?_⟩
      intro hp hn l
      obtain ⟨t1, t2⟩ := wire_run_large k _pin hp busy fuel s w w' hl hn hr new h1 l
      unfold imageFrames at a1
      rw [t2, filterMap_toFrame_filter, a1]
      exact ⟨t1, rfl⟩
  · intro hb w
    obtain ⟨fuel0, w', hf⟩ := completes_flushGlobal k _pin busy hb s w
    exact ⟨fuel0, w', hf fuel0 (le_refl _)⟩

/-- Witness for C15: a refresh of the 152 x 152 single-controller panel (size code 0x15)
and a refresh of the 9.69 inch dual-controller panel (size code 0x96), each with the busy
line always HIGH: both complete, and the image frames read off the bus are the two planes
for the first, and the master's two half planes then the slave's two half planes for the
second. -/
theorem flushGlobal_image_frames_witness :
    (Configured screen154 ∧ ¬ (screen154._codeSize = 0x96 ∨ screen154._codeSize = 0xB9) ∧
      pins0.Distinct ∧ EventuallyHigh (fun _ => true) ∧
      ∃ fuel w', _flushGlobal constants0 pins0 (fun _ => true) fuel screen154 ⟨[], 0⟩ =
          some w' ∧
        ∃ new, w'.calls = [] ++ new ∧
          (decodeFrames (wire pins0 ⟨HIGH, HIGH, HIGH⟩
            (busOps constants0 pins0 screen154 new)).2).filter
              (fun f => (imageIndices screen154).contains f.index) =
            [⟨0x10, bytes screen154._newImage screen154._frameSize, LOW, HIGH⟩,
             ⟨if screen154._codeSize = 0x56 ∨ screen154._codeSize = 0x58 ∨
                  screen154._codeSize = 0x74 then 0x11 else 0x13,
              bytes (ptrAdd screen154._newImage screen154._pageColourSize)
                screen154._frameSize, LOW, HIGH⟩]) ∧
    (Configured screen969 ∧ (screen969._codeSize = 0x96 ∨ screen969._codeSize = 0xB9) ∧
      pins0.Distinct ∧ pins0.panelCSS ≠ constants0.NOT_CONNECTED ∧
      EventuallyHigh (fun _ => true) ∧
      ∃ fuel w', _flushGlobal constants0 pins0 (fun _ => true) fuel screen969 ⟨[], 0⟩ =
          some w' ∧
        ∃ new, w'.calls = [] ++ new ∧
          (decodeFrames (wire pins0 ⟨HIGH, HIGH, HIGH⟩
            (busOps constants0 pins0 screen969 new)).2).filter
              (fun f => (imageIndices screen969).contains f.index) =
            [⟨0x10, bytes screen969._newImage screen969._frameSize, LOW, HIGH⟩,
             ⟨0x11, bytes (ptrAdd screen969._newImage screen969._pageColourSize)
                screen969._frameSize, LOW, HIGH⟩,
             ⟨0x10, bytes (ptrAdd screen969._newImage screen969._frameSize)
                screen969._frameSize, HIGH, LOW⟩,
             ⟨0x11,
              bytes (ptrAdd (ptrAdd screen969._newImage screen969._pageColourSize)
                screen969._frameSize) screen969._frameSize, HIGH, LOW⟩]) := by
  have hb : EventuallyHigh (fun _ => true) := fun n => ⟨n, le_refl _, rfl⟩
  constructor
  · have hc : Configured screen154 := by decide
    refine ⟨hc, by decide, by decide, hb, ?_⟩
    obtain ⟨hrun, hdone⟩ := flushGlobal_image_frames constants0 pins0 (fun _ => true)
      screen154 hc
    obtain ⟨fuel, w', hw⟩ := hdone hb ⟨[], 0⟩
    obtain ⟨new, h1, h2, -, -⟩ := hrun fuel ⟨[], 0⟩ w' hw
    exact ⟨fuel, w', hw, new, h1, ((h2 (by decide)).2.2 (by decide) ⟨HIGH, HIGH, HIGH⟩).2⟩
  · have hc : Configured screen969 := by decide
    refine ⟨hc, by decide, by decide, by decide, hb, ?_⟩
    obtain ⟨hrun, hdone⟩ := flushGlobal_image_frames constants0 pins0 (fun _ => true)
      screen969 hc
    obtain ⟨fuel, w', hw⟩ := hdone hb ⟨[], 0⟩
    obtain ⟨new, h1, -, h3, -⟩ := hrun fuel ⟨[], 0⟩ w' hw
    exact ⟨fuel, w', hw, new, h1,
      ((h3 (by decide)).2.2 (by decide) (by decide) ⟨HIGH, HIGH, HIGH⟩).2⟩

/-! ## The width/height convention -/

/-- C26 (as amended): for every documented size code other than 0x41, 0x96 and 0xB9 the
geometry resolved by `begin` has native width at most native height, screenWidth
(`_screenSizeH`) <= screenHeight (`_screenSizeV`); for the dual-controller codes 0x96
(`_screenSizeV` = 672, `_screenSizeH` = 960) and 0xB9 (768, 960) the width is greater than
the height. In every case `_screenWidth` is `_screenSizeH` and `_screenHeigth` is
`_screenSizeV`. -/
theorem begin_width_height (c : Colours) (s : Screen)
    (h : (s._eScreen_EPD_EXT3 >>> 8) &&& 0xff ∈ documentedSizes) :
    (begin c s)._screenWidth = (begin c s)._screenSizeH ∧
    (begin c s)._screenHeigth = (begin c s)._screenSizeV ∧
    ((s._eScreen_EPD_EXT3 >>> 8) &&& 0xff ≠ 0x41 →
      (s._eScreen_EPD_EXT3 >>> 8) &&& 0xff ≠ 0x96 →
      (s._eScreen_EPD_EXT3 >>> 8) &&& 0xff ≠ 0xB9 →
      (begin c s)._screenSizeH ≤ (begin c s)._screenSizeV ∧
      (begin c s)._screenWidth ≤ (begin c s)._screenHeigth) ∧
    ((s._eScreen_EPD_EXT3 >>> 8) &&& 0xff = 0x96 →
      (begin c s)._screenSizeV = 672 ∧ (begin c s)._screenSizeH = 960 ∧
      (begin c s)._screenHeigth < (begin c s)._screenWidth) ∧
    ((s._eScreen_EPD_EXT3 >>> 8) &&& 0xff = 0xB9 →
      (begin c s)._screenSizeV = 768 ∧ (begin c s)._screenSizeH = 960 ∧
      (begin c s)._screenHeigth < (begin c s)._screenWidth) := by
  obtain ⟨-, w1, w2⟩ := begin_screenSize c s
  have hg := begin_geometry c s
  simp only [geometry, List.cons.injEq, and_true] at hg
  obtain ⟨-, g2, g3, -⟩ := hg
  obtain ⟨-, f2, f3, -⟩ := beginGeometry_fields s
  have hk : (beginCodes s)._codeSize = (s._eScreen_EPD_EXT3 >>> 8) &&& 0xff := rfl
  have hd := sizeTable_dims (beginCodes s) _ hk
  rw [w1, w2, g2, g3, f2, f3]
  simp only [documentedSizes, List.mem_cons, List.mem_singleton, List.not_mem_nil,
    or_false] at h
  rcases h with h | h | h | h | h | h | h | h | h | h | h | h | h <;>
    · have hx := hd
      simp only [h] at hx
      norm_num at hx
      obtain ⟨hv, hh⟩ := hx
      simp only [hv, hh, h]
      norm_num

/-- Witness for C26 (as amended): the device identifier 0x002100 (212 x 104). -/
theorem begin_width_height_witness :
    (construct 0x002100)._eScreen_EPD_EXT3 >>> 8 &&& 0xff ∈ documentedSizes ∧
      (begin colours565 (construct 0x002100))._screenSizeH ≤
        (begin colours565 (construct 0x002100))._screenSizeV :=
  ⟨by decide,
    ((begin_width_height colours565 (construct 0x002100) (by decide)).2.2.1
      (by decide) (by decide) (by decide)).1⟩

/-- Counterexample for C26 as stated: 0x96 is a documented size code, and for the device
identifier 0x09960B `begin` resolves `_screenSizeH` = 960 and `_screenSizeV` = 672, so the
native width is greater than the native height. -/
theorem begin_width_exceeds_height_969 :
    (construct 0x09960B)._eScreen_EPD_EXT3 >>> 8 &&& 0xff ∈ documentedSizes ∧
      (begin colours565 (construct 0x09960B))._screenSizeH = 960 ∧
      (begin colours565 (construct 0x09960B))._screenSizeV = 672 ∧
      (begin colours565 (construct 0x09960B))._screenWidth = 960 ∧
      (begin colours565 (construct 0x09960B))._screenHeigth = 672 ∧
      ¬ ((begin colours565 (construct 0x09960B))._screenSizeH ≤
        (begin colours565 (construct 0x09960B))._screenSizeV) := by
  refine ⟨by decide, by decide, by decide, by decide, by decide, by decide⟩

end EPD
